import Mathlib

/-!
# esp32-ipcam: RTP packetizer, stream scheduler and Opus aggregation

A shallow embedding of `main/rtp.c` and `main/audio_encoder.c`, with the
statements of `main/ipcam.c`, `main/camera.c` and `main/microphone.c` that call
into them.

Conventions of the embedding

* The target is the ESP32: little-endian, `size_t` and pointers are 32 bits wide.
* Machine integers are `Nat` / `Int` with explicit truncation.
* A `const uint8_t *` together with the memory it points into is a reader
  `Nat → Nat` (byte at pointer + i).  A frame is its reader plus its `length`;
  reads at indices `≥ length` are reads of whatever memory follows the buffer.
* A pointer into the frame buffer that may be `NULL` is an `Option Nat` offset.
* `send(2)` is an oracle: `sendOk i` tells whether the `i`-th call made by the
  function under consideration succeeds.  Every call is recorded together with
  its outcome.
* FreeRTOS queues are lists with a capacity, the counting semaphore is a counter
  with a maximum.  A blocking take on an empty semaphore is a step that is not
  enabled (`none`).
-/

namespace Rtp

/-! ## Constants (rtp.c:16-18, 96-97) -/

def RTP_PT_JPEG : Nat := 26

def PACKET_SIZE : Nat := 1300

def video_queue_size : Nat := 10

def audio_queue_size : Nat := 10

/-! ## Integer conversions -/

/-- Conversion to `uint8_t`. -/
def uint8 (x : Int) : Nat := (x % 256).toNat

/-- Conversion to `uint16_t`. -/
def uint16 (x : Int) : Nat := (x % 65536).toNat

/-- Conversion to `uint32_t` (also `size_t` on the 32-bit target). -/
def uint32 (x : Int) : Nat := (x % 4294967296).toNat

/-- Result of a signed 64-bit operation: two-complement wrap-around. -/
def int64 (x : Int) : Int := (x + 9223372036854775808) % 18446744073709551616 - 9223372036854775808

/-! ## Byte order (rtp.c:20-30 and `<endian.h>` on a little-endian target) -/

/-- The macro `htobe24` of rtp.c:28 (little-endian branch). -/
def htobe24 (x : Nat) : Nat :=
  (x &&& 0xff) <<< 16 ||| (x &&& 0xff00) ||| ((x &&& 0xff0000) >>> 16)

/-- The macro `be24toh` of rtp.c:29 (little-endian branch). -/
def be24toh (x : Nat) : Nat :=
  (x &&& 0xff0000) >>> 16 ||| (x &&& 0xff00) ||| (x &&& 0xff) <<< 16

/-- The libc `htobe16` on a little-endian target: the argument is converted to
`uint16_t` and its two bytes are swapped. -/
def htobe16 (x : Nat) : Nat := (x % 65536 % 256) * 256 + x % 65536 / 256

/-- The libc `be16toh` on a little-endian target (the same byte swap). -/
def be16toh (x : Nat) : Nat := htobe16 x

/-- The libc `htobe32` on a little-endian target: the argument is converted to
`uint32_t` and its four bytes are reversed. -/
def htobe32 (x : Nat) : Nat :=
  (x % 256) * 16777216 + (x / 256 % 256) * 65536 + (x / 65536 % 256) * 256 + x / 16777216 % 256

/-- The libc `be32toh` on a little-endian target (the same byte reversal). -/
def be32toh (x : Nat) : Nat := htobe32 x

/-! ## Wire structures (rtp.c:32-73) -/

/-- RTP header, rtp.c:33-53.  `seq`, `ts` and `ssrc` hold the values as stored
in memory, i.e. after `htobe16` / `htobe32`. -/
structure rtp_hdr_t where
  version : Nat
  p : Nat
  x : Nat
  cc : Nat
  m : Nat
  pt : Nat
  seq : Nat
  ts : Nat
  ssrc : Nat
deriving DecidableEq, Repr

/-- JPEG payload header, rtp.c:55-67.  `off` holds the 24-bit field as stored in
memory, i.e. after `htobe24`. -/
structure jpeg_hdr_t where
  tspec : Nat
  off : Nat
  type : Nat
  q : Nat
  width : Nat
  height : Nat
deriving DecidableEq, Repr

/-- Quantization table header, rtp.c:69-73; `length` as stored (after `htobe16`). -/
structure jpeg_hdr_qtable_t where
  mbz : Nat
  precision : Nat
  length : Nat
deriving DecidableEq, Repr

def sizeof_rtp_hdr_t : Nat := 12

def sizeof_jpeg_hdr_t : Nat := 8

def sizeof_jpeg_hdr_qtable_t : Nat := 4

/-- The part of `packet_buf` handed to `send` by `rtp_send_jpeg_data`:
the two headers, the quantization table header with both tables when they were
copied in this iteration, and the scan bytes. -/
structure jpeg_packet where
  rtp_hdr : rtp_hdr_t
  jpg_hdr : jpeg_hdr_t
  qtbl : Option (jpeg_hdr_qtable_t × List Nat × List Nat)
  data : List Nat
deriving DecidableEq, Repr

/-- The part of `packet_buf` handed to `send` by `rtp_send_opus_frame`. -/
structure opus_packet where
  rtp_hdr : rtp_hdr_t
  data : List Nat
deriving DecidableEq, Repr

/-- Memory image of the RTP header on the little-endian target (bit-fields are
allocated from the least significant bit). -/
def rtp_hdr_t.bytes (h : rtp_hdr_t) : List Nat :=
  [h.cc % 16 + 16 * (h.x % 2) + 32 * (h.p % 2) + 64 * (h.version % 4),
   h.pt % 128 + 128 * (h.m % 2),
   h.seq % 256, h.seq / 256 % 256,
   h.ts % 256, h.ts / 256 % 256, h.ts / 65536 % 256, h.ts / 16777216 % 256,
   h.ssrc % 256, h.ssrc / 256 % 256, h.ssrc / 65536 % 256, h.ssrc / 16777216 % 256]

/-- Memory image of the JPEG header on the little-endian target. -/
def jpeg_hdr_t.bytes (h : jpeg_hdr_t) : List Nat :=
  [h.tspec % 256, h.off % 256, h.off / 256 % 256, h.off / 65536 % 256,
   h.type % 256, h.q % 256, h.width % 256, h.height % 256]

/-- Memory image of the quantization table header. -/
def jpeg_hdr_qtable_t.bytes (h : jpeg_hdr_qtable_t) : List Nat :=
  [h.mbz % 256, h.precision % 256, h.length % 256, h.length / 256 % 256]

/-- The datagram: the bytes `packet_buf[0 .. (ptr - packet_buf) + data_len)`. -/
def jpeg_packet.bytes (k : jpeg_packet) : List Nat :=
  k.rtp_hdr.bytes ++ k.jpg_hdr.bytes ++
    (match k.qtbl with
     | some (h, l, c) => h.bytes ++ l ++ c
     | none => []) ++ k.data

/-- The datagram: the bytes `packet_buf[0 .. sizeof(rtp_hdr_t) + length)`. -/
def opus_packet.bytes (k : opus_packet) : List Nat :=
  k.rtp_hdr.bytes ++ k.data

/-- The bytes `p[0 .. n)` read by `memcpy(_, p, n)`. -/
def memcpy_src (p : Nat → Nat) (n : Nat) : List Nat := (List.range n).map p

/-! ## Frames (rtp.c:75-93) -/

inductive frame_type_t where
  | FRAME_TYPE_JPEG
  | FRAME_TYPE_OPUS
deriving DecidableEq, Repr

/-- The queued unit, rtp.c:80-93.  `free_func = none` is the `NULL` function
pointer; otherwise it identifies the callback. -/
structure frame_t where
  type : frame_type_t
  timestamp : Int
  buffer : Nat → Nat
  length : Nat
  width : Int
  height : Int
  free_func : Option Nat
  free_ctx : Nat

/-- Dereferencing `p + i` for a pointer `p` into the frame buffer.  `NULL` is
never dereferenced by the code (its reads are guarded by `q` or by `len`); the
reader of `NULL` is arbitrary. -/
def deref (buffer : Nat → Nat) (p : Option Nat) : Nat → Nat :=
  fun i =>
    match p with
    | some o => buffer (o + i)
    | none => 0

/-! ## parse_jpeg (rtp.c:152-192) -/

/-- Outcome of `parse_jpeg`: the return value together with the out-parameters. -/
inductive parse_result where
  | ok (lqt cqt scan : Option Nat) (len : Nat)
  | fail
deriving DecidableEq, Repr

/-- The `while` loop of `parse_jpeg`.  `ptr` is `ptr - frame->buffer`.  The first
argument bounds the number of iterations; every iteration advances `ptr` by at
least 2, so `length` iterations always suffice (`parse_jpeg_loop_fuel`). -/
def parse_jpeg_loop (buffer : Nat → Nat) (length : Nat) :
    Nat → Nat → Option Nat → Option Nat → Option Nat → Nat → parse_result
  | 0, _, lqt, cqt, scan, len => parse_result.ok lqt cqt scan len
  | fuel + 1, ptr, lqt, cqt, scan, len =>
    if ptr < length then
      if buffer ptr ≠ 0xff then parse_result.fail
      else if buffer (ptr + 1) = 0xd8 then
        parse_jpeg_loop buffer length fuel (ptr + 2) lqt cqt scan len
      else if buffer (ptr + 1) = 0xdb then
        if buffer (ptr + 4) = 0 then
          parse_jpeg_loop buffer length fuel (ptr + 69) (some (ptr + 5)) cqt scan len
        else if buffer (ptr + 4) = 1 then
          parse_jpeg_loop buffer length fuel (ptr + 69) lqt (some (ptr + 5)) scan len
        else
          parse_jpeg_loop buffer length fuel (ptr + 69) lqt cqt scan len
      else if buffer (ptr + 1) = 0xda then
        parse_result.ok lqt cqt
          (some (ptr + 2 + (buffer (ptr + 2) <<< 8 ||| buffer (ptr + 3))))
          (uint32 ((length : Int)
            - ((ptr + 2 + (buffer (ptr + 2) <<< 8 ||| buffer (ptr + 3)) : Nat) : Int) - 2))
      else if buffer (ptr + 1) = 0xc0 ∨ buffer (ptr + 1) = 0xc4 ∨ buffer (ptr + 1) = 0xe0 then
        parse_jpeg_loop buffer length fuel
          (ptr + 2 + (buffer (ptr + 2) <<< 8 ||| buffer (ptr + 3))) lqt cqt scan len
      else parse_result.fail
    else parse_result.ok lqt cqt scan len

/-- The function `parse_jpeg`; the last four arguments are the values the
out-parameters hold on entry. -/
def parse_jpeg (frame : frame_t) (lqt cqt scan : Option Nat) (len : Nat) : parse_result :=
  parse_jpeg_loop frame.buffer frame.length frame.length 0 lqt cqt scan len

/-! ## rtp_send_jpeg_data (rtp.c:195-270) -/

/-- The `while (bytes_left > 0)` loop of `rtp_send_jpeg_data`.  `n` counts the
calls of `send` made so far.  The result is the list of `send` calls with their
outcome and the value returned at `Error:`.  The first argument bounds the
number of iterations; every iteration consumes at least one byte, so `len`
iterations always suffice (`jpeg_loop_fuel`). -/
def jpeg_loop (sendOk : Nat → Bool) (jpeg_data : Nat → Nat) (q : Nat)
    (qtbl_hdr : jpeg_hdr_qtable_t) (lqt cqt : Nat → Nat) :
    Nat → Nat → rtp_hdr_t → jpeg_hdr_t → Nat → List (jpeg_packet × Bool) × Nat
  | 0, _, rtp_hdr, _, _ => ([], be16toh rtp_hdr.seq)
  | fuel + 1, n, rtp_hdr, jpg_hdr, bytes_left =>
    if bytes_left > 0 then
      let tables : Bool := decide (q ≥ 128 ∧ jpg_hdr.off = 0)
      let hdr_len :=
        if tables then
          sizeof_rtp_hdr_t + sizeof_jpeg_hdr_t + sizeof_jpeg_hdr_qtable_t + 64 + 64
        else sizeof_rtp_hdr_t + sizeof_jpeg_hdr_t
      let last : Bool := decide (PACKET_SIZE - hdr_len ≥ bytes_left)
      let data_len := if last then bytes_left else PACKET_SIZE - hdr_len
      let rtp_hdr1 := if last then { rtp_hdr with m := 1 } else rtp_hdr
      let pkt : jpeg_packet :=
        { rtp_hdr := rtp_hdr1
          jpg_hdr := jpg_hdr
          qtbl := if tables then some (qtbl_hdr, memcpy_src lqt 64, memcpy_src cqt 64) else none
          data := memcpy_src (fun i => jpeg_data (be24toh jpg_hdr.off + i)) data_len }
      if sendOk n then
        let r := jpeg_loop sendOk jpeg_data q qtbl_hdr lqt cqt fuel (n + 1)
          { rtp_hdr1 with seq := htobe16 (be16toh rtp_hdr1.seq + 1) }
          { jpg_hdr with off := htobe24 (be24toh jpg_hdr.off + data_len) }
          (bytes_left - data_len)
        ((pkt, true) :: r.1, r.2)
      else ([(pkt, false)], be16toh rtp_hdr1.seq)
    else ([], be16toh rtp_hdr.seq)

/-- The function `rtp_send_jpeg_data`: the `send` calls it makes and its return
value. -/
def rtp_send_jpeg_data (sendOk : Nat → Bool) (start_seq ts ssrc : Nat)
    (jpeg_data : Nat → Nat) (len : Nat) (type typespec : Nat) (width height : Int)
    (q : Nat) (lqt cqt : Nat → Nat) : List (jpeg_packet × Bool) × Nat :=
  jpeg_loop sendOk jpeg_data q
    { mbz := 0, precision := 0, length := htobe16 128 } lqt cqt len 0
    { version := 2, p := 0, x := 0, cc := 0, m := 0, pt := RTP_PT_JPEG,
      seq := htobe16 start_seq, ts := htobe32 ts, ssrc := htobe32 ssrc }
    { tspec := typespec, off := 0, type := type, q := q,
      width := uint8 (Int.tdiv width 8), height := uint8 (Int.tdiv height 8) }
    len

/-! ## rtp_send_jpeg_frame and rtp_send_opus_frame (rtp.c:272-329) -/

/-- Result of one of the two frame senders: the `send` calls made, the new value
of the function's static `sequence_number`, and the return value. -/
structure send_result (α : Type) where
  sent : List (α × Bool)
  sequence_number : Nat
  ret : Int

/-- The function `rtp_send_jpeg_frame`; `sequence_number` is its static counter. -/
def rtp_send_jpeg_frame (sendOk : Nat → Bool) (sequence_number : Nat) (frame : frame_t) :
    send_result jpeg_packet :=
  match parse_jpeg frame none none none 0 with
  | parse_result.fail => { sent := [], sequence_number := sequence_number, ret := -1 }
  | parse_result.ok lqt cqt jpeg_data len =>
    let q : Nat := if lqt.isNone ∨ cqt.isNone then 0 else 128
    let timestamp := uint32 (Int.tdiv (int64 (frame.timestamp * 90000)) 1000000)
    let r := rtp_send_jpeg_data sendOk sequence_number timestamp 0xdeadbeef
      (deref frame.buffer jpeg_data) len 0 0 frame.width frame.height q
      (deref frame.buffer lqt) (deref frame.buffer cqt)
    { sent := r.1, sequence_number := r.2 % 65536, ret := 0 }

/-- The function `rtp_send_opus_frame`; `sequence_number` is its static counter. -/
def rtp_send_opus_frame (sendOk : Nat → Bool) (sequence_number : Nat) (frame : frame_t) :
    send_result opus_packet :=
  let rtp_hdr : rtp_hdr_t :=
    { version := 2, p := 0, x := 0, cc := 0, m := 1, pt := 97,
      seq := htobe16 sequence_number,
      ts := htobe32 (uint32 (Int.tdiv (int64 (frame.timestamp * 48000)) 1000000)),
      ssrc := htobe32 0xdeadbabe }
  if frame.length > 1000 then
    { sent := [], sequence_number := (sequence_number + 1) % 65536, ret := 0 }
  else
    { sent := [({ rtp_hdr := rtp_hdr, data := memcpy_src frame.buffer frame.length }, sendOk 0)],
      sequence_number := (sequence_number + 1) % 65536, ret := 0 }

/-! ## FreeRTOS primitives, as used with a zero block time -/

/-- Non-blocking `xQueueSend` on a queue of capacity `cap`: the item is appended
unless the queue is full (`none` is `errQUEUE_FULL`). -/
def xQueueSend {α : Type} (cap : Nat) (queue : List α) (item : α) : Option (List α) :=
  if queue.length < cap then some (queue ++ [item]) else none

/-- Non-blocking `xQueueReceive`: removes the head (`none` when the queue is empty). -/
def xQueueReceive {α : Type} (queue : List α) : Option (α × List α) :=
  match queue with
  | [] => none
  | item :: rest => some (item, rest)

/-- Giving a counting semaphore of maximum count `max` (`none` when it is at its
maximum). -/
def xSemaphoreGive (max count : Nat) : Option Nat :=
  if count < max then some (count + 1) else none

/-- Taking a counting semaphore with `portMAX_DELAY`: `none` when the caller blocks. -/
def xSemaphoreTake (count : Nat) : Option Nat :=
  if 0 < count then some (count - 1) else none

/-! ## Scheduler state (rtp.c:99-102, 274, 299, 442-456) -/

/-- The module-level state of rtp.c that the sender and the producers share,
together with the two static sequence counters. -/
structure rtp_state where
  video_queue : List frame_t
  audio_queue : List frame_t
  queue_semaphore : Nat
  jpeg_sequence_number : Nat
  opus_sequence_number : Nat

/-- State established by `rtp_initialize`: empty queues, semaphore count 0,
and the zero-initialised static counters. -/
def rtp_state.init : rtp_state :=
  { video_queue := [], audio_queue := [], queue_semaphore := 0,
    jpeg_sequence_number := 0, opus_sequence_number := 0 }

/-- Observable actions of the sender: calls of `send` on the video socket, on the
audio socket, and calls of a unit's release callback. -/
inductive event where
  | send_video (pkt : jpeg_packet) (ok : Bool)
  | send_audio (pkt : opus_packet) (ok : Bool)
  | free (func ctx : Nat)
deriving DecidableEq, Repr

/-! ## add_frame_to_queue, rtp_send_jpeg, rtp_send_opus (rtp.c:360-421) -/

/-- The function `add_frame_to_queue`: new state and return value. -/
def add_frame_to_queue (s : rtp_state) (frame : frame_t) : rtp_state × Int :=
  match frame.type with
  | frame_type_t.FRAME_TYPE_JPEG =>
    match xQueueSend video_queue_size s.video_queue frame with
    | none => (s, -1)
    | some queue =>
      match xSemaphoreGive (video_queue_size + audio_queue_size) s.queue_semaphore with
      | none => ({ s with video_queue := queue }, -1)
      | some count => ({ s with video_queue := queue, queue_semaphore := count }, 0)
  | frame_type_t.FRAME_TYPE_OPUS =>
    match xQueueSend audio_queue_size s.audio_queue frame with
    | none => (s, -1)
    | some queue =>
      match xSemaphoreGive (video_queue_size + audio_queue_size) s.queue_semaphore with
      | none => ({ s with audio_queue := queue }, -1)
      | some count => ({ s with audio_queue := queue, queue_semaphore := count }, 0)

/-- The function `rtp_send_jpeg`. -/
def rtp_send_jpeg (s : rtp_state) (width height : Int) (buffer : Nat → Nat) (length : Nat)
    (timestamp : Int) (free_func : Option Nat) (ctx : Nat) : rtp_state × Int :=
  add_frame_to_queue s
    { type := frame_type_t.FRAME_TYPE_JPEG, timestamp := timestamp, buffer := buffer,
      length := length, width := width, height := height,
      free_func := free_func, free_ctx := ctx }

/-- The function `rtp_send_opus` (the `jpeg` member of the union is left zero). -/
def rtp_send_opus (s : rtp_state) (buffer : Nat → Nat) (length : Nat)
    (timestamp : Int) (free_func : Option Nat) (ctx : Nat) : rtp_state × Int :=
  add_frame_to_queue s
    { type := frame_type_t.FRAME_TYPE_OPUS, timestamp := timestamp, buffer := buffer,
      length := length, width := 0, height := 0,
      free_func := free_func, free_ctx := ctx }

/-! ## stream_task (rtp.c:331-358) -/

/-- The `if (frame.free_func) frame.free_func(frame.free_ctx)` of stream_task. -/
def free_frame (frame : frame_t) : List event :=
  match frame.free_func with
  | some f => [event.free f frame.free_ctx]
  | none => []

/-- The body of the loop of `stream_task` after a unit was obtained: the
`switch` on the type, then the release of the unit. -/
def stream_task_send (sendOk : Nat → Bool) (s : rtp_state) (frame : frame_t) :
    rtp_state × List event :=
  match frame.type with
  | frame_type_t.FRAME_TYPE_JPEG =>
    let r := rtp_send_jpeg_frame sendOk s.jpeg_sequence_number frame
    ({ s with jpeg_sequence_number := r.sequence_number },
      r.sent.map (fun k => event.send_video k.1 k.2) ++ free_frame frame)
  | frame_type_t.FRAME_TYPE_OPUS =>
    let r := rtp_send_opus_frame sendOk s.opus_sequence_number frame
    ({ s with opus_sequence_number := r.sequence_number },
      r.sent.map (fun k => event.send_audio k.1 k.2) ++ free_frame frame)

/-- One iteration of the loop of `stream_task`: `none` when the task blocks on
the semaphore; otherwise the new state and the actions performed. -/
def stream_task_step (sendOk : Nat → Bool) (s : rtp_state) : Option (rtp_state × List event) :=
  match xSemaphoreTake s.queue_semaphore with
  | none => none
  | some count =>
    match xQueueReceive s.audio_queue with
    | some (frame, rest) =>
      some (stream_task_send sendOk
        { s with queue_semaphore := count, audio_queue := rest } frame)
    | none =>
      match xQueueReceive s.video_queue with
      | some (frame, rest) =>
        some (stream_task_send sendOk
          { s with queue_semaphore := count, video_queue := rest } frame)
      | none => some ({ s with queue_semaphore := count }, [])

/-- The unit an iteration of `stream_task` dequeues, if any. -/
def stream_task_dequeued (s : rtp_state) : Option frame_t :=
  match xSemaphoreTake s.queue_semaphore with
  | none => none
  | some _ =>
    match xQueueReceive s.audio_queue with
    | some (frame, _) => some frame
    | none =>
      match xQueueReceive s.video_queue with
      | some (frame, _) => some frame
      | none => none

/-! ## Runs of the scheduler -/

/-- An atomic step of the system around the two queues: a producer calling
`add_frame_to_queue`, or one iteration of the sender loop with its `send` oracle. -/
inductive action where
  | enqueue (frame : frame_t)
  | sender (sendOk : Nat → Bool)

/-- Effect of one action: a blocked sender leaves the state as it is. -/
def step (s : rtp_state) (a : action) : rtp_state × List event :=
  match a with
  | action.enqueue frame => ((add_frame_to_queue s frame).1, [])
  | action.sender sendOk =>
    match stream_task_step sendOk s with
    | some r => r
    | none => (s, [])

/-- Effect of a sequence of actions: final state and all actions of the sender. -/
def run (s : rtp_state) : List action → rtp_state × List event
  | [] => (s, [])
  | a :: rest =>
    let r1 := step s a
    let r2 := run r1.1 rest
    (r2.1, r1.2 ++ r2.2)

/-- The states reachable from the state established by `rtp_initialize`. -/
def reachable (s : rtp_state) : Prop := ∃ acts : List action, (run rtp_state.init acts).1 = s

/-- The units accepted during a run from `s`: those for which
`add_frame_to_queue` returned 0. -/
def accepted (s : rtp_state) : List action → List frame_t
  | [] => []
  | action.enqueue frame :: rest =>
    (if (add_frame_to_queue s frame).2 = 0 then [frame] else [])
      ++ accepted (step s (action.enqueue frame)).1 rest
  | action.sender sendOk :: rest => accepted (step s (action.sender sendOk)).1 rest

/-- Number of units of `l` whose release obligation is the call `func(ctx)`. -/
def carrying (func ctx : Nat) (l : List frame_t) : Nat :=
  l.countP (fun u => decide (u.free_func = some func ∧ u.free_ctx = ctx))

/-- Number of calls `func(ctx)` among the actions of the sender. -/
def released (func ctx : Nat) (evs : List event) : Nat :=
  evs.count (event.free func ctx)

/-- Invariant of the scheduler: the semaphore counts the queued units and no
queue exceeds its capacity. -/
def queues_inv (s : rtp_state) : Prop :=
  s.queue_semaphore = s.video_queue.length + s.audio_queue.length ∧
    s.video_queue.length ≤ video_queue_size ∧ s.audio_queue.length ≤ audio_queue_size

end Rtp

namespace AudioEncoder

/-! ## Constants (audio_encoder.c:11-13) -/

def opus_frame_length_ms : Nat := 20

def opus_max_combined_frames : Nat := 120 / opus_frame_length_ms

def opus_max_packet_size : Nat := 3 * 1276

/-- Identifier of the libc function `free` when it is passed as a callback. -/
def libc_free : Nat := 0

/-! ## Data (audio_encoder.c:15-51) -/

/-- The raw audio frame, audio_encoder.c:15-21. -/
structure frame_t where
  samples : List Int
  number_of_samples : Nat
  timestamp : Int
  free_func : Nat
  ctx : Nat

/-- The functions of libopus the encoder calls, over an encoder state `E` and a
repacketizer state `R`.  They are external to the repository and are taken as
parameters.

* `opus_encode st pcm frame_size max_data_bytes` gives the new encoder state,
  the return value (length or negative error) and the bytes written;
* `opus_repacketizer_cat rp data len` gives the new repacketizer state and the
  return value (0 is `OPUS_OK`);
* `opus_repacketizer_out rp maxlen` gives the return value (length or negative
  error) and the bytes written. -/
structure libopus (E R : Type) where
  opus_encode : E → List Int → Nat → Nat → E × Int × List Nat
  opus_repacketizer_cat : R → List Nat → Int → R × Int
  opus_repacketizer_get_nb_frames : R → Nat
  opus_repacketizer_out : R → Nat → Int × List Nat
  opus_repacketizer_init : R → R

/-- The encoder object, audio_encoder.c:39-51 (the `opus` member of the union is
flattened; `ops` has the single value `opus_encoder`). -/
structure audio_encoder_t (E R : Type) where
  sample_rate : Nat
  encoder : E
  repacketizer : R
  current_frame : Nat
  pending_frames : List (List Nat)
  first_frame_timestamp : Int

/-- What the aggregation touches: the encoder object, the state of rtp.c behind
`rtp_send_opus`, and the number of buffers handed out by `malloc` so far (the
next buffer is identified by that number). -/
structure world (E R : Type) where
  audio_encoder : audio_encoder_t E R
  rtp : Rtp.rtp_state
  heap : Nat

/-- Calls observed from the aggregation: `push_audio_packet(data, length,
timestamp)` with the bytes of `data` and its return value, and `free(data)`. -/
inductive call where
  | push_audio_packet (data : Nat) (bytes : List Nat) (length : Nat) (timestamp : Int) (ret : Int)
  | free (data : Nat)
deriving DecidableEq, Repr

/-- The encoder object after `calloc` and `opus_init`: index 0 and
`opus_max_combined_frames` scratch buffers. -/
def audio_encoder_t.init {E R : Type} (sample_rate : Nat) (encoder : E) (repacketizer : R) :
    audio_encoder_t E R :=
  { sample_rate := sample_rate, encoder := encoder, repacketizer := repacketizer,
    current_frame := 0, pending_frames := List.replicate opus_max_combined_frames [],
    first_frame_timestamp := 0 }

/-! ## push_audio_packet, opus_combine_packets, opus_encode_frame
(audio_encoder.c:56-60, 91-142) -/

/-- The function `push_audio_packet`: `rtp_send_opus(data, length, timestamp, free, data)`. -/
def push_audio_packet (s : Rtp.rtp_state) (data : Nat) (bytes : List Nat) (length : Nat)
    (timestamp : Int) : Rtp.rtp_state × Int :=
  Rtp.rtp_send_opus s (fun i => bytes.getD i 0) length timestamp (some libc_free) data

/-- The function `opus_combine_packets`. -/
def opus_combine_packets {E R : Type} (lib : libopus E R) (w : world E R) :
    world E R × List call × Int :=
  let max_combined_length :=
    1277 * lib.opus_repacketizer_get_nb_frames w.audio_encoder.repacketizer
  let data := w.heap
  let out := lib.opus_repacketizer_out w.audio_encoder.repacketizer max_combined_length
  let a := { w.audio_encoder with
    repacketizer := lib.opus_repacketizer_init w.audio_encoder.repacketizer }
  if out.1 < 0 then
    ({ w with audio_encoder := a, heap := w.heap + 1 }, [call.free data], -1)
  else
    let r := push_audio_packet w.rtp data out.2 (Rtp.uint32 out.1) a.first_frame_timestamp
    ({ audio_encoder := a, rtp := r.1, heap := w.heap + 1 },
      [call.push_audio_packet data out.2 (Rtp.uint32 out.1) a.first_frame_timestamp r.2], r.2)

/-- The function `opus_encode_frame`. -/
def opus_encode_frame {E R : Type} (lib : libopus E R) (w : world E R) (frame : frame_t) :
    world E R × List call × Int :=
  let a := w.audio_encoder
  let a1 :=
    if a.current_frame = 0 then { a with first_frame_timestamp := frame.timestamp } else a
  let enc := lib.opus_encode a1.encoder frame.samples frame.number_of_samples
    opus_max_packet_size
  let a2 := { a1 with
    encoder := enc.1, pending_frames := a1.pending_frames.set a1.current_frame enc.2.2 }
  if enc.2.1 < 0 then ({ w with audio_encoder := a2 }, [], -1)
  else
    let cat := lib.opus_repacketizer_cat a2.repacketizer enc.2.2 enc.2.1
    let a3 := { a2 with repacketizer := cat.1 }
    if cat.2 ≠ 0 then ({ w with audio_encoder := a3 }, [], -1)
    else
      let a4 := { a3 with current_frame := a3.current_frame + 1 }
      if a4.current_frame ≠ opus_max_combined_frames then
        ({ w with audio_encoder := a4 }, [], 0)
      else
        opus_combine_packets lib { w with audio_encoder := { a4 with current_frame := 0 } }

/-- Frames fed one by one to `opus_encode_frame` (what `audio_encoder_task`
does with the frames it dequeues): final world and all calls observed. -/
def opus_encode_frames {E R : Type} (lib : libopus E R) (w : world E R) :
    List frame_t → world E R × List call
  | [] => (w, [])
  | frame :: rest =>
    let r1 := opus_encode_frame lib w frame
    let r2 := opus_encode_frames lib r1.1 rest
    (r2.1, r1.2.1 ++ r2.2)

/-- A libopus that never fails, used to instantiate the results: every
sub-frame is encoded to one byte, the repacketizer collects the sub-frames and
gives back their concatenation. -/
def sample_libopus : libopus Nat (List (List Nat)) :=
  { opus_encode := fun e _ _ _ => (e + 1, 1, [e % 256])
    opus_repacketizer_cat := fun r data _ => (r ++ [data], 0)
    opus_repacketizer_get_nb_frames := fun r => r.length
    opus_repacketizer_out := fun r _ => ((r.foldr (fun x acc => x ++ acc) []).length,
      r.foldr (fun x acc => x ++ acc) [])
    opus_repacketizer_init := fun _ => [] }

/-- The world after initialisation, over `sample_libopus`. -/
def sample_world : world Nat (List (List Nat)) :=
  { audio_encoder := audio_encoder_t.init 16000 0 [], rtp := Rtp.rtp_state.init, heap := 0 }

/-- A raw frame of 320 samples captured at `timestamp`. -/
def sample_frame (timestamp : Int) : frame_t :=
  { samples := List.replicate 320 0, number_of_samples := 320, timestamp := timestamp,
    free_func := libc_free, ctx := 0 }

/-- Timestamp of a call of `push_audio_packet`. -/
def call.pushed_timestamp : call → Option Int
  | call.push_audio_packet _ _ _ timestamp _ => some timestamp
  | call.free _ => none

end AudioEncoder

namespace Rtp

/-! ## Frames over explicit byte lists (used to instantiate the results) -/

/-- Reader of a buffer that holds the bytes `l`; what follows the buffer reads as 0. -/
def bytes_at (l : List Nat) : Nat → Nat := fun i => l.getD i 0

/-- The unit `rtp_send_jpeg` builds for a 640x480 frame held in `l`, released by
callback 1. -/
def jpeg_frame_of (l : List Nat) (timestamp : Int) (ctx : Nat) : frame_t :=
  { type := frame_type_t.FRAME_TYPE_JPEG, timestamp := timestamp, buffer := bytes_at l,
    length := l.length, width := 640, height := 480, free_func := some 1, free_ctx := ctx }

/-- The unit `rtp_send_opus` builds for a packet held in `l`, released by callback 0. -/
def opus_frame_of (l : List Nat) (timestamp : Int) (ctx : Nat) : frame_t :=
  { type := frame_type_t.FRAME_TYPE_OPUS, timestamp := timestamp, buffer := bytes_at l,
    length := l.length, width := 0, height := 0, free_func := some 0, free_ctx := ctx }

/-- SOI, SOS with an empty header, three scan bytes, EOI. -/
def sample_jpeg : List Nat := [0xff, 0xd8, 0xff, 0xda, 0x00, 0x02, 1, 2, 3, 0xff, 0xd9]

/-- A segment `parse_jpeg` steps over: SOI; DQT, the marker and the 67 bytes
that follow it; SOF0, DHT or APP0 (`marker` is 0xc0, 0xc4 or 0xe0) with the two
bytes of its length field and the bytes that follow them. -/
inductive segment where
  | soi
  | dqt (body : List Nat)
  | skip (marker hi lo : Nat) (body : List Nat)
deriving DecidableEq, Repr

/-- The bytes of a segment. -/
def segment.bytes : segment → List Nat
  | segment.soi => [0xff, 0xd8]
  | segment.dqt body => 0xff :: 0xdb :: body
  | segment.skip marker hi lo body => 0xff :: marker :: hi :: lo :: body

/-- Well-formed segment: a DQT segment has 69 bytes; the marker of a skipped
segment is SOF0, DHT or APP0 and its length field counts itself and the bytes
that follow it. -/
def segment.wf : segment → Prop
  | segment.soi => True
  | segment.dqt body => body.length = 67
  | segment.skip marker hi lo body =>
    (marker = 0xc0 ∨ marker = 0xc4 ∨ marker = 0xe0) ∧ (hi <<< 8 ||| lo) = 2 + body.length

/-- The bytes of a sequence of segments. -/
def segments_bytes : List segment → List Nat
  | [] => []
  | g :: rest => g.bytes ++ segments_bytes rest

/-- SOI, a DQT segment with table id 0 (64 bytes 1), a DQT segment with table id
1 (64 bytes 2), SOS with an empty header, three scan bytes, EOI. -/
def sample_jpeg_tables : List Nat :=
  segments_bytes [segment.soi, segment.dqt ([0, 67, 0] ++ List.replicate 64 1),
    segment.dqt ([0, 67, 1] ++ List.replicate 64 2)]
    ++ [0xff, 0xda, 0x00, 0x02, 7, 8, 9, 0xff, 0xd9]

/-- Ten calls of `rtp_send_jpeg`, with release contexts 0 to 9. -/
def ten_jpeg : List action :=
  (List.range 10).map (fun i => action.enqueue (jpeg_frame_of sample_jpeg 0 i))

/-- Ten calls of `rtp_send_opus`, with release contexts 100 to 109. -/
def ten_opus : List action :=
  (List.range 10).map (fun i => action.enqueue (opus_frame_of [1, 2, 3] 0 (100 + i)))

end Rtp

namespace Rtp

/-! ## Sequences of units handled by the sender -/

/-- Units handled one after the other by `rtp_send_jpeg_frame`, the static
counter being carried from one call to the next: the `send` calls made for each
unit and the final value of the counter. -/
def rtp_send_jpeg_frames (sendOk : Nat → Bool) :
    Nat → List frame_t → List (List (jpeg_packet × Bool)) × Nat
  | sequence_number, [] => ([], sequence_number)
  | sequence_number, frame :: rest =>
    let r := rtp_send_jpeg_frame sendOk sequence_number frame
    let t := rtp_send_jpeg_frames sendOk r.sequence_number rest
    (r.sent :: t.1, t.2)

/-- Units handled one after the other by `rtp_send_opus_frame`, the static
counter being carried from one call to the next: the `send` calls made for each
unit and the final value of the counter. -/
def rtp_send_opus_frames (sendOk : Nat → Bool) :
    Nat → List frame_t → List (List (opus_packet × Bool)) × Nat
  | sequence_number, [] => ([], sequence_number)
  | sequence_number, frame :: rest =>
    let r := rtp_send_opus_frame sendOk sequence_number frame
    let t := rtp_send_opus_frames sendOk r.sequence_number rest
    (r.sent :: t.1, t.2)

/-! ## Sockets (rtp.c:99-150, 423-440; ipcam.c:630-633) -/

/-- Modelled from the spec: the macro `IN_MULTICAST` of the IP stack headers,
which are not part of the sources.  It holds when the top four bits of the
host-order address are 1110, i.e. for 224.0.0.0 to 239.255.255.255. -/
def IN_MULTICAST (a : Nat) : Bool := decide (a &&& 0xf0000000 = 0xe0000000)

/-- Calls into the socket layer, with their arguments and outcome. -/
inductive syscall where
  | socket (ret : Int)
  | setsockopt_multicast_ttl (sock : Int) (ttl : Nat) (ret : Int)
  | connect (sock : Int) (addr port : Nat) (ret : Int)
  | close (sock : Int)
  | send (sock : Int) (bytes : List Nat) (ok : Bool)
deriving DecidableEq, Repr

/-- What the socket layer answers.  `inet_pton` gives the address as the
host-order number `ntohl(dst.sin_addr.s_addr)`, or `none` when it returns 0;
`socket_video` and `socket_audio` are what `socket` returns when it is called
for the video and for the audio stream; `setsockopt` and `connect` give their
return value for a descriptor. -/
structure net_env where
  inet_pton : String → Option Nat
  socket_video : Int
  socket_audio : Int
  setsockopt : Int → Int
  connect : Int → Int

/-- Whether the FreeRTOS objects of `rtp_initialize` could be created. -/
structure rtos_env where
  video_queue_created : Bool
  audio_queue_created : Bool
  semaphore_created : Bool
  task_created : Bool

/-- The module variables `video_socket`, `audio_socket` and `ttl` (rtp.c:99-100). -/
structure rtp_sockets where
  video_socket : Int
  audio_socket : Int
  ttl : Nat
deriving DecidableEq, Repr

/-- The static initialisers of rtp.c:99-100. -/
def rtp_sockets.init : rtp_sockets := { video_socket := -1, audio_socket := -1, ttl := 1 }

/-- The function `create_socket`; `ttl` is the current value of the module
variable and `socket_ret` what `socket` returns if it is called.  The result is
the return value and the calls made. -/
def create_socket (env : net_env) (ttl : Nat) (socket_ret : Int) (destination : String)
    (port : Nat) : Int × List syscall :=
  if port = 0 then (-1, [])
  else
    match env.inet_pton destination with
    | none => (-1, [])
    | some addr =>
      if socket_ret < 0 then (-1, [syscall.socket socket_ret])
      else if IN_MULTICAST addr = true ∧ env.setsockopt socket_ret ≠ 0 then
        (-1, [syscall.socket socket_ret,
          syscall.setsockopt_multicast_ttl socket_ret ttl (env.setsockopt socket_ret),
          syscall.close socket_ret])
      else if env.connect socket_ret < 0 then
        (-1, [syscall.socket socket_ret]
          ++ (if IN_MULTICAST addr = true then
                [syscall.setsockopt_multicast_ttl socket_ret ttl (env.setsockopt socket_ret)]
              else [])
          ++ [syscall.connect socket_ret addr port (env.connect socket_ret),
            syscall.close socket_ret])
      else
        (socket_ret, [syscall.socket socket_ret]
          ++ (if IN_MULTICAST addr = true then
                [syscall.setsockopt_multicast_ttl socket_ret ttl (env.setsockopt socket_ret)]
              else [])
          ++ [syscall.connect socket_ret addr port (env.connect socket_ret)])

/-- The function `rtp_ttl_set` (its argument is a `uint8_t`). -/
def rtp_ttl_set (g : rtp_sockets) (_ttl : Nat) : rtp_sockets := { g with ttl := _ttl }

/-- The function `rtp_initialize`, as far as the sockets are concerned: the new
module variables, the calls into the socket layer, and the return value. -/
def rtp_initialize (env : net_env) (rtos : rtos_env) (g : rtp_sockets) (destination : String)
    (video_port audio_port : Nat) : rtp_sockets × List syscall × Int :=
  let v := create_socket env g.ttl env.socket_video destination video_port
  let a := create_socket env g.ttl env.socket_audio destination audio_port
  let g1 : rtp_sockets := { g with video_socket := v.1, audio_socket := a.1 }
  if v.1 < 0 ∨ (audio_port ≠ 0 ∧ a.1 < 0) then (g1, v.2 ++ a.2, -1)
  else if rtos.video_queue_created = false ∨ rtos.audio_queue_created = false then
    (g1, v.2 ++ a.2, -1)
  else if rtos.semaphore_created = false then (g1, v.2 ++ a.2, -1)
  else if rtos.task_created = false then (g1, v.2 ++ a.2, -1)
  else (g1, v.2 ++ a.2, 0)

/-- The statements of `app_main` at ipcam.c:631-633, from the module variables
as statically initialised: `ESP_ERROR_CHECK( rtp_initialize(host, video port,
audio port))`, which aborts on failure, then `rtp_ttl_set(config_rtp_ttl_get())`.
The configuration values are the last four arguments. -/
def app_main_rtp (env : net_env) (rtos : rtos_env) (config_rtp_host : String)
    (config_rtp_video_port config_rtp_audio_port config_rtp_ttl : Nat) :
    rtp_sockets × List syscall × Int :=
  let r := rtp_initialize env rtos rtp_sockets.init config_rtp_host config_rtp_video_port
    config_rtp_audio_port
  if r.2.2 ≠ 0 then r else (rtp_ttl_set r.1 config_rtp_ttl, r.2.1, 0)

/-- The hop limits handed to `setsockopt(IP_MULTICAST_TTL)` in a list of calls. -/
def applied_ttls : List syscall → List (Int × Nat)
  | [] => []
  | syscall.setsockopt_multicast_ttl sock ttl _ :: rest => (sock, ttl) :: applied_ttls rest
  | _ :: rest => applied_ttls rest

/-- The call into the socket layer behind an action of the sender: `send` on
`video_socket` for a JPEG datagram, on `audio_socket` for an Opus datagram. -/
def event.syscalls (g : rtp_sockets) : event → List syscall
  | event.send_video pkt ok => [syscall.send g.video_socket pkt.bytes ok]
  | event.send_audio pkt ok => [syscall.send g.audio_socket pkt.bytes ok]
  | event.free _ _ => []

/-- An environment in which every call succeeds: the address 239.0.0.1 for
the host "239.0.0.1", 192.168.1.10 for any other host, descriptors 3 and 4. -/
def sample_net_env : net_env :=
  { inet_pton := fun host => if host = "239.0.0.1" then some 4009754625 else some 3232235786
    socket_video := 3
    socket_audio := 4
    setsockopt := fun _ => 0
    connect := fun _ => 0 }

/-- Every FreeRTOS object is created. -/
def sample_rtos_env : rtos_env :=
  { video_queue_created := true, audio_queue_created := true, semaphore_created := true,
    task_created := true }

end Rtp

namespace AudioEncoder

/-! ## Intake queue (audio_encoder.c:53, 197-209, 246) -/

/-- Number of slots `audio_encoder_initialize` gives to `frames_queue`
(`xQueueCreate(5, sizeof(frame_t))`, audio_encoder.c:246). -/
def frames_queue_size : Nat := 5

/-- The function `audio_encoder_encode` on the state of `frames_queue`: the new
queue and the return value `xQueueSend(frames_queue, &frame, 0) != pdTRUE`. -/
def audio_encoder_encode (frames_queue : List frame_t) (samples : List Int)
    (number_of_samples : Nat) (timestamp : Int) (free_func ctx : Nat) :
    List frame_t × Int :=
  match Rtp.xQueueSend frames_queue_size frames_queue
      { samples := samples, number_of_samples := number_of_samples, timestamp := timestamp,
        free_func := free_func, ctx := ctx } with
  | some queue => (queue, 0)
  | none => (frames_queue, 1)

/-- Calls of `audio_encoder_encode` made one after the other while the
processing task makes no progress: the final queue and the return values. -/
def audio_encoder_encode_all : List frame_t → List frame_t → List frame_t × List Int
  | frames_queue, [] => (frames_queue, [])
  | frames_queue, frame :: rest =>
    let r := audio_encoder_encode frames_queue frame.samples frame.number_of_samples
      frame.timestamp frame.free_func frame.ctx
    let t := audio_encoder_encode_all r.1 rest
    (t.1, r.2 :: t.2)

end AudioEncoder

namespace Rtp

/-! ## Closed form of the fragmentation -/

/-- Room for scan bytes in fragment `i` of a frame: the packet size less the RTP
and JPEG headers, and less the table header and the two tables in the first
fragment when `q ≥ 128`. -/
def fragment_room (q i : Nat) : Nat :=
  if q ≥ 128 ∧ i = 0 then
    PACKET_SIZE - (sizeof_rtp_hdr_t + sizeof_jpeg_hdr_t + sizeof_jpeg_hdr_qtable_t + 64 + 64)
  else PACKET_SIZE - (sizeof_rtp_hdr_t + sizeof_jpeg_hdr_t)

/-- Number of scan bytes carried by the fragments before fragment `i` when every
one of them is full. -/
def fragment_offset (q : Nat) : Nat → Nat
  | 0 => 0
  | i + 1 => fragment_offset q i + fragment_room q i

end Rtp

namespace Rtp

/-! ## Table pointers set while stepping over segments -/

/-- The luminance pointer after the loop of `parse_jpeg` has stepped over the
segment `g` found at offset `p`: a DQT segment whose fifth byte is 0 sets it to
`p + 5`. -/
def segment.lqt_after (p : Nat) (g : segment) (lqt : Option Nat) : Option Nat :=
  match g with
  | segment.dqt body => if body.getD 2 0 = 0 then some (p + 5) else lqt
  | _ => lqt

/-- The chrominance pointer after the loop of `parse_jpeg` has stepped over the
segment `g` found at offset `p`: a DQT segment whose fifth byte is 1 sets it to
`p + 5`. -/
def segment.cqt_after (p : Nat) (g : segment) (cqt : Option Nat) : Option Nat :=
  match g with
  | segment.dqt body =>
    if body.getD 2 0 = 0 then cqt else if body.getD 2 0 = 1 then some (p + 5) else cqt
  | _ => cqt

/-- Both pointers after the loop has stepped over the segments `segs` found
from offset `p` on. -/
def segments_tables : Nat → List segment → Option Nat × Option Nat → Option Nat × Option Nat
  | _, [], t => t
  | p, g :: rest, t =>
    segments_tables (p + g.bytes.length) rest (g.lqt_after p t.1, g.cqt_after p t.2)

end Rtp
namespace Rtp

/-- A frame of the shape SOI, DQT with table id 0 and table `T0`, DQT with table
id 1 and table `T1`, the segments `skips`, SOS with length bytes `hi`, `lo` and
header `hdr`, the scan bytes `S`, EOI.  `h0 l0` and `h1 l1` are the length
bytes of the two DQT segments. -/
def well_formed_jpeg (h0 l0 h1 l1 : Nat) (T0 T1 : List Nat) (skips : List segment)
    (hi lo : Nat) (hdr S : List Nat) : List Nat :=
  segments_bytes ([segment.soi, segment.dqt (h0 :: l0 :: 0 :: T0),
      segment.dqt (h1 :: l1 :: 1 :: T1)] ++ skips)
    ++ (0xff :: 0xda :: hi :: lo :: (hdr ++ S ++ [0xff, 0xd9]))

end Rtp

namespace AudioEncoder

/-- A libopus like `sample_libopus` whose third call of `opus_encode` fails. -/
def encode_failing_libopus : libopus Nat (List (List Nat)) :=
  { sample_libopus with
    opus_encode := fun e _ _ _ => if e = 2 then (e + 1, -1, []) else (e + 1, 1, [e % 256]) }

/-- A libopus like `sample_libopus` whose `opus_repacketizer_out` fails. -/
def out_failing_libopus : libopus Nat (List (List Nat)) :=
  { sample_libopus with opus_repacketizer_out := fun _ _ => (-1, []) }

end AudioEncoder

namespace Rtp

/-! ## Resolutions (camera.c:51-90) -/

/-- The entries of the table of `resolution_to_frame_size`: the name of each
resolution with the width and the height of the frames it stands for. -/
def resolutions : List (String × Int × Int) :=
  [("96x96", 96, 96), ("160x120", 160, 120), ("176x144", 176, 144), ("240x176", 240, 176),
   ("240x240", 240, 240), ("320x240", 320, 240), ("400x296", 400, 296), ("480x320", 480, 320),
   ("640x480", 640, 480), ("800x600", 800, 600), ("1024x768", 1024, 768),
   ("1280x720", 1280, 720), ("1280x1024", 1280, 1024), ("1600x1200", 1600, 1200),
   ("1920x1080", 1920, 1080), ("720x1280", 720, 1280), ("864x1536", 864, 1536),
   ("2048x1536", 2048, 1536), ("2560x1440", 2560, 1440), ("2560x1600", 2560, 1600),
   ("1080x1920", 1080, 1920), ("2560x1920", 2560, 1920)]

/-- The unit `rtp_send_jpeg` builds for a frame of the given dimensions held in `l`. -/
def jpeg_frame_sized (width height : Int) (l : List Nat) : frame_t :=
  { type := frame_type_t.FRAME_TYPE_JPEG, timestamp := 0, buffer := bytes_at l,
    length := l.length, width := width, height := height, free_func := some 1, free_ctx := 0 }

end Rtp

namespace AudioEncoder

/-! ## audio_encoder_task and microphone_capture_task
(audio_encoder.c:181-195, microphone.c:21-51) -/

/-- Calls observed from the two tasks around the intake queue: a call made by
the aggregation, and the call `free_func(ctx)` that releases a raw frame. -/
inductive task_event where
  | aggregation (c : call)
  | release (free_func ctx : Nat)
deriving DecidableEq, Repr

/-- One iteration of the loop of `audio_encoder_task`: `none` when the task
blocks on the empty queue; otherwise the frame is dequeued, handed to
`opus_encode_frame` and released with `frame.free_func(frame.ctx)`. -/
def audio_encoder_task_step {E R : Type} (lib : libopus E R) (w : world E R)
    (frames_queue : List frame_t) : Option (world E R × List frame_t × List task_event) :=
  match Rtp.xQueueReceive frames_queue with
  | none => none
  | some (frame, rest) =>
    let r := opus_encode_frame lib w frame
    some (r.1, rest,
      r.2.1.map task_event.aggregation ++ [task_event.release frame.free_func frame.ctx])

/-- One iteration of the loop of `microphone_capture_task` once the capture
semaphore is taken: `pcm_buffer` is the buffer `malloc` hands out, `read_ok`
tells whether `i2s_channel_read` succeeds, `samples` and `pcm_length` are what
it reads and `timestamp` is what `esp_timer_get_time` returns.  The result of
`audio_encoder_encode` is discarded and the task makes no call of `free`. -/
def microphone_capture_task_step (frames_queue : List frame_t) (pcm_buffer : Nat)
    (read_ok : Bool) (samples : List Int) (pcm_length : Nat) (timestamp : Int) :
    List frame_t × List task_event :=
  if read_ok = false then (frames_queue, [])
  else
    ((audio_encoder_encode frames_queue samples (pcm_length / 2) timestamp libc_free
      pcm_buffer).1, [])

/-- An atomic step of the two tasks: an iteration of `microphone_capture_task`
or an iteration of `audio_encoder_task`. -/
inductive task_action where
  | capture (pcm_buffer : Nat) (read_ok : Bool) (samples : List Int) (pcm_length : Nat)
      (timestamp : Int)
  | encode

/-- Effect of one step on the aggregation and the intake queue; a blocked
`audio_encoder_task` leaves them as they are. -/
def task_step {E R : Type} (lib : libopus E R) (st : world E R × List frame_t) :
    task_action → (world E R × List frame_t) × List task_event
  | task_action.capture pcm_buffer read_ok samples pcm_length timestamp =>
    let r := microphone_capture_task_step st.2 pcm_buffer read_ok samples pcm_length timestamp
    ((st.1, r.1), r.2)
  | task_action.encode =>
    match audio_encoder_task_step lib st.1 st.2 with
    | some r => ((r.1, r.2.1), r.2.2)
    | none => (st, [])

/-- Effect of a sequence of steps: final state and all calls observed. -/
def task_run {E R : Type} (lib : libopus E R) :
    world E R × List frame_t → List task_action → (world E R × List frame_t) × List task_event
  | st, [] => (st, [])
  | st, a :: rest =>
    let r1 := task_step lib st a
    let r2 := task_run lib r1.1 rest
    (r2.1, r1.2 ++ r2.2)

/-- The buffer a step captures into, if it is a capture. -/
def task_action.pcm_buffer : task_action → Option Nat
  | task_action.capture pcm_buffer _ _ _ _ => some pcm_buffer
  | task_action.encode => none

/-- A full intake queue: five raw frames held in the buffers 0 to 4. -/
def sample_full_queue : List frame_t :=
  (List.range 5).map (fun i => { sample_frame (Int.ofNat i) with ctx := i })

end AudioEncoder

namespace Rtp

/-- The unit `rtp_send_jpeg` builds for a 640x480 frame of `length` bytes in a
memory that reads `memory`: the bytes of `memory` from index `length` on lie
behind the frame. -/
def jpeg_frame_in (memory : List Nat) (length : Nat) : frame_t :=
  { type := frame_type_t.FRAME_TYPE_JPEG, timestamp := 0, buffer := bytes_at memory,
    length := length, width := 640, height := 480, free_func := some 1, free_ctx := 0 }

end Rtp

/-! # Properties -/

namespace Rtp

/-! ## Byte order -/

theorem and_byte_mask (x k : Nat) :
    x &&& (2 ^ k * (2 ^ 8 - 1)) = 2 ^ k * (x / 2 ^ k % 2 ^ 8) := by
  apply Nat.eq_of_testBit_eq
  intro i
  rw [Nat.testBit_and, Nat.testBit_mul_pow_two, Nat.testBit_mul_pow_two,
    Nat.testBit_mod_two_pow, Nat.testBit_two_pow_sub_one, ← Nat.shiftRight_eq_div_pow,
    Nat.testBit_shiftRight]
  by_cases h : i ≥ k
  · have hk : k + (i - k) = i := by omega
    simp [h, hk, Bool.and_comm]
  · simp [h]

theorem and_ff (x : Nat) : x &&& 0xff = x % 256 := by
  simpa using and_byte_mask x 0

theorem and_ff00 (x : Nat) : x &&& 0xff00 = 256 * (x / 256 % 256) := by
  simpa using and_byte_mask x 8

theorem and_ff0000 (x : Nat) : x &&& 0xff0000 = 65536 * (x / 65536 % 256) := by
  simpa using and_byte_mask x 16

/-- Arithmetic form of the three-byte swap. -/
theorem htobe24_eq (x : Nat) :
    htobe24 x = 65536 * (x % 256) + 256 * (x / 256 % 256) + x / 65536 % 256 := by
  unfold htobe24
  rw [and_ff, and_ff00, and_ff0000, Nat.shiftLeft_eq, Nat.shiftRight_eq_div_pow]
  have h1 : 65536 * (x / 65536 % 256) / 2 ^ 16 = x / 65536 % 256 := by omega
  have e1 : x % 256 * 2 ^ 16 = 2 ^ 16 * (x % 256) := by omega
  rw [h1, e1]
  have a1 : 2 ^ 16 * (x % 256) ||| 256 * (x / 256 % 256)
      = 2 ^ 16 * (x % 256) + 256 * (x / 256 % 256) :=
    (Nat.mul_add_lt_is_or (by omega) _).symm
  have a2 : 2 ^ 16 * (x % 256) + 256 * (x / 256 % 256)
      = 2 ^ 8 * (256 * (x % 256) + x / 256 % 256) := by omega
  rw [a1, a2, ← Nat.mul_add_lt_is_or (by omega)]
  omega

theorem be24toh_eq (x : Nat) :
    be24toh x = 65536 * (x % 256) + 256 * (x / 256 % 256) + x / 65536 % 256 := by
  unfold be24toh
  rw [and_ff, and_ff00, and_ff0000, Nat.shiftLeft_eq, Nat.shiftRight_eq_div_pow]
  have h1 : 65536 * (x / 65536 % 256) / 2 ^ 16 = x / 65536 % 256 := by omega
  have e1 : x % 256 * 2 ^ 16 = 2 ^ 16 * (x % 256) := by omega
  rw [h1, e1]
  have a0 : x / 65536 % 256 ||| 256 * (x / 256 % 256)
      = 2 ^ 8 * (x / 256 % 256) + x / 65536 % 256 := by
    rw [Nat.or_comm, Nat.mul_add_lt_is_or (by omega)]
  have a2 : 2 ^ 8 * (x / 256 % 256) + x / 65536 % 256 ||| 2 ^ 16 * (x % 256)
      = 2 ^ 16 * (x % 256) + (2 ^ 8 * (x / 256 % 256) + x / 65536 % 256) := by
    rw [Nat.or_comm (2 ^ 8 * (x / 256 % 256) + x / 65536 % 256) (2 ^ 16 * (x % 256))]
    exact (Nat.mul_add_lt_is_or
      (show 2 ^ 8 * (x / 256 % 256) + x / 65536 % 256 < 2 ^ 16 by omega) (x % 256)).symm
  rw [a0, a2]
  omega

theorem bytes3 (a b c : Nat) (ha : a < 256) (hb : b < 256) (hc : c < 256) :
    (65536 * a + 256 * b + c) % 256 = c ∧ (65536 * a + 256 * b + c) / 256 % 256 = b
      ∧ (65536 * a + 256 * b + c) / 65536 % 256 = a := by
  have h1 : (65536 * a + 256 * b + c) / 256 = 256 * a + b := by omega
  have h2 : (65536 * a + 256 * b + c) / 65536 = a := by omega
  rw [h1, h2]
  omega

theorem be24toh_htobe24 (x : Nat) (h : x < 16777216) : be24toh (htobe24 x) = x := by
  rw [be24toh_eq, htobe24_eq]
  obtain ⟨h1, h2, h3⟩ := bytes3 (x % 256) (x / 256 % 256) (x / 65536 % 256)
    (by omega) (by omega) (by omega)
  rw [h1, h2, h3]
  omega

theorem htobe24_zero : htobe24 0 = 0 := by
  rw [htobe24_eq]

theorem be16toh_htobe16 (x : Nat) : be16toh (htobe16 x) = x % 65536 := by
  unfold be16toh htobe16
  have h0 : (x % 65536 % 256 * 256 + x % 65536 / 256) % 65536
      = x % 65536 % 256 * 256 + x % 65536 / 256 := by omega
  have h1 : (x % 65536 % 256 * 256 + x % 65536 / 256) % 256 = x % 65536 / 256 := by omega
  have h2 : (x % 65536 % 256 * 256 + x % 65536 / 256) / 256 = x % 65536 % 256 := by omega
  rw [h0, h1, h2]
  omega

theorem htobe16_congr (x y : Nat) (h : x % 65536 = y % 65536) : htobe16 x = htobe16 y := by
  unfold htobe16
  rw [h]

theorem bytes4 (a b c d : Nat) (ha : a < 256) (hb : b < 256) (hc : c < 256) (hd : d < 256) :
    (a * 16777216 + b * 65536 + c * 256 + d) % 256 = d
      ∧ (a * 16777216 + b * 65536 + c * 256 + d) / 256 % 256 = c
      ∧ (a * 16777216 + b * 65536 + c * 256 + d) / 65536 % 256 = b
      ∧ (a * 16777216 + b * 65536 + c * 256 + d) / 16777216 % 256 = a := by
  have h1 : (a * 16777216 + b * 65536 + c * 256 + d) / 256 = a * 65536 + b * 256 + c := by
    omega
  have h2 : (a * 16777216 + b * 65536 + c * 256 + d) / 65536 = a * 256 + b := by omega
  have h3 : (a * 16777216 + b * 65536 + c * 256 + d) / 16777216 = a := by omega
  rw [h1, h2, h3]
  omega

theorem be32toh_htobe32 (x : Nat) : be32toh (htobe32 x) = x % 4294967296 := by
  unfold be32toh htobe32
  obtain ⟨h1, h2, h3, h4⟩ := bytes4 (x % 256) (x / 256 % 256) (x / 65536 % 256)
    (x / 16777216 % 256) (by omega) (by omega) (by omega) (by omega)
  rw [h1, h2, h3, h4]
  have e1 : x / 65536 = x / 256 / 256 := by omega
  have e2 : x / 16777216 = x / 256 / 256 / 256 := by omega
  rw [e1, e2]
  omega

/-! ## The fragmentation loop -/

theorem jpeg_loop_zero (sendOk : Nat → Bool) (jpeg_data : Nat → Nat) (q : Nat)
    (qtbl_hdr : jpeg_hdr_qtable_t) (lqt cqt : Nat → Nat) (fuel n : Nat)
    (rtp_hdr : rtp_hdr_t) (jpg_hdr : jpeg_hdr_t) :
    jpeg_loop sendOk jpeg_data q qtbl_hdr lqt cqt fuel n rtp_hdr jpg_hdr 0
      = ([], be16toh rtp_hdr.seq) := by
  cases fuel <;> simp [jpeg_loop]

/-- The bound on the number of iterations is immaterial once it is at least
`bytes_left`: the loop has finished by then. -/
theorem jpeg_loop_fuel (sendOk : Nat → Bool) (jpeg_data : Nat → Nat) (q : Nat)
    (qtbl_hdr : jpeg_hdr_qtable_t) (lqt cqt : Nat → Nat) :
    ∀ (fuel1 fuel2 n : Nat) (rtp_hdr : rtp_hdr_t) (jpg_hdr : jpeg_hdr_t) (b : Nat),
      b ≤ fuel1 → b ≤ fuel2 →
      jpeg_loop sendOk jpeg_data q qtbl_hdr lqt cqt fuel1 n rtp_hdr jpg_hdr b
        = jpeg_loop sendOk jpeg_data q qtbl_hdr lqt cqt fuel2 n rtp_hdr jpg_hdr b := by
  intro fuel1
  induction fuel1 with
  | zero =>
    intro fuel2 n rtp_hdr jpg_hdr b h1 _
    have : b = 0 := by omega
    subst this
    rw [jpeg_loop_zero, jpeg_loop_zero]
  | succ fuel1 ih =>
    intro fuel2 n rtp_hdr jpg_hdr b h1 h2
    cases fuel2 with
    | zero =>
      have : b = 0 := by omega
      subst this
      rw [jpeg_loop_zero, jpeg_loop_zero]
    | succ fuel2 =>
      by_cases hb : b > 0
      · simp only [jpeg_loop, hb, if_true]
        by_cases hs : sendOk n = true
        · simp only [hs, if_true]
          have hdl : ∀ (c1 c2 : Bool) , b - (if c2 = true then b else PACKET_SIZE -
              (if c1 = true then sizeof_rtp_hdr_t + sizeof_jpeg_hdr_t + sizeof_jpeg_hdr_qtable_t
                + 64 + 64 else sizeof_rtp_hdr_t + sizeof_jpeg_hdr_t)) ≤ b - 1 := by
            intro c1 c2
            simp only [PACKET_SIZE, sizeof_rtp_hdr_t, sizeof_jpeg_hdr_t, sizeof_jpeg_hdr_qtable_t]
            split_ifs <;> omega
          rw [ih fuel2 _ _ _ _ (Nat.le_trans (hdl _ _) (by omega))
            (Nat.le_trans (hdl _ _) (by omega))]
        · simp only [hs, if_false, Bool.false_eq_true]
      · simp only [jpeg_loop, hb, if_false]
/-- Closed description of the loop when no table is embedded (`q < 128`) and
every `send` succeeds: fragment `i` carries offset `o + 1280 i`, sequence number
`s + i`, `min 1280 (b - 1280 i)` scan bytes, and the marker on the last one. -/
theorem jpeg_loop_spec (jpeg_data : Nat → Nat) (q : Nat) (hq : q < 128)
    (qtbl_hdr : jpeg_hdr_qtable_t) (lqt cqt : Nat → Nat) :
    ∀ (fuel n : Nat) (rtp_hdr : rtp_hdr_t) (jpg_hdr : jpeg_hdr_t) (b o s : Nat),
      b ≤ fuel → o + b < 16777216 → rtp_hdr.m = 0 → rtp_hdr.seq = htobe16 s →
      jpg_hdr.off = htobe24 o →
      (jpeg_loop (fun _ => true) jpeg_data q qtbl_hdr lqt cqt fuel n rtp_hdr jpg_hdr b).1.length
          = (b + 1279) / 1280 ∧
      (jpeg_loop (fun _ => true) jpeg_data q qtbl_hdr lqt cqt fuel n rtp_hdr jpg_hdr b).2
          = (s + (b + 1279) / 1280) % 65536 ∧
      ∀ (i : Nat) (k : jpeg_packet × Bool),
        (jpeg_loop (fun _ => true) jpeg_data q qtbl_hdr lqt cqt fuel n rtp_hdr jpg_hdr b).1[i]?
            = some k →
          k.2 = true ∧ be24toh k.1.jpg_hdr.off = o + 1280 * i ∧
          be16toh k.1.rtp_hdr.seq = (s + i) % 65536 ∧
          k.1.data = memcpy_src (fun j => jpeg_data (o + 1280 * i + j)) (min 1280 (b - 1280 * i)) ∧
          k.1.rtp_hdr.m = (if i + 1 = (b + 1279) / 1280 then 1 else 0) ∧
          k.1.qtbl = none := by
  intro fuel
  induction fuel with
  | zero =>
    intro n rtp_hdr jpg_hdr b o s hb _ _ hs _
    have hb0 : b = 0 := by omega
    subst hb0
    simp [jpeg_loop, hs, be16toh_htobe16]
  | succ fuel ih =>
    intro n rtp_hdr jpg_hdr b o s hb ho hm hs hoff
    by_cases hb0 : b = 0
    · subst hb0
      simp [jpeg_loop, hs, be16toh_htobe16]
    · have hpos : b > 0 := Nat.pos_of_ne_zero hb0
      have hnq : ¬ (q ≥ 128 ∧ jpg_hdr.off = 0) := by omega
      have hoff2 : be24toh jpg_hdr.off = o := by
        rw [hoff]; exact be24toh_htobe24 o (by omega)
      by_cases hlast : b ≤ 1280
      · have hn : (b + 1279) / 1280 = 1 := by omega
        simp only [jpeg_loop, hpos, hnq, if_true, decide_False, Bool.false_eq_true, if_false,
          PACKET_SIZE, sizeof_rtp_hdr_t, sizeof_jpeg_hdr_t, ge_iff_le, Nat.reduceAdd,
          Nat.reduceSub, hlast, decide_True, Nat.sub_self, jpeg_loop_zero, List.length_cons,
          List.length_nil, hn, hs, be16toh_htobe16, hoff2]
        refine ⟨trivial, by omega, ?_⟩
        intro i k hk
        cases i with
        | zero =>
          simp only [List.getElem?_cons_zero, Option.some.injEq] at hk
          subst hk
          simp only [hs, be16toh_htobe16, hoff2]
          refine ⟨trivial, by omega, by omega, ?_, by simp, trivial⟩
          have : min 1280 (b - 1280 * 0) = b := by omega
          rw [this]; rfl
        | succ i => simp at hk
      · have hlast2 : ¬ (1280 ≥ b) := by omega
        have hn : (b + 1279) / 1280 = (b - 1280 + 1279) / 1280 + 1 := by omega
        have hs2 : htobe16 (be16toh rtp_hdr.seq + 1) = htobe16 (s + 1) := by
          rw [hs, be16toh_htobe16]
          exact htobe16_congr _ _ (by omega)
        have hIH := ih (n + 1) { rtp_hdr with seq := htobe16 (s + 1) }
          { jpg_hdr with off := htobe24 (o + 1280) } (b - 1280) (o + 1280) (s + 1)
          (by omega) (by omega) hm rfl rfl
        simp only [jpeg_loop, hpos, hnq, if_true, decide_False, Bool.false_eq_true, if_false,
          PACKET_SIZE, sizeof_rtp_hdr_t, sizeof_jpeg_hdr_t, ge_iff_le, Nat.reduceAdd,
          Nat.reduceSub, hlast, List.length_cons, hs2, hoff2]
        obtain ⟨h1, h2, h3⟩ := hIH
        refine ⟨by rw [h1, hn], by rw [h2, hn]; congr 1; omega, ?_⟩
        intro i k hk
        cases i with
        | zero =>
          simp only [List.getElem?_cons_zero, Option.some.injEq] at hk
          subst hk
          simp only [hs, be16toh_htobe16, hoff2, hm]
          refine ⟨trivial, by omega, by omega, ?_, ?_, trivial⟩
          · have : min 1280 (b - 1280 * 0) = 1280 := by omega
            rw [this]; rfl
          · have : ¬ (0 + 1 = (b + 1279) / 1280) := by omega
            simp [this]
        | succ i =>
          simp only [List.getElem?_cons_succ] at hk
          obtain ⟨g1, g2, g3, g4, g5, g6⟩ := h3 i k hk
          refine ⟨g1, by rw [g2]; omega, by rw [g3]; congr 1; omega, ?_, ?_, g6⟩
          · rw [g4]
            have e1 : o + 1280 + 1280 * i = o + 1280 * (i + 1) := by omega
            have e2 : b - 1280 - 1280 * i = b - 1280 * (i + 1) := by omega
            rw [e1, e2]
          · rw [g5, hn]
            by_cases hc : i + 1 = (b - 1280 + 1279) / 1280
            · simp [hc]
            · have : ¬ (i + 1 + 1 = (b - 1280 + 1279) / 1280 + 1) := by omega
              simp [hc, this]

/-- C1: a scan of `L` bytes (`1 ≤ L < 2^24`) sent by `rtp_send_jpeg_data` with
`q < 128` (no embedded tables) and every `send` succeeding, with
`F = PACKET_SIZE - 12 - 8` the capacity of a fragment: exactly `⌈L/F⌉` datagrams
are sent and all are emitted; every datagram but the last carries exactly `F`
scan bytes and the last one the remaining `L - F (⌈L/F⌉ - 1)`; the first offset
is 0 and every later offset is the previous offset plus the previous length;
the marker bit is 1 on the last datagram and 0 on every other; the sequence
numbers are `start_seq + i` modulo 65536. -/
theorem rtp_send_jpeg_data_fragments (start_seq ts ssrc : Nat) (jpeg_data : Nat → Nat)
    (L type typespec : Nat) (width height : Int) (q : Nat) (lqt cqt : Nat → Nat)
    (hL1 : 1 ≤ L) (hL : L < 2 ^ 24) (hq : q < 128) :
    (rtp_send_jpeg_data (fun _ => true) start_seq ts ssrc jpeg_data L type typespec
        width height q lqt cqt).1.length = (L + (PACKET_SIZE - 12 - 8) - 1) / (PACKET_SIZE - 12 - 8) ∧
    (∀ (i : Nat) (k : jpeg_packet × Bool),
      (rtp_send_jpeg_data (fun _ => true) start_seq ts ssrc jpeg_data L type typespec
        width height q lqt cqt).1[i]? = some k →
      k.2 = true ∧
      (i + 1 < (L + (PACKET_SIZE - 12 - 8) - 1) / (PACKET_SIZE - 12 - 8) →
        k.1.data.length = PACKET_SIZE - 12 - 8 ∧ k.1.rtp_hdr.m = 0) ∧
      (i + 1 = (L + (PACKET_SIZE - 12 - 8) - 1) / (PACKET_SIZE - 12 - 8) →
        k.1.data.length = L - (PACKET_SIZE - 12 - 8) * i ∧ k.1.rtp_hdr.m = 1) ∧
      (i = 0 → be24toh k.1.jpg_hdr.off = 0) ∧
      (∀ k2 : jpeg_packet × Bool,
        (rtp_send_jpeg_data (fun _ => true) start_seq ts ssrc jpeg_data L type typespec
          width height q lqt cqt).1[i + 1]? = some k2 →
        be24toh k2.1.jpg_hdr.off = be24toh k.1.jpg_hdr.off + k.1.data.length) ∧
      be16toh k.1.rtp_hdr.seq = (start_seq + i) % 65536) := by
  have hspec := jpeg_loop_spec jpeg_data q hq
    { mbz := 0, precision := 0, length := htobe16 128 } lqt cqt L 0
    { version := 2, p := 0, x := 0, cc := 0, m := 0, pt := RTP_PT_JPEG,
      seq := htobe16 start_seq, ts := htobe32 ts, ssrc := htobe32 ssrc }
    { tspec := typespec, off := 0, type := type, q := q,
      width := uint8 (Int.tdiv width 8), height := uint8 (Int.tdiv height 8) }
    L 0 start_seq (Nat.le_refl L) (by norm_num at hL; omega) rfl rfl htobe24_zero.symm
  obtain ⟨h1, _, h3⟩ := hspec
  have hF : PACKET_SIZE - 12 - 8 = 1280 := rfl
  rw [hF]
  have hn : (L + 1280 - 1) / 1280 = (L + 1279) / 1280 := by omega
  rw [hn]
  refine ⟨h1, ?_⟩
  intro i k hk
  have hi : i < (L + 1279) / 1280 := by
    have := (List.getElem?_eq_some_iff.mp hk).1
    unfold rtp_send_jpeg_data at this
    omega
  obtain ⟨g1, g2, g3, g4, g5, _⟩ := h3 i k hk
  have hlen : k.1.data.length = min 1280 (L - 1280 * i) := by
    rw [g4]; simp [memcpy_src]
  refine ⟨g1, ?_, ?_, ?_, ?_, g3⟩
  · intro hlt
    refine ⟨by rw [hlen]; omega, ?_⟩
    rw [g5]
    have : ¬ (i + 1 = (L + 1279) / 1280) := by omega
    simp [this]
  · intro heq
    refine ⟨by rw [hlen]; omega, ?_⟩
    rw [g5]
    simp [heq]
  · intro hi0
    rw [g2, hi0]
  · intro k2 hk2
    have hi2 : i + 1 < (L + 1279) / 1280 := by
      have := (List.getElem?_eq_some_iff.mp hk2).1
      unfold rtp_send_jpeg_data at this
      omega
    obtain ⟨_, f2, _⟩ := h3 (i + 1) k2 hk2
    rw [f2, g2, hlen]
    omega

/-- Witness of C1: a scan of 3000 bytes, sequence counter at 65535. -/
theorem rtp_send_jpeg_data_fragments_witness :
    (1 ≤ 3000 ∧ 3000 < 2 ^ 24 ∧ 0 < 128) ∧
    (rtp_send_jpeg_data (fun _ => true) 65535 7 9 (fun i => i % 256) 3000 0 0
        640 480 0 (fun _ => 0) (fun _ => 0)).1.length
      = (3000 + (PACKET_SIZE - 12 - 8) - 1) / (PACKET_SIZE - 12 - 8) ∧
    (∀ (i : Nat) (k : jpeg_packet × Bool),
      (rtp_send_jpeg_data (fun _ => true) 65535 7 9 (fun i => i % 256) 3000 0 0
        640 480 0 (fun _ => 0) (fun _ => 0)).1[i]? = some k →
      k.2 = true ∧
      (i + 1 < (3000 + (PACKET_SIZE - 12 - 8) - 1) / (PACKET_SIZE - 12 - 8) →
        k.1.data.length = PACKET_SIZE - 12 - 8 ∧ k.1.rtp_hdr.m = 0) ∧
      (i + 1 = (3000 + (PACKET_SIZE - 12 - 8) - 1) / (PACKET_SIZE - 12 - 8) →
        k.1.data.length = 3000 - (PACKET_SIZE - 12 - 8) * i ∧ k.1.rtp_hdr.m = 1) ∧
      (i = 0 → be24toh k.1.jpg_hdr.off = 0) ∧
      (∀ k2 : jpeg_packet × Bool,
        (rtp_send_jpeg_data (fun _ => true) 65535 7 9 (fun i => i % 256) 3000 0 0
          640 480 0 (fun _ => 0) (fun _ => 0)).1[i + 1]? = some k2 →
        be24toh k2.1.jpg_hdr.off = be24toh k.1.jpg_hdr.off + k.1.data.length) ∧
      be16toh k.1.rtp_hdr.seq = (65535 + i) % 65536) :=
  ⟨⟨by decide, by norm_num, by decide⟩,
    rtp_send_jpeg_data_fragments 65535 7 9 (fun i => i % 256) 3000 0 0 640 480 0
      (fun _ => 0) (fun _ => 0) (by decide) (by norm_num) (by decide)⟩

/-! ## Timestamps -/

/-- The loop never touches the timestamp, SSRC and payload type of the RTP header. -/
theorem jpeg_loop_ts (sendOk : Nat → Bool) (jpeg_data : Nat → Nat) (q : Nat)
    (qtbl_hdr : jpeg_hdr_qtable_t) (lqt cqt : Nat → Nat) :
    ∀ (fuel n : Nat) (rtp_hdr : rtp_hdr_t) (jpg_hdr : jpeg_hdr_t) (b : Nat)
      (k : jpeg_packet × Bool),
      k ∈ (jpeg_loop sendOk jpeg_data q qtbl_hdr lqt cqt fuel n rtp_hdr jpg_hdr b).1 →
      k.1.rtp_hdr.ts = rtp_hdr.ts ∧ k.1.rtp_hdr.ssrc = rtp_hdr.ssrc ∧
        k.1.rtp_hdr.pt = rtp_hdr.pt := by
  intro fuel
  induction fuel with
  | zero =>
    intro n rtp_hdr jpg_hdr b k hk
    simp [jpeg_loop] at hk
  | succ fuel ih =>
    intro n rtp_hdr jpg_hdr b k hk
    by_cases hb : b > 0
    · by_cases hs : sendOk n = true
      · simp only [jpeg_loop, hb, if_true, hs, List.mem_cons] at hk
        rcases hk with hk | hk
        · subst hk
          dsimp only
          split_ifs <;> exact ⟨rfl, rfl, rfl⟩
        · have := ih _ _ _ _ k hk
          dsimp only at this
          split_ifs at this <;> exact this
      · simp only [jpeg_loop, hb, if_true, hs, Bool.false_eq_true, if_false,
          List.mem_singleton] at hk
        subst hk
        dsimp only
        split_ifs <;> exact ⟨rfl, rfl, rfl⟩
    · simp [jpeg_loop, hb] at hk

/-- The conversion of a capture timestamp to an RTP clock, as computed in C:
64-bit signed product, truncating division, conversion to `uint32_t`. -/
theorem timestamp_conversion (t clock : Int) (h0 : 0 ≤ t) (hc : 0 ≤ clock)
    (h63 : t * clock < 2 ^ 63) :
    ((be32toh (htobe32 (uint32 (Int.tdiv (int64 (t * clock)) 1000000))) : Nat) : Int)
      = t * clock / 1000000 % 2 ^ 32 := by
  have hprod : 0 ≤ t * clock := Int.mul_nonneg h0 hc
  have h64 : int64 (t * clock) = t * clock := by
    unfold int64
    norm_num at h63
    omega
  rw [h64, Int.tdiv_eq_ediv hprod (by norm_num), be32toh_htobe32]
  unfold uint32
  have hnn : 0 ≤ t * clock / 1000000 % 4294967296 := Int.emod_nonneg _ (by norm_num)
  have hlt : t * clock / 1000000 % 4294967296 < 4294967296 := Int.emod_lt_of_pos _ (by norm_num)
  have hlt2 : (t * clock / 1000000 % 4294967296).toNat < 4294967296 := by omega
  rw [Nat.mod_eq_of_lt hlt2, Int.toNat_of_nonneg hnn]
  norm_num

/-- C3: for a capture timestamp `ts ≥ 0` (microseconds) whose product with the
clock rate fits a signed 64-bit integer, every datagram handed to `send` by
`rtp_send_jpeg_frame` carries the RTP timestamp `⌊ts · 90000 / 10^6⌋ mod 2^32`
and the datagram handed to `send` by `rtp_send_opus_frame` carries
`⌊ts · 48000 / 10^6⌋ mod 2^32` (read back from the header in network order). -/
theorem rtp_timestamp (sendOk : Nat → Bool) (sequence_number : Nat) (frame : frame_t)
    (h0 : 0 ≤ frame.timestamp) :
    (frame.timestamp * 90000 < 2 ^ 63 →
      ∀ k ∈ (rtp_send_jpeg_frame sendOk sequence_number frame).sent,
        ((be32toh k.1.rtp_hdr.ts : Nat) : Int) = frame.timestamp * 90000 / 1000000 % 2 ^ 32) ∧
    (frame.timestamp * 48000 < 2 ^ 63 →
      ∀ k ∈ (rtp_send_opus_frame sendOk sequence_number frame).sent,
        ((be32toh k.1.rtp_hdr.ts : Nat) : Int) = frame.timestamp * 48000 / 1000000 % 2 ^ 32) := by
  constructor
  · intro h63 k hk
    unfold rtp_send_jpeg_frame at hk
    cases hp : parse_jpeg frame none none none 0 with
    | fail => rw [hp] at hk; simp at hk
    | ok lqt cqt scan len =>
      rw [hp] at hk
      simp only [rtp_send_jpeg_data] at hk
      have := (jpeg_loop_ts _ _ _ _ _ _ _ _ _ _ _ k hk).1
      rw [this]
      exact timestamp_conversion frame.timestamp 90000 h0 (by norm_num) h63
  · intro h63 k hk
    unfold rtp_send_opus_frame at hk
    by_cases hl : frame.length > 1000
    · simp [hl] at hk
    · simp only [hl, if_false, List.mem_singleton] at hk
      subst hk
      exact timestamp_conversion frame.timestamp 48000 h0 (by norm_num) h63

/-- Witness of C3: a capture time of 50000 s, where the 90 kHz clock has
already wrapped. -/
theorem rtp_timestamp_witness :
    ((0 : Int) ≤ (jpeg_frame_of sample_jpeg 50000000000 0).timestamp ∧
      (jpeg_frame_of sample_jpeg 50000000000 0).timestamp * 90000 < 2 ^ 63 ∧
      (opus_frame_of [1, 2, 3] 50000000000 0).timestamp * 48000 < 2 ^ 63) ∧
    (∀ k ∈ (rtp_send_jpeg_frame (fun _ => true) 0 (jpeg_frame_of sample_jpeg 50000000000 0)).sent,
      ((be32toh k.1.rtp_hdr.ts : Nat) : Int)
        = (jpeg_frame_of sample_jpeg 50000000000 0).timestamp * 90000 / 1000000 % 2 ^ 32) ∧
    (∀ k ∈ (rtp_send_opus_frame (fun _ => true) 0 (opus_frame_of [1, 2, 3] 50000000000 0)).sent,
      ((be32toh k.1.rtp_hdr.ts : Nat) : Int)
        = (opus_frame_of [1, 2, 3] 50000000000 0).timestamp * 48000 / 1000000 % 2 ^ 32) :=
  ⟨⟨by decide, by decide, by decide⟩,
    (rtp_timestamp (fun _ => true) 0 (jpeg_frame_of sample_jpeg 50000000000 0) (by decide)).1
      (by decide),
    (rtp_timestamp (fun _ => true) 0 (opus_frame_of [1, 2, 3] 50000000000 0) (by decide)).2
      (by decide)⟩

/-! ## The scheduler -/

theorem stream_task_send_state (sendOk : Nat → Bool) (s : rtp_state) (frame : frame_t) :
    (stream_task_send sendOk s frame).1.video_queue = s.video_queue ∧
    (stream_task_send sendOk s frame).1.audio_queue = s.audio_queue ∧
    (stream_task_send sendOk s frame).1.queue_semaphore = s.queue_semaphore := by
  unfold stream_task_send
  cases frame.type <;> exact ⟨rfl, rfl, rfl⟩

theorem released_map_send_video (func ctx : Nat) (l : List (jpeg_packet × Bool)) :
    released func ctx (l.map (fun k => event.send_video k.1 k.2)) = 0 := by
  unfold released
  rw [List.count_eq_zero]
  intro h
  obtain ⟨k, _, hk⟩ := List.mem_map.mp h
  cases hk

theorem released_map_send_audio (func ctx : Nat) (l : List (opus_packet × Bool)) :
    released func ctx (l.map (fun k => event.send_audio k.1 k.2)) = 0 := by
  unfold released
  rw [List.count_eq_zero]
  intro h
  obtain ⟨k, _, hk⟩ := List.mem_map.mp h
  cases hk

theorem released_free_frame (func ctx : Nat) (frame : frame_t) :
    released func ctx (free_frame frame) = carrying func ctx [frame] := by
  unfold released free_frame carrying
  cases hf : frame.free_func with
  | none => simp [hf]
  | some g =>
    by_cases h : g = func ∧ frame.free_ctx = ctx
    · obtain ⟨h1, h2⟩ := h
      subst h1; subst h2
      simp [hf]
    · have hne : ¬ (event.free g frame.free_ctx = event.free func ctx) := by
        intro he
        injection he with e1 e2
        exact h ⟨e1, e2⟩
      have hne2 : ¬ (g = func ∧ frame.free_ctx = ctx) := h
      simp [hf, List.count_cons, hne, hne2]

/-- What an iteration does with the unit it obtained: some calls of `send`,
then the release of the unit, and nothing else. -/
theorem stream_task_send_events (sendOk : Nat → Bool) (s : rtp_state) (frame : frame_t) :
    ∃ sends : List event, (stream_task_send sendOk s frame).2 = sends ++ free_frame frame ∧
      (∀ func ctx, released func ctx sends = 0) ∧
      (∀ e ∈ sends, ∀ func ctx, e ≠ event.free func ctx) := by
  unfold stream_task_send
  cases frame.type with
  | FRAME_TYPE_JPEG =>
    refine ⟨_, rfl, fun func ctx => released_map_send_video func ctx _, ?_⟩
    intro e he func ctx hc
    subst hc
    obtain ⟨k, _, hk⟩ := List.mem_map.mp he
    cases hk
  | FRAME_TYPE_OPUS =>
    refine ⟨_, rfl, fun func ctx => released_map_send_audio func ctx _, ?_⟩
    intro e he func ctx hc
    subst hc
    obtain ⟨k, _, hk⟩ := List.mem_map.mp he
    cases hk

theorem released_append (func ctx : Nat) (a b : List event) :
    released func ctx (a ++ b) = released func ctx a + released func ctx b := by
  unfold released
  exact List.count_append _ _ _

theorem carrying_append (func ctx : Nat) (a b : List frame_t) :
    carrying func ctx (a ++ b) = carrying func ctx a + carrying func ctx b := by
  unfold carrying
  exact List.countP_append _ _ _

theorem carrying_cons (func ctx : Nat) (a : frame_t) (b : List frame_t) :
    carrying func ctx (a :: b) = carrying func ctx [a] + carrying func ctx b := by
  rw [← carrying_append]
  rfl

theorem released_stream_task_send (sendOk : Nat → Bool) (s : rtp_state) (frame : frame_t)
    (func ctx : Nat) :
    released func ctx (stream_task_send sendOk s frame).2 = carrying func ctx [frame] := by
  obtain ⟨sends, h1, h2, _⟩ := stream_task_send_events sendOk s frame
  rw [h1, released_append, h2, released_free_frame]
  omega

/-- An enqueue on a full queue changes nothing and reports -1. -/
theorem add_frame_to_queue_full (s : rtp_state) (frame : frame_t) :
    (frame.type = frame_type_t.FRAME_TYPE_JPEG → s.video_queue.length = video_queue_size →
      add_frame_to_queue s frame = (s, -1)) ∧
    (frame.type = frame_type_t.FRAME_TYPE_OPUS → s.audio_queue.length = audio_queue_size →
      add_frame_to_queue s frame = (s, -1)) := by
  constructor
  · intro ht hl
    simp [add_frame_to_queue, ht, xQueueSend, hl]
  · intro ht hl
    simp [add_frame_to_queue, ht, xQueueSend, hl]

/-- Under the invariant an enqueue either is refused and changes nothing, or
appends the unit to the queue of its type, gives the semaphore and returns 0. -/
theorem add_frame_to_queue_inv (s : rtp_state) (frame : frame_t) (h : queues_inv s) :
    queues_inv (add_frame_to_queue s frame).1 ∧
    (((add_frame_to_queue s frame).2 = -1 ∧ (add_frame_to_queue s frame).1 = s) ∨
     ((add_frame_to_queue s frame).2 = 0 ∧
      (add_frame_to_queue s frame).1.queue_semaphore = s.queue_semaphore + 1 ∧
      (((add_frame_to_queue s frame).1.video_queue = s.video_queue ++ [frame] ∧
        (add_frame_to_queue s frame).1.audio_queue = s.audio_queue) ∨
       ((add_frame_to_queue s frame).1.video_queue = s.video_queue ∧
        (add_frame_to_queue s frame).1.audio_queue = s.audio_queue ++ [frame])))) := by
  obtain ⟨h1, h2, h3⟩ := h
  unfold video_queue_size at h2
  unfold audio_queue_size at h3
  cases ht : frame.type with
  | FRAME_TYPE_JPEG =>
    by_cases hfull : s.video_queue.length < 10
    · have hg : s.queue_semaphore < 10 + 10 := by omega
      simp only [add_frame_to_queue, ht, xQueueSend, video_queue_size, audio_queue_size, hfull,
        if_true, xSemaphoreGive, hg]
      refine ⟨⟨?_, ?_, ?_⟩, Or.inr ⟨trivial, trivial, Or.inl ⟨trivial, trivial⟩⟩⟩
      · simp only [List.length_append, List.length_singleton]; omega
      · simp only [List.length_append, List.length_singleton, video_queue_size]; omega
      · exact h3
    · simp only [add_frame_to_queue, ht, xQueueSend, video_queue_size, hfull, if_false]
      exact ⟨⟨h1, h2, h3⟩, Or.inl ⟨trivial, trivial⟩⟩
  | FRAME_TYPE_OPUS =>
    by_cases hfull : s.audio_queue.length < 10
    · have hg : s.queue_semaphore < 10 + 10 := by omega
      simp only [add_frame_to_queue, ht, xQueueSend, video_queue_size, audio_queue_size, hfull,
        if_true, xSemaphoreGive, hg]
      refine ⟨⟨?_, ?_, ?_⟩, Or.inr ⟨trivial, trivial, Or.inr ⟨trivial, trivial⟩⟩⟩
      · simp only [List.length_append, List.length_singleton]; omega
      · exact h2
      · simp only [List.length_append, List.length_singleton, audio_queue_size]; omega
    · simp only [add_frame_to_queue, ht, xQueueSend, audio_queue_size, hfull, if_false]
      exact ⟨⟨h1, h2, h3⟩, Or.inl ⟨trivial, trivial⟩⟩

/-- Under the invariant an iteration of the sender either blocks (semaphore 0,
both queues empty) or removes the head of the audio queue, or of the video
queue when the audio queue is empty, and handles it. -/
theorem stream_task_step_inv (sendOk : Nat → Bool) (s : rtp_state) (h : queues_inv s) :
    (s.queue_semaphore = 0 ∧ stream_task_step sendOk s = none) ∨
    (∃ frame rest, s.audio_queue = frame :: rest ∧
      stream_task_step sendOk s = some (stream_task_send sendOk
        { s with queue_semaphore := s.queue_semaphore - 1, audio_queue := rest } frame)) ∨
    (∃ frame rest, s.audio_queue = [] ∧ s.video_queue = frame :: rest ∧
      stream_task_step sendOk s = some (stream_task_send sendOk
        { s with queue_semaphore := s.queue_semaphore - 1, video_queue := rest } frame)) := by
  obtain ⟨h1, _, _⟩ := h
  by_cases hsem : 0 < s.queue_semaphore
  · cases ha : s.audio_queue with
    | cons frame rest =>
      refine Or.inr (Or.inl ⟨frame, rest, rfl, ?_⟩)
      simp [stream_task_step, xSemaphoreTake, hsem, xQueueReceive, ha]
    | nil =>
      cases hv : s.video_queue with
      | cons frame rest =>
        refine Or.inr (Or.inr ⟨frame, rest, rfl, rfl, ?_⟩)
        simp [stream_task_step, xSemaphoreTake, hsem, xQueueReceive, ha, hv]
      | nil =>
        rw [ha, hv] at h1
        simp at h1
        omega
  · refine Or.inl ⟨by omega, ?_⟩
    simp [stream_task_step, xSemaphoreTake, hsem]

theorem queues_inv_init : queues_inv rtp_state.init := by
  simp [queues_inv, rtp_state.init]

theorem step_inv (s : rtp_state) (a : action) (h : queues_inv s) : queues_inv (step s a).1 := by
  cases a with
  | enqueue frame => exact (add_frame_to_queue_inv s frame h).1
  | sender sendOk =>
    rcases stream_task_step_inv sendOk s h with ⟨_, hb⟩ | ⟨frame, rest, ha, hs⟩ |
      ⟨frame, rest, ha, hv, hs⟩
    · simp only [step, hb]; exact h
    · simp only [step, hs]
      obtain ⟨q1, q2, q3⟩ := stream_task_send_state sendOk
        { s with queue_semaphore := s.queue_semaphore - 1, audio_queue := rest } frame
      obtain ⟨h1, h2, h3⟩ := h
      rw [ha] at h1 h3
      simp only [List.length_cons] at h1 h3
      refine ⟨?_, ?_, ?_⟩
      · rw [q1, q2, q3]; dsimp only; omega
      · rw [q1]; exact h2
      · rw [q2]; dsimp only; omega
    · simp only [step, hs]
      obtain ⟨q1, q2, q3⟩ := stream_task_send_state sendOk
        { s with queue_semaphore := s.queue_semaphore - 1, video_queue := rest } frame
      obtain ⟨h1, h2, h3⟩ := h
      rw [hv] at h1 h2
      simp only [List.length_cons] at h1 h2
      refine ⟨?_, ?_, ?_⟩
      · rw [q1, q2, q3]; dsimp only; omega
      · rw [q1]; dsimp only; omega
      · rw [q2]; exact h3

theorem run_inv : ∀ (acts : List action) (s : rtp_state), queues_inv s →
    queues_inv (run s acts).1 := by
  intro acts
  induction acts with
  | nil => intro s h; exact h
  | cons a rest ih =>
    intro s h
    exact ih (step s a).1 (step_inv s a h)

theorem reachable_inv (s : rtp_state) (h : reachable s) : queues_inv s := by
  obtain ⟨acts, rfl⟩ := h
  exact run_inv acts rtp_state.init queues_inv_init

/-- One step keeps the books: releases performed plus units still queued equal
the units queued before plus the unit accepted by the step. -/
theorem step_accounting (s : rtp_state) (a : action) (h : queues_inv s) (func ctx : Nat) :
    released func ctx (step s a).2 + carrying func ctx (step s a).1.video_queue
        + carrying func ctx (step s a).1.audio_queue
      = carrying func ctx s.video_queue + carrying func ctx s.audio_queue
        + carrying func ctx (accepted s [a]) := by
  cases a with
  | enqueue frame =>
    have hrel : released func ctx (step s (action.enqueue frame)).2 = 0 := rfl
    have hst : (step s (action.enqueue frame)).1 = (add_frame_to_queue s frame).1 := rfl
    rw [hrel, hst]
    simp only [accepted, List.append_nil]
    rcases (add_frame_to_queue_inv s frame h).2 with ⟨hr, hs⟩ | ⟨hr, _, ⟨hv, ha⟩ | ⟨hv, ha⟩⟩
    · rw [hs, hr]
      simp [carrying]
    · rw [hv, ha, hr, carrying_append]
      simp only [if_true]
      omega
    · rw [hv, ha, hr, carrying_append]
      simp only [if_true]
      omega
  | sender sendOk =>
    have hacc : carrying func ctx (accepted s [action.sender sendOk]) = 0 := rfl
    rw [hacc]
    rcases stream_task_step_inv sendOk s h with ⟨_, hb⟩ | ⟨frame, rest, ha, hs⟩ |
      ⟨frame, rest, ha, hv, hs⟩
    · simp only [step, hb]
      simp [released]
    · simp only [step, hs]
      obtain ⟨q1, q2, _⟩ := stream_task_send_state sendOk
        { s with queue_semaphore := s.queue_semaphore - 1, audio_queue := rest } frame
      rw [q1, q2, released_stream_task_send, ha, carrying_cons func ctx frame rest]
      dsimp only
      omega
    · simp only [step, hs]
      obtain ⟨q1, q2, _⟩ := stream_task_send_state sendOk
        { s with queue_semaphore := s.queue_semaphore - 1, video_queue := rest } frame
      rw [q1, q2, released_stream_task_send, hv, carrying_cons func ctx frame rest]
      dsimp only
      omega

theorem accepted_cons (s : rtp_state) (a : action) (rest : List action) :
    accepted s (a :: rest) = accepted s [a] ++ accepted (step s a).1 rest := by
  cases a with
  | enqueue frame => simp [accepted]
  | sender sendOk => simp [accepted]

/-- Over a whole run: releases performed plus units still queued equal the
units queued at the start plus the units accepted during the run. -/
theorem run_accounting : ∀ (acts : List action) (s : rtp_state), queues_inv s →
    ∀ func ctx : Nat,
      released func ctx (run s acts).2 + carrying func ctx (run s acts).1.video_queue
          + carrying func ctx (run s acts).1.audio_queue
        = carrying func ctx s.video_queue + carrying func ctx s.audio_queue
          + carrying func ctx (accepted s acts) := by
  intro acts
  induction acts with
  | nil =>
    intro s _ func ctx
    simp [run, accepted, released, carrying]
  | cons a rest ih =>
    intro s h func ctx
    have h1 := step_accounting s a h func ctx
    have h2 := ih (step s a).1 (step_inv s a h) func ctx
    rw [accepted_cons, carrying_append]
    simp only [run, released_append]
    omega

theorem run_append : ∀ (a b : List action) (s : rtp_state),
    (run s (a ++ b)).1 = (run (run s a).1 b).1 := by
  intro a
  induction a with
  | nil => intro b s; rfl
  | cons x rest ih => intro b s; exact ih b (step s x).1

/-- As many iterations of the sender as the semaphore counts empty both queues. -/
theorem run_drain : ∀ (os : List (Nat → Bool)) (s : rtp_state), queues_inv s →
    os.length = s.queue_semaphore →
    (run s (os.map action.sender)).1.video_queue = [] ∧
    (run s (os.map action.sender)).1.audio_queue = [] := by
  intro os
  induction os with
  | nil =>
    intro s h hl
    obtain ⟨h1, _, _⟩ := h
    simp only [List.length_nil] at hl
    have hv : s.video_queue.length = 0 := by omega
    have ha : s.audio_queue.length = 0 := by omega
    exact ⟨List.length_eq_zero.mp hv, List.length_eq_zero.mp ha⟩
  | cons o rest ih =>
    intro s h hl
    simp only [List.length_cons] at hl
    have hinv := step_inv s (action.sender o) h
    have hsem : (step s (action.sender o)).1.queue_semaphore = s.queue_semaphore - 1 := by
      rcases stream_task_step_inv o s h with ⟨h0, _⟩ | ⟨frame, rest2, _, hs⟩ |
        ⟨frame, rest2, _, _, hs⟩
      · omega
      · simp only [step, hs]
        exact (stream_task_send_state o _ frame).2.2
      · simp only [step, hs]
        exact (stream_task_send_state o _ frame).2.2
    exact ih (step s (action.sender o)).1 hinv (by omega)

/-- C4: in an iteration of `stream_task` (the semaphore was taken) in which the
audio queue has head `frame` and the video queue is not empty, the unit
dequeued and handled is `frame`; afterwards the audio queue is its tail and the
video queue is what it was. -/
theorem stream_task_audio_first (sendOk : Nat → Bool) (s : rtp_state) (frame : frame_t)
    (rest : List frame_t) (hsem : 0 < s.queue_semaphore) (ha : s.audio_queue = frame :: rest)
    (hv : s.video_queue ≠ []) :
    stream_task_dequeued s = some frame ∧
    stream_task_step sendOk s = some (stream_task_send sendOk
      { s with queue_semaphore := s.queue_semaphore - 1, audio_queue := rest } frame) ∧
    (∀ r, stream_task_step sendOk s = some r →
      r.1.audio_queue = rest ∧ r.1.video_queue = s.video_queue ∧ r.1.video_queue ≠ []) := by
  have hstep : stream_task_step sendOk s = some (stream_task_send sendOk
      { s with queue_semaphore := s.queue_semaphore - 1, audio_queue := rest } frame) := by
    simp [stream_task_step, xSemaphoreTake, hsem, xQueueReceive, ha]
  refine ⟨?_, hstep, ?_⟩
  · simp [stream_task_dequeued, xSemaphoreTake, hsem, xQueueReceive, ha]
  · intro r hr
    rw [hstep] at hr
    injection hr with hr
    subst hr
    obtain ⟨q1, q2, _⟩ := stream_task_send_state sendOk
      { s with queue_semaphore := s.queue_semaphore - 1, audio_queue := rest } frame
    rw [q1, q2]
    exact ⟨rfl, rfl, hv⟩

/-- Witness of C4: ten JPEG units and ten Opus units are queued; the iteration
takes the first Opus unit. -/
theorem stream_task_audio_first_witness :
    (0 < (run rtp_state.init (ten_jpeg ++ ten_opus)).1.queue_semaphore ∧
      (run rtp_state.init (ten_jpeg ++ ten_opus)).1.audio_queue
        = opus_frame_of [1, 2, 3] 0 100
          :: (List.range 9).map (fun i => opus_frame_of [1, 2, 3] 0 (101 + i)) ∧
      (run rtp_state.init (ten_jpeg ++ ten_opus)).1.video_queue ≠ []) ∧
    stream_task_dequeued (run rtp_state.init (ten_jpeg ++ ten_opus)).1
      = some (opus_frame_of [1, 2, 3] 0 100) ∧
    stream_task_step (fun _ => true) (run rtp_state.init (ten_jpeg ++ ten_opus)).1
      = some (stream_task_send (fun _ => true)
        { (run rtp_state.init (ten_jpeg ++ ten_opus)).1 with
          queue_semaphore := (run rtp_state.init (ten_jpeg ++ ten_opus)).1.queue_semaphore - 1,
          audio_queue := (List.range 9).map (fun i => opus_frame_of [1, 2, 3] 0 (101 + i)) }
        (opus_frame_of [1, 2, 3] 0 100)) ∧
    (∀ r, stream_task_step (fun _ => true) (run rtp_state.init (ten_jpeg ++ ten_opus)).1 = some r →
      r.1.audio_queue = (List.range 9).map (fun i => opus_frame_of [1, 2, 3] 0 (101 + i)) ∧
      r.1.video_queue = (run rtp_state.init (ten_jpeg ++ ten_opus)).1.video_queue ∧
      r.1.video_queue ≠ []) :=
  ⟨⟨by decide, rfl, List.ne_nil_of_length_pos (by decide)⟩,
    stream_task_audio_first (fun _ => true) (run rtp_state.init (ten_jpeg ++ ten_opus)).1
      (opus_frame_of [1, 2, 3] 0 100)
      ((List.range 9).map (fun i => opus_frame_of [1, 2, 3] 0 (101 + i)))
      (by decide) rfl
      (List.ne_nil_of_length_pos (by decide))⟩

/-- C5: an enqueue through `add_frame_to_queue` on a queue that already holds
its capacity of 10 units returns -1 and leaves the whole state (both queues and
the semaphore) as it was; and in every reachable state each queue holds at
most 10 units. -/
theorem queue_capacity (s : rtp_state) (frame : frame_t) :
    (frame.type = frame_type_t.FRAME_TYPE_JPEG → s.video_queue.length = video_queue_size →
      (add_frame_to_queue s frame).2 = -1 ∧ (add_frame_to_queue s frame).1 = s) ∧
    (frame.type = frame_type_t.FRAME_TYPE_OPUS → s.audio_queue.length = audio_queue_size →
      (add_frame_to_queue s frame).2 = -1 ∧ (add_frame_to_queue s frame).1 = s) ∧
    (reachable s → s.video_queue.length ≤ 10 ∧ s.audio_queue.length ≤ 10) := by
  refine ⟨?_, ?_, ?_⟩
  · intro ht hl
    rw [(add_frame_to_queue_full s frame).1 ht hl]
    exact ⟨rfl, rfl⟩
  · intro ht hl
    rw [(add_frame_to_queue_full s frame).2 ht hl]
    exact ⟨rfl, rfl⟩
  · intro hr
    exact (reachable_inv s hr).2

/-- Witness of C5 (scenario C): after ten accepted JPEG units an eleventh
enqueue fails and the video queue still holds ten; likewise for ten Opus units. -/
theorem queue_capacity_witness :
    ((jpeg_frame_of sample_jpeg 0 10).type = frame_type_t.FRAME_TYPE_JPEG ∧
      (run rtp_state.init (ten_jpeg ++ ten_opus)).1.video_queue.length = video_queue_size ∧
      (opus_frame_of [1, 2, 3] 0 110).type = frame_type_t.FRAME_TYPE_OPUS ∧
      (run rtp_state.init (ten_jpeg ++ ten_opus)).1.audio_queue.length = audio_queue_size ∧
      reachable (run rtp_state.init (ten_jpeg ++ ten_opus)).1) ∧
    ((add_frame_to_queue (run rtp_state.init (ten_jpeg ++ ten_opus)).1
        (jpeg_frame_of sample_jpeg 0 10)).2 = -1 ∧
      (add_frame_to_queue (run rtp_state.init (ten_jpeg ++ ten_opus)).1
        (jpeg_frame_of sample_jpeg 0 10)).1 = (run rtp_state.init (ten_jpeg ++ ten_opus)).1) ∧
    ((add_frame_to_queue (run rtp_state.init (ten_jpeg ++ ten_opus)).1
        (opus_frame_of [1, 2, 3] 0 110)).2 = -1 ∧
      (add_frame_to_queue (run rtp_state.init (ten_jpeg ++ ten_opus)).1
        (opus_frame_of [1, 2, 3] 0 110)).1 = (run rtp_state.init (ten_jpeg ++ ten_opus)).1) ∧
    ((run rtp_state.init (ten_jpeg ++ ten_opus)).1.video_queue.length ≤ 10 ∧
      (run rtp_state.init (ten_jpeg ++ ten_opus)).1.audio_queue.length ≤ 10) :=
  ⟨⟨rfl, by decide, rfl, by decide, ⟨ten_jpeg ++ ten_opus, rfl⟩⟩,
    (queue_capacity (run rtp_state.init (ten_jpeg ++ ten_opus)).1
      (jpeg_frame_of sample_jpeg 0 10)).1 rfl (by decide),
    (queue_capacity (run rtp_state.init (ten_jpeg ++ ten_opus)).1
      (opus_frame_of [1, 2, 3] 0 110)).2.1 rfl (by decide),
    (queue_capacity (run rtp_state.init (ten_jpeg ++ ten_opus)).1
      (opus_frame_of [1, 2, 3] 0 110)).2.2 ⟨ten_jpeg ++ ten_opus, rfl⟩⟩

theorem stream_task_dequeued_step (sendOk : Nat → Bool) (s : rtp_state) (frame : frame_t)
    (h : stream_task_dequeued s = some frame) :
    ∃ s0 : rtp_state, stream_task_step sendOk s = some (stream_task_send sendOk s0 frame) := by
  unfold stream_task_dequeued at h
  unfold stream_task_step
  cases hsem : xSemaphoreTake s.queue_semaphore with
  | none => rw [hsem] at h; simp at h
  | some count =>
    rw [hsem] at h
    cases ha : s.audio_queue with
    | cons a rest =>
      rw [ha] at h
      simp only [xQueueReceive, Option.some.injEq] at h
      subst h
      exact ⟨_, rfl⟩
    | nil =>
      rw [ha] at h
      cases hv : s.video_queue with
      | cons v rest =>
        rw [hv] at h
        simp only [xQueueReceive, Option.some.injEq] at h
        subst h
        exact ⟨_, rfl⟩
      | nil =>
        rw [hv] at h
        simp [xQueueReceive] at h

/-- C6: (1) an iteration of the sender that dequeued a unit performs some calls
of `send`, then the release of that unit (one call of its callback when it has
one), and nothing else, whatever the unit and whatever the outcome of each
`send`; (2) at every point of every run, for every callback `func(ctx)`, the
number of its invocations plus the number of queued units carrying it equals
the number of accepted units carrying it: an accepted unit is either still
queued and not yet released, or was released exactly once; (3) once the sender
has run as many iterations as the semaphore counts, the number of invocations
equals the number of accepted units carrying the callback. -/
theorem release_exactly_once :
    (∀ (sendOk : Nat → Bool) (s : rtp_state) (frame : frame_t),
      stream_task_dequeued s = some frame →
      ∃ s1 sends, stream_task_step sendOk s = some (s1, sends ++ free_frame frame) ∧
        (∀ e ∈ sends, ∀ func ctx, e ≠ event.free func ctx) ∧
        (∀ func, frame.free_func = some func →
          free_frame frame = [event.free func frame.free_ctx])) ∧
    (∀ (acts : List action) (func ctx : Nat),
      released func ctx (run rtp_state.init acts).2
          + carrying func ctx (run rtp_state.init acts).1.video_queue
          + carrying func ctx (run rtp_state.init acts).1.audio_queue
        = carrying func ctx (accepted rtp_state.init acts)) ∧
    (∀ (acts : List action) (os : List (Nat → Bool)) (func ctx : Nat),
      os.length = (run rtp_state.init acts).1.queue_semaphore →
      released func ctx (run rtp_state.init (acts ++ os.map action.sender)).2
        = carrying func ctx (accepted rtp_state.init (acts ++ os.map action.sender))) := by
  refine ⟨?_, ?_, ?_⟩
  · intro sendOk s frame hd
    obtain ⟨s0, hs⟩ := stream_task_dequeued_step sendOk s frame hd
    obtain ⟨sends, h1, _, h3⟩ := stream_task_send_events sendOk s0 frame
    refine ⟨(stream_task_send sendOk s0 frame).1, sends, ?_, h3, ?_⟩
    · rw [hs, ← h1]
    · intro func hf
      simp [free_frame, hf]
  · intro acts func ctx
    have h := run_accounting acts rtp_state.init queues_inv_init func ctx
    simpa [rtp_state.init, carrying] using h
  · intro acts os func ctx hl
    have h := run_accounting (acts ++ os.map action.sender) rtp_state.init queues_inv_init
      func ctx
    have hd := run_drain os (run rtp_state.init acts).1
      (run_inv acts rtp_state.init queues_inv_init) hl
    rw [run_append, hd.1, hd.2] at h
    simpa [rtp_state.init, carrying] using h

/-- Witness of C6: ten accepted JPEG units, then ten iterations of the sender
whose `send` calls all fail. -/
theorem release_exactly_once_witness :
    (stream_task_dequeued (run rtp_state.init ten_jpeg).1 = some (jpeg_frame_of sample_jpeg 0 0) ∧
      (jpeg_frame_of sample_jpeg 0 0).free_func = some 1 ∧
      (List.replicate 10 (fun _ : Nat => false)).length
        = (run rtp_state.init ten_jpeg).1.queue_semaphore) ∧
    (∃ s1 sends, stream_task_step (fun _ => false) (run rtp_state.init ten_jpeg).1
        = some (s1, sends ++ free_frame (jpeg_frame_of sample_jpeg 0 0)) ∧
      (∀ e ∈ sends, ∀ func ctx, e ≠ event.free func ctx) ∧
      (∀ func, (jpeg_frame_of sample_jpeg 0 0).free_func = some func →
        free_frame (jpeg_frame_of sample_jpeg 0 0)
          = [event.free func (jpeg_frame_of sample_jpeg 0 0).free_ctx])) ∧
    released 1 3 (run rtp_state.init
        (ten_jpeg ++ (List.replicate 10 (fun _ : Nat => false)).map action.sender)).2
      = carrying 1 3 (accepted rtp_state.init
        (ten_jpeg ++ (List.replicate 10 (fun _ : Nat => false)).map action.sender)) :=
  ⟨⟨rfl, rfl, by decide⟩,
    release_exactly_once.1 (fun _ => false) (run rtp_state.init ten_jpeg).1
      (jpeg_frame_of sample_jpeg 0 0) rfl,
    release_exactly_once.2.2 ten_jpeg (List.replicate 10 (fun _ : Nat => false)) 1 3
      (by decide)⟩

/-! ## Scenario B -/

set_option maxRecDepth 100000 in
/-- Counterexample to C8 as stated: a scan of 3000 bytes is not sent as
fragments of 1270, 1270 and 460 bytes at offsets 0, 1270 and 2540.  Without
embedded tables (`q = 0`) the fragments hold 1280, 1280 and 440 bytes; with
embedded tables (`q = 128`) they hold 1148, 1280 and 572 bytes. -/
theorem scenario_b_counterexample :
    (rtp_send_jpeg_data (fun _ => true) 0 0 0xdeadbeef (fun _ => 0) 3000 0 0 640 480 0
        (fun _ => 0) (fun _ => 0)).1.map
        (fun k => (k.1.data.length, be24toh k.1.jpg_hdr.off, k.1.rtp_hdr.m))
      = [(1280, 0, 0), (1280, 1280, 0), (440, 2560, 1)] ∧
    (rtp_send_jpeg_data (fun _ => true) 0 0 0xdeadbeef (fun _ => 0) 3000 0 0 640 480 128
        (fun _ => 0) (fun _ => 0)).1.map
        (fun k => (k.1.data.length, be24toh k.1.jpg_hdr.off, k.1.rtp_hdr.m))
      = [(1148, 0, 0), (1280, 1148, 0), (572, 2428, 1)] ∧
    (rtp_send_jpeg_data (fun _ => true) 0 0 0xdeadbeef (fun _ => 0) 3000 0 0 640 480 0
        (fun _ => 0) (fun _ => 0)).1.map
        (fun k => (k.1.data.length, be24toh k.1.jpg_hdr.off, k.1.rtp_hdr.m))
      ≠ [(1270, 0, 0), (1270, 1270, 0), (460, 2540, 1)] ∧
    (rtp_send_jpeg_data (fun _ => true) 0 0 0xdeadbeef (fun _ => 0) 3000 0 0 640 480 128
        (fun _ => 0) (fun _ => 0)).1.map
        (fun k => (k.1.data.length, be24toh k.1.jpg_hdr.off, k.1.rtp_hdr.m))
      ≠ [(1270, 0, 0), (1270, 1270, 0), (460, 2540, 1)] := by
  decide

/-- C8 (amended): without embedded tables (`q < 128`) the capacity of a fragment
is 1300 - 12 - 8 = 1280 bytes, and a scan of 3000 bytes is sent as exactly 3
fragments with 1280, 1280 and 440 scan bytes, at offsets 0, 1280 and 2560, the
marker bit set on the third only. -/
theorem scenario_b (start_seq ts ssrc : Nat) (jpeg_data : Nat → Nat) (type typespec : Nat)
    (width height : Int) (q : Nat) (lqt cqt : Nat → Nat) (hq : q < 128) :
    PACKET_SIZE - sizeof_rtp_hdr_t - sizeof_jpeg_hdr_t = 1280 ∧
    (rtp_send_jpeg_data (fun _ => true) start_seq ts ssrc jpeg_data 3000 type typespec
        width height q lqt cqt).1.map
        (fun k => (k.1.data.length, be24toh k.1.jpg_hdr.off, k.1.rtp_hdr.m, k.2))
      = [(1280, 0, 0, true), (1280, 1280, 0, true), (440, 2560, 1, true)] := by
  refine ⟨rfl, ?_⟩
  have hspec := jpeg_loop_spec jpeg_data q hq
    { mbz := 0, precision := 0, length := htobe16 128 } lqt cqt 3000 0
    { version := 2, p := 0, x := 0, cc := 0, m := 0, pt := RTP_PT_JPEG,
      seq := htobe16 start_seq, ts := htobe32 ts, ssrc := htobe32 ssrc }
    { tspec := typespec, off := 0, type := type, q := q,
      width := uint8 (Int.tdiv width 8), height := uint8 (Int.tdiv height 8) }
    3000 0 start_seq (Nat.le_refl _) (by norm_num) rfl rfl htobe24_zero.symm
  obtain ⟨h1, _, h3⟩ := hspec
  unfold rtp_send_jpeg_data
  generalize (jpeg_loop (fun _ => true) jpeg_data q
    { mbz := 0, precision := 0, length := htobe16 128 } lqt cqt 3000 0
    { version := 2, p := 0, x := 0, cc := 0, m := 0, pt := RTP_PT_JPEG,
      seq := htobe16 start_seq, ts := htobe32 ts, ssrc := htobe32 ssrc }
    { tspec := typespec, off := 0, type := type, q := q,
      width := uint8 (Int.tdiv width 8), height := uint8 (Int.tdiv height 8) }
    3000).1 = l at h1 h3
  have hlen : l.length = 3 := by rw [h1]
  match l, hlen with
  | [a, b, c], _ =>
    obtain ⟨a1, a2, _, a4, a5, _⟩ := h3 0 a rfl
    obtain ⟨b1, b2, _, b4, b5, _⟩ := h3 1 b rfl
    obtain ⟨c1, c2, _, c4, c5, _⟩ := h3 2 c rfl
    simp only [List.map_cons, List.map_nil, a1, a2, a4, a5, b1, b2, b4, b5, c1, c2, c4, c5,
      memcpy_src, List.length_map, List.length_range]
    norm_num

/-- Witness of C8 (amended). -/
theorem scenario_b_witness :
    0 < 128 ∧
    (PACKET_SIZE - sizeof_rtp_hdr_t - sizeof_jpeg_hdr_t = 1280 ∧
    (rtp_send_jpeg_data (fun _ => true) 0 0 0xdeadbeef (fun i => i % 256) 3000 0 0
        640 480 0 (fun _ => 0) (fun _ => 0)).1.map
        (fun k => (k.1.data.length, be24toh k.1.jpg_hdr.off, k.1.rtp_hdr.m, k.2))
      = [(1280, 0, 0, true), (1280, 1280, 0, true), (440, 2560, 1, true)]) :=
  ⟨by decide, scenario_b 0 0 0xdeadbeef (fun i => i % 256) 0 0 640 480 0
    (fun _ => 0) (fun _ => 0) (by decide)⟩

/-! ## The Opus datagram -/

theorem rtp_hdr_bytes_length (h : rtp_hdr_t) : h.bytes.length = 12 := rfl

/-- C9: for an Opus unit of at most 1000 bytes `rtp_send_opus_frame` calls
`send` exactly once, with the 12 bytes of the RTP header followed by the bytes
of the unit unchanged (12 + length bytes in total); for a unit of more than
1000 bytes it does not call `send`. -/
theorem rtp_send_opus_frame_datagram (sendOk : Nat → Bool) (sequence_number : Nat)
    (frame : frame_t) :
    (frame.length ≤ 1000 →
      ∃ k : opus_packet,
        (rtp_send_opus_frame sendOk sequence_number frame).sent = [(k, sendOk 0)] ∧
        k.bytes = k.rtp_hdr.bytes ++ (List.range frame.length).map frame.buffer ∧
        k.rtp_hdr.bytes.length = 12 ∧
        k.bytes.length = 12 + frame.length) ∧
    (frame.length > 1000 → (rtp_send_opus_frame sendOk sequence_number frame).sent = []) := by
  constructor
  · intro hl
    have hl2 : ¬ (frame.length > 1000) := by omega
    simp only [rtp_send_opus_frame, hl2, if_false]
    refine ⟨_, rfl, rfl, rfl, ?_⟩
    simp [opus_packet.bytes, memcpy_src, rtp_hdr_bytes_length]
  · intro hl
    simp only [rtp_send_opus_frame, hl, if_true]

/-- Witness of C9: a unit of 3 bytes and a unit of 1001 bytes. -/
theorem rtp_send_opus_frame_datagram_witness :
    ((opus_frame_of [1, 2, 3] 0 0).length ≤ 1000 ∧
      (opus_frame_of (List.replicate 1001 0) 0 0).length > 1000) ∧
    (∃ k : opus_packet,
      (rtp_send_opus_frame (fun _ => true) 7 (opus_frame_of [1, 2, 3] 0 0)).sent
        = [(k, true)] ∧
      k.bytes = k.rtp_hdr.bytes
        ++ (List.range (opus_frame_of [1, 2, 3] 0 0).length).map
          (opus_frame_of [1, 2, 3] 0 0).buffer ∧
      k.rtp_hdr.bytes.length = 12 ∧
      k.bytes.length = 12 + (opus_frame_of [1, 2, 3] 0 0).length) ∧
    (rtp_send_opus_frame (fun _ => true) 7 (opus_frame_of (List.replicate 1001 0) 0 0)).sent
      = [] :=
  ⟨⟨by decide, by simp only [opus_frame_of, List.length_replicate]; decide⟩,
    (rtp_send_opus_frame_datagram (fun _ => true) 7 (opus_frame_of [1, 2, 3] 0 0)).1
      (by decide),
    (rtp_send_opus_frame_datagram (fun _ => true) 7
      (opus_frame_of (List.replicate 1001 0) 0 0)).2
      (by simp only [opus_frame_of, List.length_replicate]; decide)⟩

/-! ## parse_jpeg -/

theorem bytes_at_append_right (a b : List Nat) (i : Nat) :
    bytes_at (a ++ b) (a.length + i) = bytes_at b i := by
  unfold bytes_at
  induction a with
  | nil => simp
  | cons x rest ih =>
    have : (x :: rest).length + i = (rest.length + i) + 1 := by simp; omega
    rw [List.cons_append, this, List.getD_cons_succ]
    exact ih

theorem segment_bytes_length (g : segment) : 2 ≤ g.bytes.length := by
  cases g <;> simp [segment.bytes]

theorem segments_bytes_length : ∀ segs : List segment,
    2 * segs.length ≤ (segments_bytes segs).length := by
  intro segs
  induction segs with
  | nil => simp [segments_bytes]
  | cons g rest ih =>
    have := segment_bytes_length g
    simp only [segments_bytes, List.length_cons, List.length_append]
    omega

/-- One iteration of the loop of `parse_jpeg` at the start of a well-formed
segment moves to the first byte after the segment. -/
theorem parse_jpeg_loop_segment (buf : Nat → Nat) (p : Nat) (g : segment) (hg : g.wf)
    (hbuf : ∀ i, i < g.bytes.length → buf (p + i) = g.bytes.getD i 0)
    (N : Nat) (hN : p < N) (fuel : Nat) (lqt cqt scan : Option Nat) (len : Nat) :
    ∃ lqt1 cqt1 : Option Nat,
      parse_jpeg_loop buf N (fuel + 1) p lqt cqt scan len
        = parse_jpeg_loop buf N fuel (p + g.bytes.length) lqt1 cqt1 scan len := by
  cases g with
  | soi =>
    have b0 := hbuf 0 (by simp [segment.bytes])
    have b1 := hbuf 1 (by simp [segment.bytes])
    simp only [segment.bytes, List.getD_cons_zero, List.getD_cons_succ, Nat.add_zero] at b0 b1
    refine ⟨lqt, cqt, ?_⟩
    simp [parse_jpeg_loop, hN, segment.bytes, b0, b1]
  | dqt body =>
    have b0 := hbuf 0 (by simp [segment.bytes])
    have b1 := hbuf 1 (by simp [segment.bytes])
    simp only [segment.bytes, List.getD_cons_zero, List.getD_cons_succ, Nat.add_zero] at b0 b1
    have hl : (segment.dqt body).bytes.length = 69 := by
      simp only [segment.wf] at hg
      simp [segment.bytes, hg]
    rw [hl]
    by_cases h0 : buf (p + 4) = 0
    · refine ⟨some (p + 5), cqt, ?_⟩
      simp [parse_jpeg_loop, hN, b0, b1, h0]
    · by_cases h1 : buf (p + 4) = 1
      · refine ⟨lqt, some (p + 5), ?_⟩
        simp [parse_jpeg_loop, hN, b0, b1, h1]
      · refine ⟨lqt, cqt, ?_⟩
        simp [parse_jpeg_loop, hN, b0, b1, h0, h1]
  | skip marker hi lo body =>
    have b0 := hbuf 0 (by simp [segment.bytes])
    have b1 := hbuf 1 (by simp [segment.bytes])
    have b2 := hbuf 2 (by simp [segment.bytes])
    have b3 := hbuf 3 (by simp [segment.bytes])
    simp only [segment.bytes, List.getD_cons_zero, List.getD_cons_succ, Nat.add_zero]
      at b0 b1 b2 b3
    obtain ⟨hm, hlen⟩ := hg
    have hl : (segment.skip marker hi lo body).bytes.length = 2 + (hi <<< 8 ||| lo) := by
      rw [hlen]; simp [segment.bytes]; omega
    rw [hl]
    refine ⟨lqt, cqt, ?_⟩
    have hd8 : marker ≠ 0xd8 := by omega
    have hdb : marker ≠ 0xdb := by omega
    have hda : marker ≠ 0xda := by omega
    simp only [parse_jpeg_loop, hN, if_true, b0, b1, b2, b3, ne_eq,
      not_true_eq_false, if_false, hd8, hdb, hda, hm]
    rw [Nat.add_assoc]

/-- The loop of `parse_jpeg` steps over any sequence of well-formed segments,
in whatever order they come. -/
theorem parse_jpeg_loop_segments (buf : Nat → Nat) (N : Nat) :
    ∀ (segs : List segment) (p fuel : Nat) (lqt cqt scan : Option Nat) (len : Nat),
      (∀ g ∈ segs, g.wf) →
      (∀ i, i < (segments_bytes segs).length → buf (p + i) = (segments_bytes segs).getD i 0) →
      p + (segments_bytes segs).length < N →
      ∃ lqt1 cqt1 : Option Nat,
        parse_jpeg_loop buf N (fuel + segs.length) p lqt cqt scan len
          = parse_jpeg_loop buf N fuel (p + (segments_bytes segs).length) lqt1 cqt1 scan len := by
  intro segs
  induction segs with
  | nil =>
    intro p fuel lqt cqt scan len _ _ _
    exact ⟨lqt, cqt, rfl⟩
  | cons g rest ih =>
    intro p fuel lqt cqt scan len hwf hbuf hN
    simp only [segments_bytes, List.length_append] at hbuf hN
    have hg : g.wf := hwf g (List.mem_cons_self _ _)
    have hbuf1 : ∀ i, i < g.bytes.length → buf (p + i) = g.bytes.getD i 0 := by
      intro i hi
      rw [hbuf i (by omega), List.getD_append _ _ _ _ hi]
    obtain ⟨l1, c1, h1⟩ := parse_jpeg_loop_segment buf p g hg hbuf1 N (by omega)
      (fuel + rest.length) lqt cqt scan len
    have hbuf2 : ∀ i, i < (segments_bytes rest).length →
        buf (p + g.bytes.length + i) = (segments_bytes rest).getD i 0 := by
      intro i hi
      rw [Nat.add_assoc, hbuf (g.bytes.length + i) (by omega),
        List.getD_append_right _ _ _ _ (by omega)]
      congr 1
      omega
    obtain ⟨l2, c2, h2⟩ := ih (p + g.bytes.length) fuel l1 c1 scan len
      (fun x hx => hwf x (List.mem_cons_of_mem _ hx)) hbuf2 (by omega)
    refine ⟨l2, c2, ?_⟩
    simp only [List.length_cons, segments_bytes, List.length_append]
    rw [← Nat.add_assoc fuel, h1, h2, Nat.add_assoc]

/-- On a buffer that starts with well-formed segments, `parse_jpeg` is the
loop resumed at the first byte after them. -/
theorem parse_jpeg_after_segments (frame : frame_t) (segs : List segment) (tail : List Nat)
    (hwf : ∀ g ∈ segs, g.wf) (htail : tail ≠ [])
    (hbuf : frame.buffer = bytes_at (segments_bytes segs ++ tail))
    (hlen : frame.length = (segments_bytes segs ++ tail).length)
    (lqt cqt scan : Option Nat) (len : Nat) :
    ∃ (fuel : Nat) (lqt1 cqt1 : Option Nat),
      parse_jpeg frame lqt cqt scan len
        = parse_jpeg_loop frame.buffer frame.length (fuel + 1) (segments_bytes segs).length
          lqt1 cqt1 scan len ∧
      (segments_bytes segs).length < frame.length ∧
      ∀ j, frame.buffer ((segments_bytes segs).length + j) = tail.getD j 0 := by
  have h2 := segments_bytes_length segs
  have htl : 0 < tail.length := List.length_pos.mpr htail
  rw [List.length_append] at hlen
  have hN : (segments_bytes segs).length < frame.length := by omega
  have hb : ∀ i, i < (segments_bytes segs).length →
      frame.buffer (0 + i) = (segments_bytes segs).getD i 0 := by
    intro i hi
    rw [hbuf, Nat.zero_add]
    unfold bytes_at
    rw [List.getD_append _ _ _ _ hi]
  obtain ⟨l1, c1, h1⟩ := parse_jpeg_loop_segments frame.buffer frame.length segs 0
    (frame.length - segs.length - 1 + 1) lqt cqt scan len hwf hb (by omega)
  refine ⟨frame.length - segs.length - 1, l1, c1, ?_, hN, ?_⟩
  · unfold parse_jpeg
    have hf : frame.length = frame.length - segs.length - 1 + 1 + segs.length := by omega
    rw [Nat.zero_add] at h1
    rw [← h1, ← hf]
  · intro j
    rw [hbuf, bytes_at_append_right]
    rfl

/-- The bound on the number of iterations of the loop of `parse_jpeg` is
immaterial once it is at least `length - ptr`: every iteration advances `ptr`
by at least 2, so the loop has finished by then. -/
theorem parse_jpeg_loop_fuel (buffer : Nat → Nat) (length : Nat) :
    ∀ (fuel1 fuel2 ptr : Nat) (lqt cqt scan : Option Nat) (len : Nat),
      length ≤ ptr + fuel1 → length ≤ ptr + fuel2 →
      parse_jpeg_loop buffer length fuel1 ptr lqt cqt scan len
        = parse_jpeg_loop buffer length fuel2 ptr lqt cqt scan len := by
  intro fuel1
  induction fuel1 with
  | zero =>
    intro fuel2 ptr lqt cqt scan len h1 _
    have hp : ¬ (ptr < length) := by omega
    cases fuel2 <;> simp [parse_jpeg_loop, hp]
  | succ fuel1 ih =>
    intro fuel2 ptr lqt cqt scan len h1 h2
    cases fuel2 with
    | zero =>
      have hp : ¬ (ptr < length) := by omega
      simp [parse_jpeg_loop, hp]
    | succ fuel2 =>
      simp only [parse_jpeg_loop]
      split_ifs <;> first | rfl | exact ih _ _ _ _ _ _ (by omega) (by omega)

/-- Counterexample to C10 as stated: a buffer whose markers come in the order
APP0, SOI, SOS (no quantization table, the application segment before the
start of image) is not rejected: `parse_jpeg` succeeds and the frame is sent
as one datagram. -/
theorem parse_jpeg_order_counterexample :
    parse_jpeg (jpeg_frame_of [0xff, 0xe0, 0x00, 0x02, 0xff, 0xd8, 0xff, 0xda, 0x00, 0x02,
        7, 8, 9, 0xff, 0xd9] 0 0) none none none 0
      = parse_result.ok none none (some 10) 3 ∧
    (rtp_send_jpeg_frame (fun _ => true) 0
      (jpeg_frame_of [0xff, 0xe0, 0x00, 0x02, 0xff, 0xd8, 0xff, 0xda, 0x00, 0x02,
        7, 8, 9, 0xff, 0xd9] 0 0)).sent.map (fun k => (k.1.data, k.2))
      = [([7, 8, 9], true)] := by
  decide

/-- C10 (amended): `parse_jpeg` checks the marker at the start of each segment
but not the order of the segments.  On a buffer made of well-formed SOI, DQT,
SOF0, DHT and APP0 segments in any order and any number, followed by `tail`:
(1) if `tail` starts with a byte other than 0xff, or with 0xff and a marker
other than 0xd8, 0xdb, 0xda, 0xc0, 0xc4, 0xe0, then `parse_jpeg` fails, and
`rtp_send_jpeg_frame` returns -1 without calling `send` and without touching
the sequence counter; (2) if `tail` starts with a start-of-scan segment,
`parse_jpeg` succeeds and the scan starts after the SOS header. -/
theorem parse_jpeg_markers (frame : frame_t) (segs : List segment) (tail : List Nat)
    (hwf : ∀ g ∈ segs, g.wf)
    (hbuf : frame.buffer = bytes_at (segments_bytes segs ++ tail))
    (hlen : frame.length = (segments_bytes segs ++ tail).length)
    (sendOk : Nat → Bool) (sequence_number : Nat) :
    (∀ b0 rest, tail = b0 :: rest →
      (b0 ≠ 0xff ∨ ∃ m rest1, rest = m :: rest1 ∧
        m ≠ 0xd8 ∧ m ≠ 0xdb ∧ m ≠ 0xda ∧ m ≠ 0xc0 ∧ m ≠ 0xc4 ∧ m ≠ 0xe0) →
      parse_jpeg frame none none none 0 = parse_result.fail ∧
      (rtp_send_jpeg_frame sendOk sequence_number frame).sent = [] ∧
      (rtp_send_jpeg_frame sendOk sequence_number frame).sequence_number = sequence_number ∧
      (rtp_send_jpeg_frame sendOk sequence_number frame).ret = -1) ∧
    (∀ hi lo rest, tail = 0xff :: 0xda :: hi :: lo :: rest →
      ∃ lqt cqt len, parse_jpeg frame none none none 0
        = parse_result.ok lqt cqt
          (some ((segments_bytes segs).length + 2 + (hi <<< 8 ||| lo))) len) := by
  constructor
  · intro b0 rest ht hbad
    have hfail : parse_jpeg frame none none none 0 = parse_result.fail := by
      obtain ⟨fuel, l1, c1, hp, hN, hb⟩ := parse_jpeg_after_segments frame segs tail hwf
        (by rw [ht]; simp) hbuf hlen none none none 0
      rw [hp]
      have hb0 := hb 0
      rw [ht] at hb0
      simp only [Nat.add_zero, List.getD_cons_zero] at hb0
      rcases hbad with h0 | ⟨m, rest1, hr, h1, h2, h3, h4, h5, h6⟩
      · simp [parse_jpeg_loop, hN, hb0, h0]
      · have hb1 := hb 1
        rw [ht, hr] at hb1
        simp only [List.getD_cons_succ, List.getD_cons_zero] at hb1
        by_cases h0 : b0 = 0xff
        · simp [parse_jpeg_loop, hN, hb0, h0, hb1, h1, h2, h3, h4, h5, h6]
        · simp [parse_jpeg_loop, hN, hb0, h0]
    refine ⟨hfail, ?_, ?_, ?_⟩ <;> simp [rtp_send_jpeg_frame, hfail]
  · intro hi lo rest ht
    obtain ⟨fuel, l1, c1, hp, hN, hb⟩ := parse_jpeg_after_segments frame segs tail hwf
      (by rw [ht]; simp) hbuf hlen none none none 0
    have hb0 := hb 0
    have hb1 := hb 1
    have hb2 := hb 2
    have hb3 := hb 3
    rw [ht] at hb0 hb1 hb2 hb3
    simp only [Nat.add_zero, List.getD_cons_zero, List.getD_cons_succ] at hb0 hb1 hb2 hb3
    rw [hp]
    simp only [parse_jpeg_loop, hN, if_true, hb0, hb1, hb2, hb3, ne_eq, not_true_eq_false,
      if_false]
    exact ⟨l1, c1, _, rfl⟩

end Rtp

namespace AudioEncoder

/-! ## Aggregation of Opus sub-frames -/

theorem opus_max_combined_frames_eq : opus_max_combined_frames = 6 := rfl

/-- One call of `opus_encode_frame` when libopus succeeds: the index advances
modulo 6, the timestamp of sub-frame 0 is retained, and `push_audio_packet` is
called, with the retained timestamp, exactly when the index wraps. -/
theorem opus_encode_frame_ok {E R : Type} (lib : libopus E R)
    (henc : ∀ e pcm n m, 0 ≤ (lib.opus_encode e pcm n m).2.1)
    (hcat : ∀ r d l, (lib.opus_repacketizer_cat r d l).2 = 0)
    (hout : ∀ r m, 0 ≤ (lib.opus_repacketizer_out r m).1)
    (w : world E R) (frame : frame_t) :
    (opus_encode_frame lib w frame).1.audio_encoder.first_frame_timestamp
      = (if w.audio_encoder.current_frame = 0 then frame.timestamp
         else w.audio_encoder.first_frame_timestamp) ∧
    (opus_encode_frame lib w frame).1.audio_encoder.current_frame
      = (if w.audio_encoder.current_frame + 1 = 6 then 0
         else w.audio_encoder.current_frame + 1) ∧
    (opus_encode_frame lib w frame).2.1.filterMap call.pushed_timestamp
      = (if w.audio_encoder.current_frame + 1 = 6 then
          [if w.audio_encoder.current_frame = 0 then frame.timestamp
           else w.audio_encoder.first_frame_timestamp]
         else []) := by
  have h1 : ∀ e pcm n m, ¬ ((lib.opus_encode e pcm n m).2.1 < 0) := by
    intro e pcm n m; have := henc e pcm n m; omega
  have h3 : ∀ r m, ¬ ((lib.opus_repacketizer_out r m).1 < 0) := by
    intro r m; have := hout r m; omega
  by_cases hc0 : w.audio_encoder.current_frame = 0
  · have hne : ¬ (w.audio_encoder.current_frame + 1 = 6) := by omega
    simp [opus_encode_frame, h1, hcat, hc0, opus_max_combined_frames, opus_frame_length_ms]
  · by_cases hc : w.audio_encoder.current_frame + 1 = 6
    · simp [opus_encode_frame, opus_combine_packets, h1, hcat, h3, hc0, hc,
        opus_max_combined_frames, opus_frame_length_ms, call.pushed_timestamp]
    · simp [opus_encode_frame, h1, hcat, hc0, hc, opus_max_combined_frames,
        opus_frame_length_ms]

theorem opus_encode_frames_append {E R : Type} (lib : libopus E R) :
    ∀ (a b : List frame_t) (w : world E R),
      opus_encode_frames lib w (a ++ b)
        = ((opus_encode_frames lib (opus_encode_frames lib w a).1 b).1,
           (opus_encode_frames lib w a).2 ++ (opus_encode_frames lib (opus_encode_frames lib w a).1 b).2) := by
  intro a
  induction a with
  | nil => intro b w; simp [opus_encode_frames]
  | cons x rest ih =>
    intro b w
    rw [List.cons_append]
    have h := ih b (opus_encode_frame lib w x).1
    simp only [opus_encode_frames]
    rw [h, List.append_assoc]

/-- State of the aggregation after the first `n` frames, when libopus succeeds. -/
theorem opus_encode_frames_take {E R : Type} (lib : libopus E R)
    (henc : ∀ e pcm n m, 0 ≤ (lib.opus_encode e pcm n m).2.1)
    (hcat : ∀ r d l, (lib.opus_repacketizer_cat r d l).2 = 0)
    (hout : ∀ r m, 0 ≤ (lib.opus_repacketizer_out r m).1)
    (w : world E R) (hc : w.audio_encoder.current_frame = 0) (frames : List frame_t) :
    ∀ n, n ≤ frames.length →
      (opus_encode_frames lib w (frames.take n)).1.audio_encoder.current_frame = n % 6 ∧
      (n % 6 ≠ 0 →
        (opus_encode_frames lib w (frames.take n)).1.audio_encoder.first_frame_timestamp
          = (frames.map frame_t.timestamp).getD (6 * (n / 6)) 0) ∧
      (opus_encode_frames lib w (frames.take n)).2.filterMap call.pushed_timestamp
        = (List.range (n / 6)).map (fun j => (frames.map frame_t.timestamp).getD (6 * j) 0) := by
  intro n
  induction n with
  | zero =>
    intro _
    simp [opus_encode_frames, hc]
  | succ n ih =>
    intro hn
    have hlt : n < frames.length := by omega
    obtain ⟨i1, i2, i3⟩ := ih (by omega)
    have htake : frames.take (n + 1) = frames.take n ++ [frames[n]] := by
      rw [List.take_succ, List.getElem?_eq_getElem hlt]
      rfl
    have hts : (frames.map frame_t.timestamp).getD n 0 = frames[n].timestamp := by
      rw [List.getD_eq_getElem?_getD, List.getElem?_map, List.getElem?_eq_getElem hlt]
      rfl
    obtain ⟨s1, s2, s3⟩ := opus_encode_frame_ok lib henc hcat hout
      (opus_encode_frames lib w (frames.take n)).1 frames[n]
    rw [htake, opus_encode_frames_append]
    simp only [opus_encode_frames, List.append_nil, List.filterMap_append]
    rw [s1, s2, s3, i1, i3]
    have hfirst : (if n % 6 = 0 then frames[n].timestamp
        else (opus_encode_frames lib w (frames.take n)).1.audio_encoder.first_frame_timestamp)
        = (frames.map frame_t.timestamp).getD (6 * (n / 6)) 0 := by
      by_cases h0 : n % 6 = 0
      · have : 6 * (n / 6) = n := by omega
        rw [this, hts]
        simp [h0]
      · rw [i2 h0]
        simp [h0]
    rw [hfirst]
    by_cases h5 : n % 6 + 1 = 6
    · have hd : (n + 1) / 6 = n / 6 + 1 := by omega
      have hm : (n + 1) % 6 = 0 := by omega
      simp only [h5, if_true, hd, hm, List.range_succ, List.map_append, List.map_cons,
        List.map_nil]
      exact ⟨trivial, fun h => absurd rfl h, trivial⟩
    · have hd : (n + 1) / 6 = n / 6 := by omega
      have hm : (n + 1) % 6 = n % 6 + 1 := by omega
      simp only [h5, if_false, hd, hm, List.append_nil]
      exact ⟨trivial, fun _ => trivial, trivial⟩

/-- C2: when every encode, concatenation and extraction succeeds, feeding `k`
raw frames one by one to `opus_encode_frame`, starting with the index at 0,
makes exactly `⌊k/6⌋` calls of `push_audio_packet` (6 = 120 ms / 20 ms), and
the `j`-th call (counted from 0) carries the timestamp of frame `6 j` (counted
from 0), the first frame of its group. -/
theorem opus_aggregation {E R : Type} (lib : libopus E R)
    (henc : ∀ e pcm n m, 0 ≤ (lib.opus_encode e pcm n m).2.1)
    (hcat : ∀ r d l, (lib.opus_repacketizer_cat r d l).2 = 0)
    (hout : ∀ r m, 0 ≤ (lib.opus_repacketizer_out r m).1)
    (w : world E R) (hc : w.audio_encoder.current_frame = 0) (frames : List frame_t) :
    opus_max_combined_frames = 120 / 20 ∧
    ((opus_encode_frames lib w frames).2.filterMap call.pushed_timestamp).length
      = frames.length / opus_max_combined_frames ∧
    (opus_encode_frames lib w frames).2.filterMap call.pushed_timestamp
      = (List.range (frames.length / opus_max_combined_frames)).map
        (fun j => (frames.map frame_t.timestamp).getD (opus_max_combined_frames * j) 0) := by
  have h := (opus_encode_frames_take lib henc hcat hout w hc frames frames.length
    (Nat.le_refl _)).2.2
  rw [List.take_length] at h
  rw [opus_max_combined_frames_eq]
  refine ⟨rfl, ?_, h⟩
  rw [h]
  simp

/-- Witness of C2 (scenario A): six frames of 320 samples give exactly one
combined packet. -/
theorem opus_aggregation_witness :
    ((∀ e pcm n m, 0 ≤ (sample_libopus.opus_encode e pcm n m).2.1) ∧
      (∀ r d l, (sample_libopus.opus_repacketizer_cat r d l).2 = 0) ∧
      (∀ r m, 0 ≤ (sample_libopus.opus_repacketizer_out r m).1) ∧
      sample_world.audio_encoder.current_frame = 0) ∧
    (opus_max_combined_frames = 120 / 20 ∧
    ((opus_encode_frames sample_libopus sample_world
        ((List.range 6).map (fun i => sample_frame (1000 + 20000 * i)))).2.filterMap
        call.pushed_timestamp).length
      = ((List.range 6).map (fun i => sample_frame (1000 + 20000 * i))).length
        / opus_max_combined_frames ∧
    (opus_encode_frames sample_libopus sample_world
        ((List.range 6).map (fun i => sample_frame (1000 + 20000 * i)))).2.filterMap
        call.pushed_timestamp
      = (List.range (((List.range 6).map (fun i => sample_frame (1000 + 20000 * i))).length
          / opus_max_combined_frames)).map
        (fun j => (((List.range 6).map (fun i => sample_frame (1000 + 20000 * i))).map
          frame_t.timestamp).getD (opus_max_combined_frames * j) 0)) :=
  ⟨⟨fun _ _ _ _ => (by decide : (0 : Int) ≤ 1), fun _ _ _ => rfl, fun _ _ => Int.ofNat_nonneg _, rfl⟩,
    opus_aggregation sample_libopus (fun _ _ _ _ => (by decide : (0 : Int) ≤ 1)) (fun _ _ _ => rfl)
      (fun _ _ => Int.ofNat_nonneg _) sample_world rfl
      ((List.range 6).map (fun i => sample_frame (1000 + 20000 * i)))⟩

/-- Scenario A evaluated: six frames stamped 1000, 21000, ... give one call of
`push_audio_packet`, stamped 1000; thirteen frames give two calls, stamped 1000
and 121000. -/
theorem scenario_a :
    (opus_encode_frames sample_libopus sample_world
        ((List.range 6).map (fun i => sample_frame (1000 + 20000 * i)))).2.filterMap
        call.pushed_timestamp = [1000] ∧
    (opus_encode_frames sample_libopus sample_world
        ((List.range 13).map (fun i => sample_frame (1000 + 20000 * i)))).2.filterMap
        call.pushed_timestamp = [1000, 121000] := by
  decide

end AudioEncoder

namespace Rtp

/-! ## Units refused by a full queue -/

set_option maxRecDepth 100000 in
/-- C7, the code at the failing input.  Video: after ten accepted JPEG units
(release contexts 0 to 9) an eleventh `rtp_send_jpeg` (release context 10)
returns -1; the sender then drains the queue, releasing contexts 0 to 9 once
each and context 10 never, and ends blocked on the semaphore with both queues
empty.  Audio: with ten Opus units queued, the combined packet built by
`opus_encode_frame` from six sub-frames is handed to `push_audio_packet`, which
returns -1; the buffer (identifier 0) is neither queued nor freed. -/
theorem full_queue_unit_never_released :
    (rtp_send_jpeg (run rtp_state.init ten_jpeg).1 640 480 (bytes_at sample_jpeg)
        sample_jpeg.length 0 (some 1) 10).2 = -1 ∧
    (List.range 11).map (fun ctx => released 1 ctx
        (run rtp_state.init (ten_jpeg ++ [action.enqueue (jpeg_frame_of sample_jpeg 0 10)]
          ++ List.replicate 20 (action.sender (fun _ => true)))).2)
      = [1, 1, 1, 1, 1, 1, 1, 1, 1, 1, 0] ∧
    (run rtp_state.init (ten_jpeg ++ [action.enqueue (jpeg_frame_of sample_jpeg 0 10)]
        ++ List.replicate 20 (action.sender (fun _ => true)))).1.queue_semaphore = 0 ∧
    (run rtp_state.init (ten_jpeg ++ [action.enqueue (jpeg_frame_of sample_jpeg 0 10)]
        ++ List.replicate 20 (action.sender (fun _ => true)))).1.video_queue.length = 0 ∧
    (run rtp_state.init (ten_jpeg ++ [action.enqueue (jpeg_frame_of sample_jpeg 0 10)]
        ++ List.replicate 20 (action.sender (fun _ => true)))).1.audio_queue.length = 0 ∧
    (AudioEncoder.opus_encode_frames AudioEncoder.sample_libopus
        { AudioEncoder.sample_world with rtp := (run rtp_state.init ten_opus).1 }
        ((List.range 6).map (fun i => AudioEncoder.sample_frame (1000 + 20000 * i)))).2
      = [AudioEncoder.call.push_audio_packet 0 [0, 1, 2, 3, 4, 5] 6 1000 (-1)] ∧
    (AudioEncoder.opus_encode_frames AudioEncoder.sample_libopus
        { AudioEncoder.sample_world with rtp := (run rtp_state.init ten_opus).1 }
        ((List.range 6).map (fun i => AudioEncoder.sample_frame (1000 + 20000 * i)))).1.rtp.audio_queue.map
        (fun u => u.free_ctx)
      = [100, 101, 102, 103, 104, 105, 106, 107, 108, 109] := by
  decide

/-! ## Instances of the marker check -/

/-- Witness of C10 (amended): SOI and a DQT segment followed by an end-of-image
marker are rejected; the same segments in the opposite order followed by a
start-of-scan segment are accepted. -/
theorem parse_jpeg_markers_witness :
    ((∀ g ∈ [segment.soi, segment.dqt (List.replicate 67 0)], g.wf) ∧
      (∀ g ∈ [segment.dqt (List.replicate 67 0), segment.soi], g.wf) ∧
      (0xd9 ≠ 0xd8 ∧ 0xd9 ≠ 0xdb ∧ 0xd9 ≠ 0xda ∧ 0xd9 ≠ 0xc0 ∧ 0xd9 ≠ 0xc4 ∧ 0xd9 ≠ 0xe0)) ∧
    (parse_jpeg (jpeg_frame_of
        (segments_bytes [segment.soi, segment.dqt (List.replicate 67 0)] ++ [0xff, 0xd9]) 0 0)
        none none none 0 = parse_result.fail ∧
      (rtp_send_jpeg_frame (fun _ => true) 5 (jpeg_frame_of
        (segments_bytes [segment.soi, segment.dqt (List.replicate 67 0)] ++ [0xff, 0xd9])
        0 0)).sent = [] ∧
      (rtp_send_jpeg_frame (fun _ => true) 5 (jpeg_frame_of
        (segments_bytes [segment.soi, segment.dqt (List.replicate 67 0)] ++ [0xff, 0xd9])
        0 0)).sequence_number = 5 ∧
      (rtp_send_jpeg_frame (fun _ => true) 5 (jpeg_frame_of
        (segments_bytes [segment.soi, segment.dqt (List.replicate 67 0)] ++ [0xff, 0xd9])
        0 0)).ret = -1) ∧
    (∃ lqt cqt len, parse_jpeg (jpeg_frame_of
        (segments_bytes [segment.dqt (List.replicate 67 0), segment.soi]
          ++ [0xff, 0xda, 0, 2, 7, 8, 9, 0xff, 0xd9]) 0 0) none none none 0
      = parse_result.ok lqt cqt
        (some ((segments_bytes [segment.dqt (List.replicate 67 0), segment.soi]).length
          + 2 + (0 <<< 8 ||| 2))) len) :=
  ⟨⟨by intro g hg; simp at hg; rcases hg with rfl | rfl <;> simp [segment.wf],
      by intro g hg; simp at hg; rcases hg with rfl | rfl <;> simp [segment.wf],
      by decide⟩,
    (parse_jpeg_markers _ [segment.soi, segment.dqt (List.replicate 67 0)] [0xff, 0xd9]
      (by intro g hg; simp at hg; rcases hg with rfl | rfl <;> simp [segment.wf])
      rfl rfl (fun _ => true) 5).1 0xff [0xd9] rfl
      (Or.inr ⟨0xd9, [], rfl, by decide⟩),
    (parse_jpeg_markers _ [segment.dqt (List.replicate 67 0), segment.soi]
      [0xff, 0xda, 0, 2, 7, 8, 9, 0xff, 0xd9]
      (by intro g hg; simp at hg; rcases hg with rfl | rfl <;> simp [segment.wf])
      rfl rfl (fun _ => true) 5).2 0 2 [7, 8, 9, 0xff, 0xd9] rfl⟩

/-! ## The fragmentation loop in general -/

theorem be24toh_htobe24_mod (x : Nat) : be24toh (htobe24 x) = x % 16777216 := by
  rw [be24toh_eq, htobe24_eq]
  obtain ⟨h1, h2, h3⟩ := bytes3 (x % 256) (x / 256 % 256) (x / 65536 % 256)
    (by omega) (by omega) (by omega)
  rw [h1, h2, h3]
  have e1 : x / 65536 = x / 256 / 256 := by omega
  rw [e1]
  omega

theorem htobe24_congr (x y : Nat) (h : x % 16777216 = y % 16777216) :
    htobe24 x = htobe24 y := by
  rw [htobe24_eq, htobe24_eq]
  have e1 : x % 256 = y % 256 := by omega
  have e2 : x / 256 % 256 = y / 256 % 256 := by omega
  have e3 : x / 65536 % 256 = y / 65536 % 256 := by
    have a1 : x / 65536 = x / 256 / 256 := by omega
    have a2 : y / 65536 = y / 256 / 256 := by omega
    rw [a1, a2]
    omega
  rw [e1, e2, e3]

theorem htobe24_eq_zero (x : Nat) (h : htobe24 x = 0) : x % 256 = 0 := by
  rw [htobe24_eq] at h
  omega

/-- Closed description of the loop once no table can be embedded any more
(`q < 128`, or an offset that is not a multiple of 256), whatever the outcome
of the `send` calls: fragment `i` carries offset `o + 1280 i`, sequence number
`s + i`, `min 1280 (b - 1280 i)` scan bytes, the marker when it is the last
one, and its `send` is call `n + i`; the value returned counts the successful
calls. -/
theorem jpeg_loop_plain (sendOk : Nat → Bool) (jpeg_data : Nat → Nat) (q : Nat)
    (qtbl_hdr : jpeg_hdr_qtable_t) (lqt cqt : Nat → Nat) :
    ∀ (fuel n : Nat) (rtp_hdr : rtp_hdr_t) (jpg_hdr : jpeg_hdr_t) (b o s : Nat),
      b ≤ fuel → (q < 128 ∨ o % 256 ≠ 0) → rtp_hdr.m = 0 → rtp_hdr.seq = htobe16 s →
      jpg_hdr.off = htobe24 o →
      (jpeg_loop sendOk jpeg_data q qtbl_hdr lqt cqt fuel n rtp_hdr jpg_hdr b).2
        = (s + (jpeg_loop sendOk jpeg_data q qtbl_hdr lqt cqt fuel n rtp_hdr jpg_hdr b).1.countP
            (fun k => k.2)) % 65536 ∧
      ((∀ j, sendOk j = true) →
        (jpeg_loop sendOk jpeg_data q qtbl_hdr lqt cqt fuel n rtp_hdr jpg_hdr b).1.length
          = (b + 1279) / 1280) ∧
      ∀ (i : Nat) (k : jpeg_packet × Bool),
        (jpeg_loop sendOk jpeg_data q qtbl_hdr lqt cqt fuel n rtp_hdr jpg_hdr b).1[i]? = some k →
          1280 * i < b ∧ k.2 = sendOk (n + i) ∧
          k.1 = { rtp_hdr := { rtp_hdr with
                    seq := htobe16 (s + i), m := if b ≤ 1280 * (i + 1) then 1 else 0 }
                  jpg_hdr := { jpg_hdr with off := htobe24 (o + 1280 * i) }
                  qtbl := none
                  data := memcpy_src (fun j => jpeg_data ((o + 1280 * i) % 16777216 + j))
                    (min 1280 (b - 1280 * i)) } := by
  intro fuel
  induction fuel with
  | zero =>
    intro n rtp_hdr jpg_hdr b o s hb _ _ hs _
    have hb0 : b = 0 := by omega
    subst hb0
    simp [jpeg_loop, hs, be16toh_htobe16]
  | succ fuel ih =>
    intro n rtp_hdr jpg_hdr b o s hb hnt hm hs hoff
    by_cases hb0 : b = 0
    · subst hb0
      simp [jpeg_loop, hs, be16toh_htobe16]
    · have hpos : b > 0 := Nat.pos_of_ne_zero hb0
      have hnq : ¬ (q ≥ 128 ∧ jpg_hdr.off = 0) := by
        rintro ⟨h1, h2⟩
        rw [hoff] at h2
        have := htobe24_eq_zero o h2
        omega
      have hoff2 : be24toh jpg_hdr.off = o % 16777216 := by
        rw [hoff]; exact be24toh_htobe24_mod o
      obtain ⟨version, p, x, cc, m, pt, seq, ts, ssrc⟩ := rtp_hdr
      obtain ⟨tspec, off, type, jq, width, height⟩ := jpg_hdr
      simp only at hm hs hoff hoff2 hnq
      subst hm
      subst hs
      subst hoff
      by_cases hlast : b ≤ 1280
      · by_cases hsend : sendOk n = true
        · simp only [jpeg_loop, hpos, hnq, if_true, decide_False, Bool.false_eq_true, if_false,
            PACKET_SIZE, sizeof_rtp_hdr_t, sizeof_jpeg_hdr_t, ge_iff_le, Nat.reduceAdd,
            Nat.reduceSub, hlast, decide_True, Nat.sub_self, jpeg_loop_zero, hsend,
            be16toh_htobe16, hoff2]
          refine ⟨by simp, fun _ => by simp; omega, ?_⟩
          intro i k hk
          cases i with
          | zero =>
            simp only [List.getElem?_cons_zero, Option.some.injEq] at hk
            subst hk
            refine ⟨by omega, by simp [hsend], ?_⟩
            have h1 : min 1280 b = b := by omega
            have h2 : b ≤ 1280 * (0 + 1) := by omega
            simp [h1, h2]
          | succ i => simp at hk
        · have hsend2 : sendOk n = false := by simpa using hsend
          simp only [jpeg_loop, hpos, hnq, if_true, decide_False, Bool.false_eq_true, if_false,
            PACKET_SIZE, sizeof_rtp_hdr_t, sizeof_jpeg_hdr_t, ge_iff_le, Nat.reduceAdd,
            Nat.reduceSub, hlast, decide_True, hsend2, be16toh_htobe16, hoff2]
          refine ⟨by simp, fun hall => by have := hall n; simp [hsend2] at this, ?_⟩
          intro i k hk
          cases i with
          | zero =>
            simp only [List.getElem?_cons_zero, Option.some.injEq] at hk
            subst hk
            refine ⟨by omega, by simp [hsend2], ?_⟩
            have h1 : min 1280 b = b := by omega
            have h2 : b ≤ 1280 * (0 + 1) := by omega
            simp [h1, h2]
          | succ i => simp at hk
      · have hlast2 : ¬ (1280 ≥ b) := by omega
        by_cases hsend : sendOk n = true
        · have hs2 : htobe16 (be16toh (htobe16 s) + 1) = htobe16 (s + 1) := by
            rw [be16toh_htobe16]
            exact htobe16_congr _ _ (by omega)
          have ho2 : htobe24 (o % 16777216 + 1280) = htobe24 (o + 1280) :=
            htobe24_congr _ _ (by omega)
          have hIH := ih (n + 1)
            { version := version, p := p, x := x, cc := cc, m := 0, pt := pt,
              seq := htobe16 (s + 1), ts := ts, ssrc := ssrc }
            { tspec := tspec, off := htobe24 (o + 1280), type := type, q := jq,
              width := width, height := height } (b - 1280) (o + 1280) (s + 1)
            (by omega) (by omega) rfl rfl rfl
          simp only [jpeg_loop, hpos, hnq, if_true, decide_False, Bool.false_eq_true, if_false,
            PACKET_SIZE, sizeof_rtp_hdr_t, sizeof_jpeg_hdr_t, ge_iff_le, Nat.reduceAdd,
            Nat.reduceSub, hlast, hsend, hs2, hoff2, ho2]
          obtain ⟨h1, h2, h3⟩ := hIH
          refine ⟨?_, ?_, ?_⟩
          · rw [h1]
            simp only [List.countP_cons, if_true]
            congr 1
            omega
          · intro hall
            rw [List.length_cons, h2 hall]
            omega
          · intro i k hk
            cases i with
            | zero =>
              simp only [List.getElem?_cons_zero, Option.some.injEq] at hk
              subst hk
              refine ⟨by omega, by simp [hsend], ?_⟩
              have h1 : min 1280 b = 1280 := by omega
              have h2 : ¬ (b ≤ 1280 * (0 + 1)) := by omega
              simp [h1, h2]
            | succ i =>
              simp only [List.getElem?_cons_succ] at hk
              obtain ⟨g1, g2, g3⟩ := h3 i k hk
              refine ⟨by omega, by rw [g2]; congr 1; omega, ?_⟩
              rw [g3]
              have e1 : o + 1280 + 1280 * i = o + 1280 * (i + 1) := by omega
              have e2 : b - 1280 - 1280 * i = b - 1280 * (i + 1) := by omega
              have e3 : s + 1 + i = s + (i + 1) := by omega
              have e4 : (b - 1280 ≤ 1280 * (i + 1)) = (b ≤ 1280 * (i + 1 + 1)) := by
                apply propext; constructor <;> intro h <;> omega
              simp only [e1, e2, e3, e4]
        · have hsend2 : sendOk n = false := by simpa using hsend
          simp only [jpeg_loop, hpos, hnq, if_true, decide_False, Bool.false_eq_true, if_false,
            PACKET_SIZE, sizeof_rtp_hdr_t, sizeof_jpeg_hdr_t, ge_iff_le, Nat.reduceAdd,
            Nat.reduceSub, hlast, hsend2, be16toh_htobe16, hoff2]
          refine ⟨by simp, fun hall => by have := hall n; simp [hsend2] at this, ?_⟩
          intro i k hk
          cases i with
          | zero =>
            simp only [List.getElem?_cons_zero, Option.some.injEq] at hk
            subst hk
            refine ⟨by omega, by simp [hsend2], ?_⟩
            have h1 : min 1280 b = 1280 := by omega
            have h2 : ¬ (b ≤ 1280 * (0 + 1)) := by omega
            simp [h1, h2]
          | succ i => simp at hk

theorem fragment_offset_plain (q : Nat) (hq : q < 128) (i : Nat) :
    fragment_offset q i = 1280 * i := by
  induction i with
  | zero => rfl
  | succ i ih =>
    have hn : ¬ (q ≥ 128 ∧ i = 0) := by omega
    simp only [fragment_offset, ih, fragment_room, hn, if_false, PACKET_SIZE, sizeof_rtp_hdr_t,
      sizeof_jpeg_hdr_t]
    omega

theorem fragment_offset_tables (q : Nat) (hq : q ≥ 128) (i : Nat) :
    fragment_offset q (i + 1) = 1148 + 1280 * i := by
  induction i with
  | zero =>
    simp [fragment_offset, fragment_room, hq, PACKET_SIZE, sizeof_rtp_hdr_t,
      sizeof_jpeg_hdr_t, sizeof_jpeg_hdr_qtable_t]
  | succ i ih =>
    have hn : ¬ (q ≥ 128 ∧ i + 1 = 0) := by omega
    rw [fragment_offset, ih]
    simp only [fragment_room, hn, if_false, PACKET_SIZE, sizeof_rtp_hdr_t, sizeof_jpeg_hdr_t]
    omega

theorem fragment_room_le (q i : Nat) : fragment_room q i ≤ 1280 ∧ 1148 ≤ fragment_room q i := by
  unfold fragment_room
  split_ifs <;> simp [PACKET_SIZE, sizeof_rtp_hdr_t, sizeof_jpeg_hdr_t, sizeof_jpeg_hdr_qtable_t]

/-- Every call of `send` made by `rtp_send_jpeg_data`, with or without embedded
tables and whatever the outcome of the calls: call `i` is made for the scan
bytes from `fragment_offset q i`, as many as there is room for, with the marker
when they are the last, the sequence number `start_seq + i`, and the tables in
the first fragment when `q ≥ 128`.  The value returned counts the successful
calls. -/
theorem rtp_send_jpeg_data_packets (sendOk : Nat → Bool) (start_seq ts ssrc : Nat)
    (jpeg_data : Nat → Nat) (len type typespec : Nat) (width height : Int) (q : Nat)
    (lqt cqt : Nat → Nat) :
    (rtp_send_jpeg_data sendOk start_seq ts ssrc jpeg_data len type typespec width height q
        lqt cqt).2
      = (start_seq + (rtp_send_jpeg_data sendOk start_seq ts ssrc jpeg_data len type typespec
          width height q lqt cqt).1.countP (fun k => k.2)) % 65536 ∧
    ∀ (i : Nat) (k : jpeg_packet × Bool),
      (rtp_send_jpeg_data sendOk start_seq ts ssrc jpeg_data len type typespec width height q
        lqt cqt).1[i]? = some k →
      fragment_offset q i < len ∧ k.2 = sendOk i ∧
      k.1 = { rtp_hdr :=
                { version := 2, p := 0, x := 0, cc := 0,
                  m := if len ≤ fragment_offset q i + fragment_room q i then 1 else 0,
                  pt := RTP_PT_JPEG, seq := htobe16 (start_seq + i), ts := htobe32 ts,
                  ssrc := htobe32 ssrc }
              jpg_hdr :=
                { tspec := typespec, off := htobe24 (fragment_offset q i), type := type, q := q,
                  width := uint8 (Int.tdiv width 8), height := uint8 (Int.tdiv height 8) }
              qtbl :=
                if q ≥ 128 ∧ i = 0 then
                  some ({ mbz := 0, precision := 0, length := htobe16 128 },
                    memcpy_src lqt 64, memcpy_src cqt 64)
                else none
              data := memcpy_src (fun j => jpeg_data (fragment_offset q i % 16777216 + j))
                (min (fragment_room q i) (len - fragment_offset q i)) } := by
  by_cases hq : q < 128
  · obtain ⟨h1, _, h3⟩ := jpeg_loop_plain sendOk jpeg_data q
      { mbz := 0, precision := 0, length := htobe16 128 } lqt cqt len 0
      { version := 2, p := 0, x := 0, cc := 0, m := 0, pt := RTP_PT_JPEG,
        seq := htobe16 start_seq, ts := htobe32 ts, ssrc := htobe32 ssrc }
      { tspec := typespec, off := 0, type := type, q := q,
        width := uint8 (Int.tdiv width 8), height := uint8 (Int.tdiv height 8) }
      len 0 start_seq (Nat.le_refl _) (Or.inl hq) rfl rfl htobe24_zero.symm
    refine ⟨h1, ?_⟩
    intro i k hk
    obtain ⟨g1, g2, g3⟩ := h3 i k hk
    have hn : ¬ (q ≥ 128 ∧ i = 0) := by omega
    have hroom : fragment_room q i = 1280 := by
      simp [fragment_room, hn, PACKET_SIZE, sizeof_rtp_hdr_t, sizeof_jpeg_hdr_t]
    rw [fragment_offset_plain q hq, hroom]
    refine ⟨g1, by simpa using g2, ?_⟩
    rw [g3]
    have e : 1280 * i + 1280 = 1280 * (i + 1) := by omega
    simp only [hn, if_false, Nat.zero_add, e]
  · have hq2 : q ≥ 128 := by omega
    unfold rtp_send_jpeg_data
    cases len with
    | zero => simp [jpeg_loop, be16toh_htobe16]
    | succ f =>
      have hb0 : be24toh 0 = 0 := by
        have h := be24toh_htobe24_mod 0
        rw [htobe24_zero] at h
        exact h
      have hroom0 : fragment_room q 0 = 1148 := by
        simp [fragment_room, hq2, PACKET_SIZE, sizeof_rtp_hdr_t, sizeof_jpeg_hdr_t,
          sizeof_jpeg_hdr_qtable_t]
      have hs2 : htobe16 (be16toh (htobe16 start_seq) + 1) = htobe16 (start_seq + 1) := by
        rw [be16toh_htobe16]
        exact htobe16_congr _ _ (by omega)
      by_cases hlast : f + 1 ≤ 1148
      · by_cases hsend : sendOk 0 = true
        · simp only [jpeg_loop, hq2, and_self, decide_True, if_true, PACKET_SIZE,
            sizeof_rtp_hdr_t, sizeof_jpeg_hdr_t, sizeof_jpeg_hdr_qtable_t, ge_iff_le,
            Nat.reduceAdd, Nat.reduceSub, hlast, hsend, Nat.sub_self, jpeg_loop_zero, hb0,
            gt_iff_lt, Nat.zero_lt_succ, be16toh_htobe16]
          refine ⟨by simp, ?_⟩
          intro i k hk
          cases i with
          | zero =>
            simp only [List.getElem?_cons_zero, Option.some.injEq] at hk
            subst hk
            have h1 : min 1148 (f + 1) = f + 1 := by omega
            simp [fragment_offset, hroom0, hsend, hlast, hq2, h1, htobe24_zero]
          | succ i => simp at hk
        · have hsend2 : sendOk 0 = false := by simpa using hsend
          simp only [jpeg_loop, hq2, and_self, decide_True, if_true, PACKET_SIZE,
            sizeof_rtp_hdr_t, sizeof_jpeg_hdr_t, sizeof_jpeg_hdr_qtable_t, ge_iff_le,
            Nat.reduceAdd, Nat.reduceSub, hlast, hsend2, hb0, gt_iff_lt, Nat.zero_lt_succ,
            be16toh_htobe16, Bool.false_eq_true, if_false]
          refine ⟨by simp, ?_⟩
          intro i k hk
          cases i with
          | zero =>
            simp only [List.getElem?_cons_zero, Option.some.injEq] at hk
            subst hk
            have h1 : min 1148 (f + 1) = f + 1 := by omega
            simp [fragment_offset, hroom0, hsend2, hlast, hq2, h1, htobe24_zero]
          | succ i => simp at hk
      · have hlast2 : ¬ (f + 1 ≤ 1148) := hlast
        by_cases hsend : sendOk 0 = true
        · obtain ⟨h1, _, h3⟩ := jpeg_loop_plain sendOk jpeg_data q
            { mbz := 0, precision := 0, length := htobe16 128 } lqt cqt f 1
            { version := 2, p := 0, x := 0, cc := 0, m := 0, pt := RTP_PT_JPEG,
              seq := htobe16 (start_seq + 1), ts := htobe32 ts, ssrc := htobe32 ssrc }
            { tspec := typespec, off := htobe24 1148, type := type, q := q,
              width := uint8 (Int.tdiv width 8), height := uint8 (Int.tdiv height 8) }
            (f + 1 - 1148) 1148 (start_seq + 1) (by omega) (Or.inr (by decide)) rfl rfl rfl
          simp only [jpeg_loop, hq2, and_self, decide_True, if_true, PACKET_SIZE,
            sizeof_rtp_hdr_t, sizeof_jpeg_hdr_t, sizeof_jpeg_hdr_qtable_t, ge_iff_le,
            Nat.reduceAdd, Nat.reduceSub, hlast, hsend, hb0, gt_iff_lt, Nat.zero_lt_succ,
            decide_False, Bool.false_eq_true, if_false, hs2, Nat.zero_add]
          refine ⟨?_, ?_⟩
          · rw [h1]
            simp only [List.countP_cons, if_true]
            congr 1
            omega
          · intro i k hk
            cases i with
            | zero =>
              simp only [List.getElem?_cons_zero, Option.some.injEq] at hk
              subst hk
              have h1 : min 1148 (f + 1) = 1148 := by omega
              simp [fragment_offset, hroom0, hsend, hlast, hq2, h1, htobe24_zero]
            | succ i =>
              simp only [List.getElem?_cons_succ] at hk
              obtain ⟨g1, g2, g3⟩ := h3 i k hk
              have hn : ¬ (q ≥ 128 ∧ i + 1 = 0) := by omega
              have hroom : fragment_room q (i + 1) = 1280 := by
                simp [fragment_room, PACKET_SIZE, sizeof_rtp_hdr_t, sizeof_jpeg_hdr_t]
              rw [fragment_offset_tables q hq2, hroom]
              refine ⟨by omega, by rw [g2]; congr 1; omega, ?_⟩
              rw [g3]
              have e1 : start_seq + 1 + i = start_seq + (i + 1) := by omega
              have e2 : f + 1 - 1148 - 1280 * i = f + 1 - (1148 + 1280 * i) := by omega
              have e4 : (f + 1 - 1148 ≤ 1280 * (i + 1)) = (f + 1 ≤ 1148 + 1280 * i + 1280) := by
                apply propext; constructor <;> intro h <;> omega
              simp only [e1, e2, e4]
              simp
        · have hsend2 : sendOk 0 = false := by simpa using hsend
          simp only [jpeg_loop, hq2, and_self, decide_True, if_true, PACKET_SIZE,
            sizeof_rtp_hdr_t, sizeof_jpeg_hdr_t, sizeof_jpeg_hdr_qtable_t, ge_iff_le,
            Nat.reduceAdd, Nat.reduceSub, hlast, hsend2, hb0, gt_iff_lt, Nat.zero_lt_succ,
            decide_False, be16toh_htobe16, Bool.false_eq_true, if_false]
          refine ⟨by simp, ?_⟩
          intro i k hk
          cases i with
          | zero =>
            simp only [List.getElem?_cons_zero, Option.some.injEq] at hk
            subst hk
            have h1 : min 1148 (f + 1) = 1148 := by omega
            simp [fragment_offset, hroom0, hsend2, hlast, hq2, h1, htobe24_zero]
          | succ i => simp at hk

/-! ## Sequence counters -/

/-- One unit handled by `rtp_send_jpeg_frame`, whatever the outcome of the
`send` calls: call `i` carries the sequence number `sequence_number + i`, and
the counter ends at the old value plus the number of successful calls. -/
theorem rtp_send_jpeg_frame_seq (sendOk : Nat → Bool) (sequence_number : Nat) (frame : frame_t)
    (hseq : sequence_number < 65536) :
    (rtp_send_jpeg_frame sendOk sequence_number frame).sequence_number
      = (sequence_number + (rtp_send_jpeg_frame sendOk sequence_number frame).sent.countP
          (fun k => k.2)) % 65536 ∧
    ∀ (i : Nat) (k : jpeg_packet × Bool),
      (rtp_send_jpeg_frame sendOk sequence_number frame).sent[i]? = some k →
      k.2 = sendOk i ∧ be16toh k.1.rtp_hdr.seq = (sequence_number + i) % 65536 := by
  unfold rtp_send_jpeg_frame
  cases hp : parse_jpeg frame none none none 0 with
  | fail =>
    simp only [List.countP_nil, Nat.add_zero]
    exact ⟨(Nat.mod_eq_of_lt hseq).symm, fun i k hk => by simp at hk⟩
  | ok lqt cqt scan len =>
    simp only
    obtain ⟨h1, h2⟩ := rtp_send_jpeg_data_packets sendOk sequence_number
      (uint32 (Int.tdiv (int64 (frame.timestamp * 90000)) 1000000)) 0xdeadbeef
      (deref frame.buffer scan) len 0 0 frame.width frame.height
      (if lqt.isNone ∨ cqt.isNone then 0 else 128)
      (deref frame.buffer lqt) (deref frame.buffer cqt)
    refine ⟨?_, ?_⟩
    · rw [h1, Nat.mod_mod]
    · intro i k hk
      obtain ⟨_, g2, g3⟩ := h2 i k hk
      refine ⟨g2, ?_⟩
      rw [g3]
      exact be16toh_htobe16 _

theorem rtp_send_jpeg_frame_seq_lt (sendOk : Nat → Bool) (sequence_number : Nat)
    (frame : frame_t) (hseq : sequence_number < 65536) :
    (rtp_send_jpeg_frame sendOk sequence_number frame).sequence_number < 65536 := by
  rw [(rtp_send_jpeg_frame_seq sendOk sequence_number frame hseq).1]
  exact Nat.mod_lt _ (by decide)

theorem countP_snd_eq_length (l : List (jpeg_packet × Bool))
    (h : ∀ (i : Nat) (k : jpeg_packet × Bool), l[i]? = some k → k.2 = true) :
    l.countP (fun k => k.2) = l.length := by
  rw [List.countP_eq_length]
  intro a ha
  obtain ⟨n, hn⟩ := List.mem_iff_getElem?.mp ha
  exact h n a hn

/-- Several units handled one after the other with every `send` succeeding:
the datagrams, taken in the order they are sent, carry consecutive sequence
numbers, and the counter ends at the old value plus their number. -/
theorem rtp_send_jpeg_frames_seq : ∀ (frames : List frame_t) (sequence_number : Nat),
    sequence_number < 65536 →
    (rtp_send_jpeg_frames (fun _ => true) sequence_number frames).2
      = (sequence_number
          + (rtp_send_jpeg_frames (fun _ => true) sequence_number frames).1.flatten.length)
        % 65536 ∧
    ∀ (i : Nat) (k : jpeg_packet × Bool),
      (rtp_send_jpeg_frames (fun _ => true) sequence_number frames).1.flatten[i]? = some k →
      be16toh k.1.rtp_hdr.seq = (sequence_number + i) % 65536 := by
  intro frames
  induction frames with
  | nil =>
    intro sequence_number hseq
    simp [rtp_send_jpeg_frames, Nat.mod_eq_of_lt hseq]
  | cons frame rest ih =>
    intro sequence_number hseq
    obtain ⟨h1, h2⟩ := rtp_send_jpeg_frame_seq (fun _ => true) sequence_number frame hseq
    have hcount := countP_snd_eq_length
      (rtp_send_jpeg_frame (fun _ => true) sequence_number frame).sent
      (fun i k hk => (h2 i k hk).1)
    rw [hcount] at h1
    obtain ⟨i1, i2⟩ := ih (rtp_send_jpeg_frame (fun _ => true) sequence_number frame).sequence_number
      (rtp_send_jpeg_frame_seq_lt _ _ _ hseq)
    simp only [rtp_send_jpeg_frames, List.flatten_cons, List.length_append]
    refine ⟨?_, ?_⟩
    · rw [i1, h1]
      omega
    · intro i k hk
      rw [List.getElem?_append] at hk
      by_cases hi : i < (rtp_send_jpeg_frame (fun _ => true) sequence_number frame).sent.length
      · rw [if_pos hi] at hk
        exact (h2 i k hk).2
      · rw [if_neg hi] at hk
        rw [i2 _ k hk, h1]
        omega

/-- C12: the video sequence numbers come from one continuous 16-bit counter.
With every `send` succeeding: (1) after `rtp_send_jpeg_frame` has sent a frame
as `n` datagrams the counter is its previous value plus `n` modulo 65536, and
datagram `i` of the frame carries the previous value plus `i`; (2) a frame
dropped by a parse failure sends nothing and leaves the counter unchanged;
(3) over any sequence of frames, the datagrams taken in the order they are sent
carry `s`, `s + 1`, ... modulo 65536, so two consecutive ones, in the same frame
or in successive frames, carry `s` and `(s + 1) mod 65536`; (4) handling a JPEG
unit leaves the audio counter as it is. -/
theorem jpeg_sequence_continuous (sequence_number : Nat) (hseq : sequence_number < 65536) :
    (∀ frame : frame_t,
      (rtp_send_jpeg_frame (fun _ => true) sequence_number frame).sequence_number
        = (sequence_number
            + (rtp_send_jpeg_frame (fun _ => true) sequence_number frame).sent.length) % 65536 ∧
      ∀ (i : Nat) (k : jpeg_packet × Bool),
        (rtp_send_jpeg_frame (fun _ => true) sequence_number frame).sent[i]? = some k →
        k.2 = true ∧ be16toh k.1.rtp_hdr.seq = (sequence_number + i) % 65536) ∧
    (∀ (sendOk : Nat → Bool) (frame : frame_t),
      parse_jpeg frame none none none 0 = parse_result.fail →
      (rtp_send_jpeg_frame sendOk sequence_number frame).sent = [] ∧
      (rtp_send_jpeg_frame sendOk sequence_number frame).sequence_number = sequence_number) ∧
    (∀ (frames : List frame_t) (i : Nat) (k1 k2 : jpeg_packet × Bool),
      (rtp_send_jpeg_frames (fun _ => true) sequence_number frames).1.flatten[i]? = some k1 →
      (rtp_send_jpeg_frames (fun _ => true) sequence_number frames).1.flatten[i + 1]? = some k2 →
      be16toh k1.1.rtp_hdr.seq = (sequence_number + i) % 65536 ∧
      be16toh k2.1.rtp_hdr.seq = (be16toh k1.1.rtp_hdr.seq + 1) % 65536) ∧
    (∀ (sendOk : Nat → Bool) (s : rtp_state) (frame : frame_t),
      frame.type = frame_type_t.FRAME_TYPE_JPEG →
      (stream_task_send sendOk s frame).1.opus_sequence_number = s.opus_sequence_number) := by
  refine ⟨?_, ?_, ?_, ?_⟩
  · intro frame
    obtain ⟨h1, h2⟩ := rtp_send_jpeg_frame_seq (fun _ => true) sequence_number frame hseq
    have hcount := countP_snd_eq_length
      (rtp_send_jpeg_frame (fun _ => true) sequence_number frame).sent
      (fun i k hk => (h2 i k hk).1)
    rw [hcount] at h1
    exact ⟨h1, h2⟩
  · intro sendOk frame hp
    simp [rtp_send_jpeg_frame, hp]
  · intro frames i k1 k2 hk1 hk2
    obtain ⟨_, h2⟩ := rtp_send_jpeg_frames_seq frames sequence_number hseq
    rw [h2 i k1 hk1, h2 (i + 1) k2 hk2]
    exact ⟨rfl, by omega⟩
  · intro sendOk s frame ht
    simp [stream_task_send, ht]

/-- Witness of C12: the counter at 65535. -/
theorem jpeg_sequence_continuous_witness :
    65535 < 65536 ∧
    ((∀ frame : frame_t,
      (rtp_send_jpeg_frame (fun _ => true) 65535 frame).sequence_number
        = (65535 + (rtp_send_jpeg_frame (fun _ => true) 65535 frame).sent.length) % 65536 ∧
      ∀ (i : Nat) (k : jpeg_packet × Bool),
        (rtp_send_jpeg_frame (fun _ => true) 65535 frame).sent[i]? = some k →
        k.2 = true ∧ be16toh k.1.rtp_hdr.seq = (65535 + i) % 65536) ∧
    (∀ (sendOk : Nat → Bool) (frame : frame_t),
      parse_jpeg frame none none none 0 = parse_result.fail →
      (rtp_send_jpeg_frame sendOk 65535 frame).sent = [] ∧
      (rtp_send_jpeg_frame sendOk 65535 frame).sequence_number = 65535) ∧
    (∀ (frames : List frame_t) (i : Nat) (k1 k2 : jpeg_packet × Bool),
      (rtp_send_jpeg_frames (fun _ => true) 65535 frames).1.flatten[i]? = some k1 →
      (rtp_send_jpeg_frames (fun _ => true) 65535 frames).1.flatten[i + 1]? = some k2 →
      be16toh k1.1.rtp_hdr.seq = (65535 + i) % 65536 ∧
      be16toh k2.1.rtp_hdr.seq = (be16toh k1.1.rtp_hdr.seq + 1) % 65536) ∧
    (∀ (sendOk : Nat → Bool) (s : rtp_state) (frame : frame_t),
      frame.type = frame_type_t.FRAME_TYPE_JPEG →
      (stream_task_send sendOk s frame).1.opus_sequence_number = s.opus_sequence_number)) :=
  ⟨by decide, jpeg_sequence_continuous 65535 (by decide)⟩

/-- The video counter evaluated: a frame of one datagram, a frame dropped by a
parse failure and another frame of one datagram, from 65535: the datagrams
carry 65535 and 0 and the counter ends at 1. -/
theorem jpeg_sequence_example :
    (rtp_send_jpeg_frames (fun _ => true) 65535
        [jpeg_frame_of sample_jpeg 0 0, jpeg_frame_of [0xff, 0xd9] 0 1,
          jpeg_frame_of sample_jpeg 0 2]).1.map
        (fun l => l.map (fun k => be16toh k.1.rtp_hdr.seq))
      = [[65535], [], [0]] ∧
    (rtp_send_jpeg_frames (fun _ => true) 65535
        [jpeg_frame_of sample_jpeg 0 0, jpeg_frame_of [0xff, 0xd9] 0 1,
          jpeg_frame_of sample_jpeg 0 2]).2 = 1 := by
  decide

set_option maxRecDepth 100000 in
/-- Counterexample to C13 as stated: a unit of 3 bytes, a unit of 1001 bytes
(dropped) and another unit of 3 bytes are handled from counter 0.  Two
datagrams are sent, one after the other, and they carry 0 and 2, not 0 and 1;
the counter has advanced three times for two datagrams. -/
theorem opus_sequence_counterexample :
    (rtp_send_opus_frames (fun _ => true) 0
        [opus_frame_of [1, 2, 3] 0 0, opus_frame_of (List.replicate 1001 0) 0 1,
          opus_frame_of [4, 5, 6] 0 2]).1.flatten.map
        (fun k => (be16toh k.1.rtp_hdr.seq, k.1.data, k.2))
      = [(0, [1, 2, 3], true), (2, [4, 5, 6], true)] ∧
    (rtp_send_opus_frames (fun _ => true) 0
        [opus_frame_of [1, 2, 3] 0 0, opus_frame_of (List.replicate 1001 0) 0 1,
          opus_frame_of [4, 5, 6] 0 2]).2 = 3 := by
  decide

theorem rtp_send_opus_frame_seq (sendOk : Nat → Bool) (sequence_number : Nat)
    (frame : frame_t) :
    (rtp_send_opus_frame sendOk sequence_number frame).sequence_number
      = (sequence_number + 1) % 65536 ∧
    (rtp_send_opus_frame sendOk sequence_number frame).sent.length
      = (if frame.length > 1000 then 0 else 1) ∧
    ∀ k ∈ (rtp_send_opus_frame sendOk sequence_number frame).sent,
      be16toh k.1.rtp_hdr.seq = sequence_number % 65536 := by
  unfold rtp_send_opus_frame
  by_cases hl : frame.length > 1000
  · simp [hl]
  · simp only [hl, if_false, List.length_singleton, List.mem_singleton]
    refine ⟨trivial, trivial, ?_⟩
    intro k hk
    subst hk
    exact be16toh_htobe16 _

/-- C13 (amended): the audio counter advances exactly once per Opus unit handled
by `rtp_send_opus_frame`, whether the datagram of the unit is handed to `send`
or the unit is dropped because it is longer than 1000 bytes.  Over any sequence
of units handled from counter `s`: the counter ends at `s` plus the number of
units modulo 65536; unit `i` gives no datagram when it is longer than 1000
bytes and one datagram otherwise, which carries `(s + i) mod 65536`. -/
theorem opus_sequence_per_unit (sendOk : Nat → Bool) :
    ∀ (frames : List frame_t) (sequence_number : Nat), sequence_number < 65536 →
    (rtp_send_opus_frames sendOk sequence_number frames).2
      = (sequence_number + frames.length) % 65536 ∧
    (rtp_send_opus_frames sendOk sequence_number frames).1.length = frames.length ∧
    ∀ (i : Nat) (frame : frame_t) (l : List (opus_packet × Bool)),
      frames[i]? = some frame →
      (rtp_send_opus_frames sendOk sequence_number frames).1[i]? = some l →
      l.length = (if frame.length > 1000 then 0 else 1) ∧
      ∀ k ∈ l, be16toh k.1.rtp_hdr.seq = (sequence_number + i) % 65536 := by
  intro frames
  induction frames with
  | nil =>
    intro sequence_number hseq
    simp [rtp_send_opus_frames, Nat.mod_eq_of_lt hseq]
  | cons frame rest ih =>
    intro sequence_number hseq
    obtain ⟨h1, h2, h3⟩ := rtp_send_opus_frame_seq sendOk sequence_number frame
    obtain ⟨i1, i2, i3⟩ := ih (rtp_send_opus_frame sendOk sequence_number frame).sequence_number
      (by rw [h1]; exact Nat.mod_lt _ (by decide))
    simp only [rtp_send_opus_frames, List.length_cons]
    refine ⟨?_, by rw [i2], ?_⟩
    · rw [i1, h1]
      omega
    · intro i fr l hf hl
      cases i with
      | zero =>
        simp only [List.getElem?_cons_zero, Option.some.injEq] at hf hl
        subst hf
        subst hl
        refine ⟨h2, ?_⟩
        intro k hk
        rw [h3 k hk]
        simp
      | succ i =>
        simp only [List.getElem?_cons_succ] at hf hl
        obtain ⟨g1, g2⟩ := i3 i fr l hf hl
        refine ⟨g1, ?_⟩
        intro k hk
        rw [g2 k hk, h1]
        omega

set_option maxRecDepth 100000 in
/-- Witness of C13 (amended): the three units of the counterexample, from
counter 65535. -/
theorem opus_sequence_per_unit_witness :
    65535 < 65536 ∧
    ((rtp_send_opus_frames (fun _ => true) 65535
        [opus_frame_of [1, 2, 3] 0 0, opus_frame_of (List.replicate 1001 0) 0 1,
          opus_frame_of [4, 5, 6] 0 2]).2
      = (65535 + [opus_frame_of [1, 2, 3] 0 0, opus_frame_of (List.replicate 1001 0) 0 1,
          opus_frame_of [4, 5, 6] 0 2].length) % 65536 ∧
    (rtp_send_opus_frames (fun _ => true) 65535
        [opus_frame_of [1, 2, 3] 0 0, opus_frame_of (List.replicate 1001 0) 0 1,
          opus_frame_of [4, 5, 6] 0 2]).1.length
      = [opus_frame_of [1, 2, 3] 0 0, opus_frame_of (List.replicate 1001 0) 0 1,
          opus_frame_of [4, 5, 6] 0 2].length ∧
    ∀ (i : Nat) (frame : frame_t) (l : List (opus_packet × Bool)),
      [opus_frame_of [1, 2, 3] 0 0, opus_frame_of (List.replicate 1001 0) 0 1,
          opus_frame_of [4, 5, 6] 0 2][i]? = some frame →
      (rtp_send_opus_frames (fun _ => true) 65535
        [opus_frame_of [1, 2, 3] 0 0, opus_frame_of (List.replicate 1001 0) 0 1,
          opus_frame_of [4, 5, 6] 0 2]).1[i]? = some l →
      l.length = (if frame.length > 1000 then 0 else 1) ∧
      ∀ k ∈ l, be16toh k.1.rtp_hdr.seq = (65535 + i) % 65536) :=
  ⟨by decide, opus_sequence_per_unit (fun _ => true)
    [opus_frame_of [1, 2, 3] 0 0, opus_frame_of (List.replicate 1001 0) 0 1,
      opus_frame_of [4, 5, 6] 0 2] 65535 (by decide)⟩

/-! ## Wire layout -/

theorem htobe16_bytes (x : Nat) :
    htobe16 x % 256 = x % 65536 / 256 ∧ htobe16 x / 256 % 256 = x % 256 := by
  unfold htobe16
  have h1 : (x % 65536 % 256 * 256 + x % 65536 / 256) / 256 = x % 65536 % 256 := by omega
  rw [h1]
  omega

theorem htobe32_bytes (x : Nat) :
    htobe32 x % 256 = x / 16777216 % 256 ∧ htobe32 x / 256 % 256 = x / 65536 % 256 ∧
    htobe32 x / 65536 % 256 = x / 256 % 256 ∧ htobe32 x / 16777216 % 256 = x % 256 := by
  unfold htobe32
  obtain ⟨h1, h2, h3, h4⟩ := bytes4 (x % 256) (x / 256 % 256) (x / 65536 % 256)
    (x / 16777216 % 256) (by omega) (by omega) (by omega) (by omega)
  exact ⟨h1, h2, h3, h4⟩

theorem htobe24_bytes (x : Nat) :
    htobe24 x % 256 = x / 65536 % 256 ∧ htobe24 x / 256 % 256 = x / 256 % 256 ∧
    htobe24 x / 65536 % 256 = x % 256 := by
  rw [htobe24_eq]
  exact bytes3 (x % 256) (x / 256 % 256) (x / 65536 % 256) (by omega) (by omega) (by omega)

theorem marker_pt_byte (m pt : Nat) (hm : m ≤ 1) (hpt : pt < 128) :
    m <<< 7 ||| pt = pt % 128 + 128 * (m % 2) := by
  have hcases : m = 0 ∨ m = 1 := by omega
  rcases hcases with rfl | rfl
  · simp
    omega
  · have h := Nat.mul_add_lt_is_or (show pt < 2 ^ 7 by omega) 1
    simp only [Nat.shiftLeft_eq, Nat.one_mul]
    rw [Nat.mul_one] at h
    rw [← h]
    omega

/-- Memory image of an RTP header as the two senders fill it in: version 2 and
flags in the first byte, marker and payload type in the second, then sequence
number, timestamp and SSRC most significant byte first. -/
theorem rtp_hdr_bytes_net (m pt S T SS : Nat) (hm : m ≤ 1) (hpt : pt < 128) :
    ({ version := 2, p := 0, x := 0, cc := 0, m := m, pt := pt, seq := htobe16 S,
       ts := htobe32 T, ssrc := htobe32 SS } : rtp_hdr_t).bytes
      = [0x80, m <<< 7 ||| pt, S % 65536 / 256, S % 256,
         T / 16777216 % 256, T / 65536 % 256, T / 256 % 256, T % 256,
         SS / 16777216 % 256, SS / 65536 % 256, SS / 256 % 256, SS % 256] := by
  obtain ⟨a1, a2⟩ := htobe16_bytes S
  obtain ⟨b1, b2, b3, b4⟩ := htobe32_bytes T
  obtain ⟨c1, c2, c3, c4⟩ := htobe32_bytes SS
  simp only [rtp_hdr_t.bytes, a1, a2, b1, b2, b3, b4, c1, c2, c3, c4,
    marker_pt_byte m pt hm hpt]

theorem jpeg_packet_bytes_take (k : jpeg_packet) : k.bytes.take 12 = k.rtp_hdr.bytes := by
  unfold jpeg_packet.bytes
  rw [List.append_assoc, List.append_assoc]
  exact List.take_left' (rtp_hdr_bytes_length _)

theorem opus_packet_bytes_take (k : opus_packet) : k.bytes.take 12 = k.rtp_hdr.bytes := by
  unfold opus_packet.bytes
  exact List.take_left' (rtp_hdr_bytes_length _)

/-- C14: every datagram handed to `send` by `rtp_send_jpeg_data` and by
`rtp_send_opus_frame` starts with the 12 bytes of the RTP header in network
order: 0x80; `(marker << 7) | payload type` with payload type 26 for JPEG and
97, marker 1, for Opus; the sequence number, the timestamp and the SSRC most
significant byte first.  For the frames sent by `rtp_send_jpeg_frame` the SSRC
is 0xdeadbeef; for Opus it is 0xdeadbabe. -/
theorem rtp_header_layout :
    (∀ (sendOk : Nat → Bool) (start_seq ts ssrc : Nat) (jpeg_data : Nat → Nat)
        (len type typespec : Nat) (width height : Int) (q : Nat) (lqt cqt : Nat → Nat)
        (i : Nat) (k : jpeg_packet × Bool),
      (rtp_send_jpeg_data sendOk start_seq ts ssrc jpeg_data len type typespec width height q
        lqt cqt).1[i]? = some k →
      k.1.rtp_hdr.m ≤ 1 ∧
      k.1.bytes.take 12
        = [0x80, k.1.rtp_hdr.m <<< 7 ||| 26, (start_seq + i) % 65536 / 256, (start_seq + i) % 256,
           ts / 16777216 % 256, ts / 65536 % 256, ts / 256 % 256, ts % 256,
           ssrc / 16777216 % 256, ssrc / 65536 % 256, ssrc / 256 % 256, ssrc % 256]) ∧
    (∀ (sendOk : Nat → Bool) (sequence_number : Nat) (frame : frame_t)
        (k : jpeg_packet × Bool),
      k ∈ (rtp_send_jpeg_frame sendOk sequence_number frame).sent →
      (k.1.bytes.take 12).drop 8 = [0xde, 0xad, 0xbe, 0xef]) ∧
    (∀ (sendOk : Nat → Bool) (sequence_number : Nat) (frame : frame_t)
        (k : opus_packet × Bool),
      k ∈ (rtp_send_opus_frame sendOk sequence_number frame).sent →
      k.1.bytes.take 12
        = [0x80, 1 <<< 7 ||| 97, sequence_number % 65536 / 256, sequence_number % 256,
           uint32 (Int.tdiv (int64 (frame.timestamp * 48000)) 1000000) / 16777216 % 256,
           uint32 (Int.tdiv (int64 (frame.timestamp * 48000)) 1000000) / 65536 % 256,
           uint32 (Int.tdiv (int64 (frame.timestamp * 48000)) 1000000) / 256 % 256,
           uint32 (Int.tdiv (int64 (frame.timestamp * 48000)) 1000000) % 256,
           0xde, 0xad, 0xba, 0xbe]) := by
  refine ⟨?_, ?_, ?_⟩
  · intro sendOk start_seq ts ssrc jpeg_data len type typespec width height q lqt cqt i k hk
    obtain ⟨_, _, g3⟩ := (rtp_send_jpeg_data_packets sendOk start_seq ts ssrc jpeg_data len type
      typespec width height q lqt cqt).2 i k hk
    rw [jpeg_packet_bytes_take, g3]
    have hm : (if len ≤ fragment_offset q i + fragment_room q i then 1 else 0) ≤ 1 := by
      split_ifs <;> omega
    refine ⟨hm, ?_⟩
    exact rtp_hdr_bytes_net _ 26 (start_seq + i) ts ssrc hm (by decide)
  · intro sendOk sequence_number frame k hk
    unfold rtp_send_jpeg_frame at hk
    cases hp : parse_jpeg frame none none none 0 with
    | fail => rw [hp] at hk; simp at hk
    | ok lqt cqt scan len =>
      rw [hp] at hk
      simp only at hk
      obtain ⟨i, hi⟩ := List.mem_iff_getElem?.mp hk
      obtain ⟨_, _, g3⟩ := (rtp_send_jpeg_data_packets sendOk sequence_number
        (uint32 (Int.tdiv (int64 (frame.timestamp * 90000)) 1000000)) 0xdeadbeef
        (deref frame.buffer scan) len 0 0 frame.width frame.height
        (if lqt.isNone ∨ cqt.isNone then 0 else 128)
        (deref frame.buffer lqt) (deref frame.buffer cqt)).2 i k hi
      rw [jpeg_packet_bytes_take, g3]
      have hm : (if len ≤ fragment_offset (if lqt.isNone ∨ cqt.isNone then 0 else 128) i
          + fragment_room (if lqt.isNone ∨ cqt.isNone then 0 else 128) i then 1 else 0) ≤ 1 := by
        split_ifs <;> omega
      simp only [RTP_PT_JPEG]
      rw [rtp_hdr_bytes_net _ 26 _ _ 0xdeadbeef hm (by decide)]
      rfl
  · intro sendOk sequence_number frame k hk
    unfold rtp_send_opus_frame at hk
    by_cases hl : frame.length > 1000
    · simp [hl] at hk
    · simp only [hl, if_false, List.mem_singleton] at hk
      subst hk
      rw [opus_packet_bytes_take]
      rw [rtp_hdr_bytes_net 1 97 _ _ 0xdeadbabe (by decide) (by decide)]

/-- Witness of C14: the datagram of the sample JPEG frame and of a 3-byte Opus
unit, sequence counter at 258. -/
theorem rtp_header_layout_witness :
    ((rtp_send_jpeg_frame (fun _ => true) 258 (jpeg_frame_of sample_jpeg 50000000000 0)).sent.map
        (fun k => k.1.bytes.take 12)
      = [[0x80, 0x9a, 1, 2, 12, 56, 141, 0, 0xde, 0xad, 0xbe, 0xef]] ∧
     (rtp_send_opus_frame (fun _ => true) 258 (opus_frame_of [1, 2, 3] 50000000000 0)).sent.map
        (fun k => k.1.bytes)
      = [[0x80, 0xe1, 1, 2, 143, 13, 24, 0, 0xde, 0xad, 0xba, 0xbe, 1, 2, 3]]) ∧
    (∀ k ∈ (rtp_send_jpeg_frame (fun _ => true) 258
        (jpeg_frame_of sample_jpeg 50000000000 0)).sent,
      (k.1.bytes.take 12).drop 8 = [0xde, 0xad, 0xbe, 0xef]) ∧
    (∀ k ∈ (rtp_send_opus_frame (fun _ => true) 258
        (opus_frame_of [1, 2, 3] 50000000000 0)).sent,
      k.1.bytes.take 12
        = [0x80, 1 <<< 7 ||| 97, 258 % 65536 / 256, 258 % 256,
           uint32 (Int.tdiv (int64 ((opus_frame_of [1, 2, 3] 50000000000 0).timestamp * 48000))
             1000000) / 16777216 % 256,
           uint32 (Int.tdiv (int64 ((opus_frame_of [1, 2, 3] 50000000000 0).timestamp * 48000))
             1000000) / 65536 % 256,
           uint32 (Int.tdiv (int64 ((opus_frame_of [1, 2, 3] 50000000000 0).timestamp * 48000))
             1000000) / 256 % 256,
           uint32 (Int.tdiv (int64 ((opus_frame_of [1, 2, 3] 50000000000 0).timestamp * 48000))
             1000000) % 256,
           0xde, 0xad, 0xba, 0xbe]) :=
  ⟨by decide,
    fun k hk => rtp_header_layout.2.1 (fun _ => true) 258
      (jpeg_frame_of sample_jpeg 50000000000 0) k hk,
    fun k hk => rtp_header_layout.2.2 (fun _ => true) 258
      (opus_frame_of [1, 2, 3] 50000000000 0) k hk⟩

theorem jpeg_hdr_bytes_length (h : jpeg_hdr_t) : h.bytes.length = 8 := rfl

theorem uint8_lt (x : Int) : uint8 x < 256 := by
  unfold uint8
  have h1 : 0 ≤ x % 256 := Int.emod_nonneg _ (by decide)
  have h2 : x % 256 < 256 := Int.emod_lt_of_pos _ (by decide)
  omega

/-- C15: in every datagram of a frame sent by `rtp_send_jpeg_frame`, the 8
bytes after the RTP header are: type-specific 0, the fragment offset on 24 bits
most significant byte first, type 0, Q, the width field and the height field;
Q is 128 when `parse_jpeg` found both tables and 0 otherwise; and what follows
these 8 bytes is, in the first fragment when Q = 128, the table header
0, 0, 0, 128 with the 64 bytes at the luminance pointer and the 64 bytes at the
chrominance pointer, then the scan bytes; in every other case the scan bytes
alone. -/
theorem jpeg_header_layout (sendOk : Nat → Bool) (sequence_number : Nat) (frame : frame_t)
    (lqt cqt scan : Option Nat) (len : Nat)
    (hp : parse_jpeg frame none none none 0 = parse_result.ok lqt cqt scan len)
    (i : Nat) (k : jpeg_packet × Bool)
    (hk : (rtp_send_jpeg_frame sendOk sequence_number frame).sent[i]? = some k) :
    k.1.jpg_hdr.q = (if lqt.isSome ∧ cqt.isSome then 128 else 0) ∧
    (k.1.bytes.drop 12).take 8
      = [0, be24toh k.1.jpg_hdr.off / 65536 % 256, be24toh k.1.jpg_hdr.off / 256 % 256,
         be24toh k.1.jpg_hdr.off % 256, 0, k.1.jpg_hdr.q,
         uint8 (Int.tdiv frame.width 8), uint8 (Int.tdiv frame.height 8)] ∧
    be24toh k.1.jpg_hdr.off = fragment_offset k.1.jpg_hdr.q i % 16777216 ∧
    k.1.bytes.drop 20
      = (if k.1.jpg_hdr.q = 128 ∧ i = 0 then
          [0, 0, 0, 128] ++ memcpy_src (deref frame.buffer lqt) 64
            ++ memcpy_src (deref frame.buffer cqt) 64
         else []) ++ k.1.data := by
  unfold rtp_send_jpeg_frame at hk
  rw [hp] at hk
  simp only at hk
  have hQ : (if lqt.isNone ∨ cqt.isNone then 0 else 128)
      = (if lqt.isSome ∧ cqt.isSome then 128 else 0) := by
    cases lqt <;> cases cqt <;> simp
  rw [hQ] at hk
  generalize hQv : (if lqt.isSome ∧ cqt.isSome then 128 else 0) = Q at hk
  have hQ2 : Q = 128 ∨ Q = 0 := by
    rw [← hQv]; split_ifs <;> simp
  obtain ⟨_, _, g3⟩ := (rtp_send_jpeg_data_packets sendOk sequence_number
    (uint32 (Int.tdiv (int64 (frame.timestamp * 90000)) 1000000)) 0xdeadbeef
    (deref frame.buffer scan) len 0 0 frame.width frame.height Q
    (deref frame.buffer lqt) (deref frame.buffer cqt)).2 i k hk
  rw [g3]
  obtain ⟨o1, o2, o3⟩ := htobe24_bytes (fragment_offset Q i)
  have hmod := be24toh_htobe24_mod (fragment_offset Q i)
  have hw := uint8_lt (Int.tdiv frame.width 8)
  have hh := uint8_lt (Int.tdiv frame.height 8)
  have hq256 : Q % 256 = Q := by rcases hQ2 with h | h <;> rw [h]
  refine ⟨rfl, ?_, hmod, ?_⟩
  · have hbytes : ∀ (a : rtp_hdr_t) (b : jpeg_hdr_t) (c d : List Nat),
        ((a.bytes ++ b.bytes ++ c ++ d).drop 12).take 8 = b.bytes := by
      intro a b c d
      rw [List.append_assoc, List.append_assoc, List.drop_left' (rtp_hdr_bytes_length a),
        List.take_left' (jpeg_hdr_bytes_length b)]
    simp only [jpeg_packet.bytes]
    rw [hbytes]
    simp only [jpeg_hdr_t.bytes, o1, o2, o3, hmod, hq256, Nat.mod_eq_of_lt hw,
      Nat.mod_eq_of_lt hh, Nat.zero_mod]
    have e1 : fragment_offset Q i % 16777216 / 65536 % 256 = fragment_offset Q i / 65536 % 256 := by
      omega
    have e2 : fragment_offset Q i % 16777216 / 256 % 256 = fragment_offset Q i / 256 % 256 := by
      omega
    have e3 : fragment_offset Q i % 16777216 % 256 = fragment_offset Q i % 256 := by omega
    rw [e1, e2, e3]
  · have hbytes : ∀ (a : rtp_hdr_t) (b : jpeg_hdr_t) (c d : List Nat),
        (a.bytes ++ b.bytes ++ c ++ d).drop 20 = c ++ d := by
      intro a b c d
      have hl : (a.bytes ++ b.bytes).length = 20 := by
        rw [List.length_append, rtp_hdr_bytes_length, jpeg_hdr_bytes_length]
      rw [List.append_assoc (a.bytes ++ b.bytes), List.drop_left' hl]
    simp only [jpeg_packet.bytes]
    rw [hbytes]
    obtain ⟨a1, a2⟩ := htobe16_bytes 128
    rcases hQ2 with h | h
    · subst h
      by_cases hi : i = 0
      · subst hi
        simp [jpeg_hdr_qtable_t.bytes, a1, a2]
      · simp [hi]
    · subst h
      simp

set_option maxRecDepth 100000 in
/-- Witness of C15: the frame with both tables; its single datagram carries
Q = 128 and the tables. -/
theorem jpeg_header_layout_witness :
    parse_jpeg (jpeg_frame_of sample_jpeg_tables 0 0) none none none 0
      = parse_result.ok (some 7) (some 76) (some 144) 3 ∧
    (rtp_send_jpeg_frame (fun _ => true) 0 (jpeg_frame_of sample_jpeg_tables 0 0)).sent.length
      = 1 ∧
    ∀ k : jpeg_packet × Bool,
      (rtp_send_jpeg_frame (fun _ => true) 0 (jpeg_frame_of sample_jpeg_tables 0 0)).sent[0]?
        = some k →
      k.1.jpg_hdr.q = (if (some 7 : Option Nat).isSome ∧ (some 76 : Option Nat).isSome then 128
        else 0) ∧
      (k.1.bytes.drop 12).take 8
        = [0, be24toh k.1.jpg_hdr.off / 65536 % 256, be24toh k.1.jpg_hdr.off / 256 % 256,
           be24toh k.1.jpg_hdr.off % 256, 0, k.1.jpg_hdr.q,
           uint8 (Int.tdiv (jpeg_frame_of sample_jpeg_tables 0 0).width 8),
           uint8 (Int.tdiv (jpeg_frame_of sample_jpeg_tables 0 0).height 8)] ∧
      be24toh k.1.jpg_hdr.off = fragment_offset k.1.jpg_hdr.q 0 % 16777216 ∧
      k.1.bytes.drop 20
        = (if k.1.jpg_hdr.q = 128 ∧ 0 = 0 then
            [0, 0, 0, 128]
              ++ memcpy_src (deref (jpeg_frame_of sample_jpeg_tables 0 0).buffer (some 7)) 64
              ++ memcpy_src (deref (jpeg_frame_of sample_jpeg_tables 0 0).buffer (some 76)) 64
           else []) ++ k.1.data :=
  ⟨by decide, by decide,
    fun k hk => jpeg_header_layout (fun _ => true) 0 (jpeg_frame_of sample_jpeg_tables 0 0)
      (some 7) (some 76) (some 144) 3 (by decide) 0 k hk⟩

theorem memcpy_src_length (p : Nat → Nat) (n : Nat) : (memcpy_src p n).length = n := by
  simp [memcpy_src]

/-- C16: every datagram built by `rtp_send_jpeg_data`, with or without embedded
tables, is made of the 12 bytes of the RTP header, the 8 bytes of the JPEG
header, the 4 + 64 + 64 bytes of the table header and tables in the first
fragment when `q ≥ 128`, and the scan bytes; it has at most `PACKET_SIZE` = 1300
bytes, and exactly 1300 when it is not the last of its frame (marker 0).
Every datagram built by `rtp_send_opus_frame` has at most 1012 bytes. -/
theorem datagram_length :
    PACKET_SIZE = 1300 ∧
    (∀ (sendOk : Nat → Bool) (start_seq ts ssrc : Nat) (jpeg_data : Nat → Nat)
        (len type typespec : Nat) (width height : Int) (q : Nat) (lqt cqt : Nat → Nat)
        (i : Nat) (k : jpeg_packet × Bool),
      (rtp_send_jpeg_data sendOk start_seq ts ssrc jpeg_data len type typespec width height q
        lqt cqt).1[i]? = some k →
      k.1.bytes.length
        = 12 + 8 + (if q ≥ 128 ∧ i = 0 then 4 + 64 + 64 else 0) + k.1.data.length ∧
      k.1.bytes.length ≤ PACKET_SIZE ∧
      (k.1.rtp_hdr.m = 0 → k.1.bytes.length = PACKET_SIZE)) ∧
    (∀ (sendOk : Nat → Bool) (sequence_number : Nat) (frame : frame_t)
        (k : opus_packet × Bool),
      k ∈ (rtp_send_opus_frame sendOk sequence_number frame).sent →
      k.1.bytes.length = 12 + frame.length ∧ k.1.bytes.length ≤ 1012 ∧
      k.1.bytes.length ≤ PACKET_SIZE) := by
  refine ⟨rfl, ?_, ?_⟩
  · intro sendOk start_seq ts ssrc jpeg_data len type typespec width height q lqt cqt i k hk
    obtain ⟨g1, _, g3⟩ := (rtp_send_jpeg_data_packets sendOk start_seq ts ssrc jpeg_data len type
      typespec width height q lqt cqt).2 i k hk
    have hd : k.1.data.length = min (fragment_room q i) (len - fragment_offset q i) := by
      rw [g3]
      exact memcpy_src_length _ _
    have hm : k.1.rtp_hdr.m
        = if len ≤ fragment_offset q i + fragment_room q i then 1 else 0 := by
      rw [g3]
    have hq : k.1.qtbl
        = if q ≥ 128 ∧ i = 0 then
            some ({ mbz := 0, precision := 0, length := htobe16 128 },
              memcpy_src lqt 64, memcpy_src cqt 64)
          else none := by
      rw [g3]
    have hroom : fragment_room q i = if q ≥ 128 ∧ i = 0 then 1148 else 1280 := by
      unfold fragment_room
      split_ifs <;> rfl
    have hlen : k.1.bytes.length
        = 12 + 8 + (if q ≥ 128 ∧ i = 0 then 4 + 64 + 64 else 0) + k.1.data.length := by
      simp only [jpeg_packet.bytes, List.length_append, rtp_hdr_bytes_length,
        jpeg_hdr_bytes_length, hq]
      by_cases ht : q ≥ 128 ∧ i = 0
      · simp only [ht, and_self, if_true, List.length_append, memcpy_src_length]
        have h4 : ({ mbz := 0, precision := 0, length := htobe16 128 } :
            jpeg_hdr_qtable_t).bytes.length = 4 := rfl
        rw [h4]
      · simp only [ht, if_false, List.length_nil]
    have hP : PACKET_SIZE = 1300 := rfl
    rw [hlen, hd, hroom, hm, hroom, hP]
    generalize fragment_offset q i = O at g1
    refine ⟨rfl, ?_, ?_⟩
    · split_ifs <;> omega
    · intro h
      split_ifs at h ⊢ <;> omega
  · intro sendOk sequence_number frame k hk
    unfold rtp_send_opus_frame at hk
    by_cases hl : frame.length > 1000
    · simp [hl] at hk
    · simp only [hl, if_false, List.mem_singleton] at hk
      subst hk
      have hP : PACKET_SIZE = 1300 := rfl
      simp only [opus_packet.bytes, List.length_append, rtp_hdr_bytes_length,
        memcpy_src_length, hP]
      exact ⟨trivial, by omega, by omega⟩

end Rtp

namespace Rtp

set_option maxRecDepth 100000 in
/-- Witness of C16: a scan of 3000 bytes with embedded tables is sent as
datagrams of 1300, 1300 and 592 bytes; an Opus unit of 3 bytes as 15 bytes. -/
theorem datagram_length_witness :
    (rtp_send_jpeg_data (fun _ => true) 0 0 0xdeadbeef (fun _ => 0) 3000 0 0 640 480 128
        (fun _ => 0) (fun _ => 0)).1.map (fun k => (k.1.bytes.length, k.1.rtp_hdr.m))
      = [(1300, 0), (1300, 0), (592, 1)] ∧
    (∀ (i : Nat) (k : jpeg_packet × Bool),
      (rtp_send_jpeg_data (fun _ => true) 0 0 0xdeadbeef (fun _ => 0) 3000 0 0 640 480 128
        (fun _ => 0) (fun _ => 0)).1[i]? = some k →
      k.1.bytes.length
        = 12 + 8 + (if 128 ≥ 128 ∧ i = 0 then 4 + 64 + 64 else 0) + k.1.data.length ∧
      k.1.bytes.length ≤ PACKET_SIZE ∧
      (k.1.rtp_hdr.m = 0 → k.1.bytes.length = PACKET_SIZE)) ∧
    (∀ k ∈ (rtp_send_opus_frame (fun _ => true) 0 (opus_frame_of [1, 2, 3] 0 0)).sent,
      k.1.bytes.length = 12 + (opus_frame_of [1, 2, 3] 0 0).length ∧ k.1.bytes.length ≤ 1012 ∧
      k.1.bytes.length ≤ PACKET_SIZE) :=
  ⟨by decide,
    fun i k hk => datagram_length.2.1 (fun _ => true) 0 0 0xdeadbeef (fun _ => 0) 3000 0 0
      640 480 128 (fun _ => 0) (fun _ => 0) i k hk,
    fun k hk => datagram_length.2.2 (fun _ => true) 0 (opus_frame_of [1, 2, 3] 0 0) k hk⟩

end Rtp

namespace Rtp

/-! ## parse_jpeg on well-formed frames -/

/-- One iteration of the loop of `parse_jpeg` at the start of a well-formed
segment, with the table pointers it leaves. -/
theorem parse_jpeg_loop_segment_tables (buf : Nat → Nat) (p : Nat) (g : segment) (hg : g.wf)
    (hbuf : ∀ i, i < g.bytes.length → buf (p + i) = g.bytes.getD i 0)
    (N : Nat) (hN : p < N) (fuel : Nat) (lqt cqt scan : Option Nat) (len : Nat) :
    parse_jpeg_loop buf N (fuel + 1) p lqt cqt scan len
      = parse_jpeg_loop buf N fuel (p + g.bytes.length) (g.lqt_after p lqt) (g.cqt_after p cqt)
        scan len := by
  cases g with
  | soi =>
    have b0 := hbuf 0 (by simp [segment.bytes])
    have b1 := hbuf 1 (by simp [segment.bytes])
    simp only [segment.bytes, List.getD_cons_zero, List.getD_cons_succ, Nat.add_zero] at b0 b1
    simp [parse_jpeg_loop, hN, segment.bytes, b0, b1, segment.lqt_after, segment.cqt_after]
  | dqt body =>
    have b0 := hbuf 0 (by simp [segment.bytes])
    have b1 := hbuf 1 (by simp [segment.bytes])
    have hl : (segment.dqt body).bytes.length = 69 := by
      simp only [segment.wf] at hg
      simp [segment.bytes, hg]
    have b4 := hbuf 4 (by rw [hl]; omega)
    simp only [segment.bytes, List.getD_cons_zero, List.getD_cons_succ, Nat.add_zero]
      at b0 b1 b4
    rw [hl]
    simp only [parse_jpeg_loop, hN, if_true, b0, b1, b4, segment.lqt_after, segment.cqt_after]
    simp
    split_ifs <;> rfl
  | skip marker hi lo body =>
    have b0 := hbuf 0 (by simp [segment.bytes])
    have b1 := hbuf 1 (by simp [segment.bytes])
    have b2 := hbuf 2 (by simp [segment.bytes])
    have b3 := hbuf 3 (by simp [segment.bytes])
    simp only [segment.bytes, List.getD_cons_zero, List.getD_cons_succ, Nat.add_zero]
      at b0 b1 b2 b3
    obtain ⟨hm, hlen⟩ := hg
    have hl : (segment.skip marker hi lo body).bytes.length = 2 + (hi <<< 8 ||| lo) := by
      rw [hlen]; simp [segment.bytes]; omega
    rw [hl]
    have hd8 : marker ≠ 0xd8 := by omega
    have hdb : marker ≠ 0xdb := by omega
    have hda : marker ≠ 0xda := by omega
    simp only [parse_jpeg_loop, hN, if_true, b0, b1, b2, b3, ne_eq,
      not_true_eq_false, if_false, hd8, hdb, hda, hm, segment.lqt_after, segment.cqt_after]
    rw [Nat.add_assoc]

/-- The loop of `parse_jpeg` steps over any sequence of well-formed segments
that fits in the buffer, leaving the table pointers `segments_tables`. -/
theorem parse_jpeg_loop_segments_tables (buf : Nat → Nat) (N : Nat) :
    ∀ (segs : List segment) (p fuel : Nat) (lqt cqt scan : Option Nat) (len : Nat),
      (∀ g ∈ segs, g.wf) →
      (∀ i, i < (segments_bytes segs).length → buf (p + i) = (segments_bytes segs).getD i 0) →
      p + (segments_bytes segs).length ≤ N →
      parse_jpeg_loop buf N (fuel + segs.length) p lqt cqt scan len
        = parse_jpeg_loop buf N fuel (p + (segments_bytes segs).length)
          (segments_tables p segs (lqt, cqt)).1 (segments_tables p segs (lqt, cqt)).2
          scan len := by
  intro segs
  induction segs with
  | nil =>
    intro p fuel lqt cqt scan len _ _ _
    rfl
  | cons g rest ih =>
    intro p fuel lqt cqt scan len hwf hbuf hN
    simp only [segments_bytes, List.length_append] at hbuf hN
    have hg : g.wf := hwf g (List.mem_cons_self _ _)
    have hg2 := segment_bytes_length g
    have hbuf1 : ∀ i, i < g.bytes.length → buf (p + i) = g.bytes.getD i 0 := by
      intro i hi
      rw [hbuf i (by omega), List.getD_append _ _ _ _ hi]
    have h1 := parse_jpeg_loop_segment_tables buf p g hg hbuf1 N (by omega)
      (fuel + rest.length) lqt cqt scan len
    have hbuf2 : ∀ i, i < (segments_bytes rest).length →
        buf (p + g.bytes.length + i) = (segments_bytes rest).getD i 0 := by
      intro i hi
      rw [Nat.add_assoc, hbuf (g.bytes.length + i) (by omega),
        List.getD_append_right _ _ _ _ (by omega)]
      congr 1
      omega
    have h2 := ih (p + g.bytes.length) fuel (g.lqt_after p lqt) (g.cqt_after p cqt) scan len
      (fun x hx => hwf x (List.mem_cons_of_mem _ hx)) hbuf2 (by omega)
    simp only [List.length_cons, segments_bytes, List.length_append, segments_tables]
    rw [← Nat.add_assoc fuel, h1, h2, Nat.add_assoc]

theorem segments_tables_skips : ∀ (segs : List segment) (p : Nat) (t : Option Nat × Option Nat),
    (∀ g ∈ segs, ∃ m hi lo body, g = segment.skip m hi lo body) →
    segments_tables p segs t = t := by
  intro segs
  induction segs with
  | nil => intro p t _; rfl
  | cons g rest ih =>
    intro p t h
    obtain ⟨m, hi, lo, body, hg⟩ := h g (List.mem_cons_self _ _)
    subst hg
    simp only [segments_tables, segment.lqt_after, segment.cqt_after]
    exact ih _ _ (fun x hx => h x (List.mem_cons_of_mem _ hx))

theorem segments_tables_append : ∀ (a b : List segment) (p : Nat) (t : Option Nat × Option Nat),
    segments_tables p (a ++ b) t
      = segments_tables (p + (segments_bytes a).length) b (segments_tables p a t) := by
  intro a
  induction a with
  | nil => intro b p t; simp [segments_tables, segments_bytes]
  | cons g rest ih =>
    intro b p t
    rw [List.cons_append]
    have h := ih b (p + g.bytes.length) (g.lqt_after p t.1, g.cqt_after p t.2)
    simp only [segments_tables, segments_bytes, List.length_append]
    rw [h, Nat.add_assoc]

theorem segments_bytes_append : ∀ (a b : List segment),
    segments_bytes (a ++ b) = segments_bytes a ++ segments_bytes b := by
  intro a
  induction a with
  | nil => intro b; rfl
  | cons g rest ih =>
    intro b
    rw [List.cons_append]
    simp only [segments_bytes]
    rw [ih b, List.append_assoc]

/-- On a buffer that starts with well-formed segments, `parse_jpeg` is the loop
resumed at the first byte after them with the table pointers they set. -/
theorem parse_jpeg_after_segments_tables (frame : frame_t) (segs : List segment)
    (tail : List Nat) (hwf : ∀ g ∈ segs, g.wf)
    (hbuf : frame.buffer = bytes_at (segments_bytes segs ++ tail))
    (hlen : frame.length = (segments_bytes segs ++ tail).length)
    (lqt cqt scan : Option Nat) (len : Nat) :
    ∃ fuel : Nat,
      parse_jpeg frame lqt cqt scan len
        = parse_jpeg_loop frame.buffer frame.length fuel (segments_bytes segs).length
          (segments_tables 0 segs (lqt, cqt)).1 (segments_tables 0 segs (lqt, cqt)).2
          scan len ∧
      tail.length ≤ fuel ∧
      ∀ j, frame.buffer ((segments_bytes segs).length + j) = tail.getD j 0 := by
  have h2 := segments_bytes_length segs
  rw [List.length_append] at hlen
  have hb : ∀ i, i < (segments_bytes segs).length →
      frame.buffer (0 + i) = (segments_bytes segs).getD i 0 := by
    intro i hi
    rw [hbuf, Nat.zero_add]
    unfold bytes_at
    rw [List.getD_append _ _ _ _ hi]
  have h1 := parse_jpeg_loop_segments_tables frame.buffer frame.length segs 0
    (frame.length - segs.length) lqt cqt scan len hwf hb (by omega)
  refine ⟨frame.length - segs.length, ?_, by omega, ?_⟩
  · unfold parse_jpeg
    have hf : frame.length = frame.length - segs.length + segs.length := by omega
    rw [Nat.zero_add] at h1
    rw [← h1, ← hf]
  · intro j
    rw [hbuf, bytes_at_append_right]
    rfl

end Rtp
namespace Rtp

/-- Copying `b.length` bytes from offset `a.length` of a buffer that holds
`a ++ b ++ c` yields `b`. -/
theorem memcpy_src_bytes_at (a b c : List Nat) :
    memcpy_src (fun i => bytes_at (a ++ b ++ c) (a.length + i)) b.length = b := by
  apply List.ext_getElem
  · simp [memcpy_src]
  · intro n h1 h2
    simp only [memcpy_src, List.getElem_map, List.getElem_range, bytes_at]
    rw [List.append_assoc, List.getD_append_right _ _ _ _ (by omega),
      Nat.add_sub_cancel_left, List.getD_append _ _ _ _ h2, List.getD_eq_getElem _ _ h2]

/-- C11: on every frame of the shape SOI, DQT (table id 0, table `T0`), DQT
(table id 1, table `T1`), any number of well-formed SOF0/DHT/APP0 segments, SOS
with a correct length field, scan bytes `S`, EOI (of less than 2^32 bytes in
all), `parse_jpeg` succeeds; the luminance pointer addresses `T0`, the
chrominance pointer addresses `T1`, the scan pointer is the offset right after
the SOS header, `len = |S|`, the `len` bytes at the scan pointer are exactly
`S`, and only the two bytes of EOI follow them. -/
theorem parse_jpeg_well_formed (frame : frame_t) (h0 l0 h1 l1 : Nat) (T0 T1 : List Nat)
    (skips : List segment) (hi lo : Nat) (hdr S : List Nat)
    (hT0 : T0.length = 64) (hT1 : T1.length = 64)
    (hskips : ∀ g ∈ skips, g.wf ∧ ∃ m a b body, g = segment.skip m a b body)
    (hsos : (hi <<< 8 ||| lo) = 2 + hdr.length)
    (hbuf : frame.buffer = bytes_at (well_formed_jpeg h0 l0 h1 l1 T0 T1 skips hi lo hdr S))
    (hlen : frame.length = (well_formed_jpeg h0 l0 h1 l1 T0 T1 skips hi lo hdr S).length)
    (h32 : frame.length < 2 ^ 32) :
    parse_jpeg frame none none none 0
      = parse_result.ok (some 7) (some 76)
          (some (144 + (segments_bytes skips).length + hdr.length)) S.length ∧
    memcpy_src (deref frame.buffer (some 7)) 64 = T0 ∧
    memcpy_src (deref frame.buffer (some 76)) 64 = T1 ∧
    memcpy_src (deref frame.buffer (some (144 + (segments_bytes skips).length + hdr.length)))
      S.length = S ∧
    144 + (segments_bytes skips).length + hdr.length + S.length + 2 = frame.length := by
  have hsegs : (segments_bytes ([segment.soi, segment.dqt (h0 :: l0 :: 0 :: T0),
      segment.dqt (h1 :: l1 :: 1 :: T1)] ++ skips)).length
        = 140 + (segments_bytes skips).length := by
    rw [segments_bytes_append]
    simp [segments_bytes, segment.bytes, hT0, hT1]
    omega
  have hN : frame.length = 146 + (segments_bytes skips).length + hdr.length + S.length := by
    rw [hlen]
    unfold well_formed_jpeg
    rw [List.length_append, hsegs]
    simp
    omega
  have hwf : ∀ g ∈ [segment.soi, segment.dqt (h0 :: l0 :: 0 :: T0),
      segment.dqt (h1 :: l1 :: 1 :: T1)] ++ skips, g.wf := by
    intro g hg
    rcases List.mem_append.1 hg with h | h
    · simp only [List.mem_cons, List.mem_singleton, List.not_mem_nil, or_false] at h
      rcases h with h | h | h <;> subst h <;> simp [segment.wf, hT0, hT1]
    · exact (hskips g h).1
  have htab : segments_tables 0 ([segment.soi, segment.dqt (h0 :: l0 :: 0 :: T0),
      segment.dqt (h1 :: l1 :: 1 :: T1)] ++ skips) (none, none) = (some 7, some 76) := by
    rw [segments_tables_append, segments_tables_skips _ _ _ (fun g hg => (hskips g hg).2)]
    simp [segments_tables, segment.lqt_after, segment.cqt_after, segment.bytes, hT0]
  refine ⟨?_, ?_, ?_, ?_, by omega⟩
  · obtain ⟨fuel, hp, hf, hb⟩ := parse_jpeg_after_segments_tables frame _ _ hwf hbuf hlen
      none none none 0
    rw [hp, htab, hsegs]
    rw [hsegs] at hb
    have hb0 := hb 0
    have hb1 := hb 1
    have hb2 := hb 2
    have hb3 := hb 3
    simp only [Nat.add_zero, List.getD_cons_zero, List.getD_cons_succ] at hb0 hb1 hb2 hb3
    obtain ⟨f, rfl⟩ : ∃ f, fuel = f + 1 := ⟨fuel - 1, by simp at hf; omega⟩
    have hlt : 140 + (segments_bytes skips).length < frame.length := by omega
    simp only [parse_jpeg_loop, hlt, if_true, hb0, hb1, hb2, hb3, ne_eq, not_true_eq_false,
      if_false, hsos]
    simp only [show (219 : Nat) = 216 ↔ False by decide, show (218 : Nat) = 216 ↔ False by decide,
      show (218 : Nat) = 219 ↔ False by decide, if_false, if_true]
    have e1 : 140 + (segments_bytes skips).length + 2 + (2 + hdr.length)
        = 144 + (segments_bytes skips).length + hdr.length := by omega
    rw [e1]
    congr 1
    unfold uint32
    rw [hN]
    have e2 : (((146 + (segments_bytes skips).length + hdr.length + S.length : Nat) : Int)
        - ((144 + (segments_bytes skips).length + hdr.length : Nat) : Int) - 2)
        = (S.length : Int) := by push_cast; ring
    rw [e2]
    have : S.length < 2 ^ 32 := by omega
    omega
  · have hL : well_formed_jpeg h0 l0 h1 l1 T0 T1 skips hi lo hdr S
        = [0xff, 0xd8, 0xff, 0xdb, h0, l0, 0] ++ T0
          ++ (0xff :: 0xdb :: h1 :: l1 :: 1 :: T1 ++ segments_bytes skips
            ++ (0xff :: 0xda :: hi :: lo :: (hdr ++ S ++ [0xff, 0xd9]))) := by
      unfold well_formed_jpeg
      rw [segments_bytes_append]
      simp [segments_bytes, segment.bytes]
    have key := memcpy_src_bytes_at [0xff, 0xd8, 0xff, 0xdb, h0, l0, 0] T0
      (0xff :: 0xdb :: h1 :: l1 :: 1 :: T1 ++ segments_bytes skips
            ++ (0xff :: 0xda :: hi :: lo :: (hdr ++ S ++ [0xff, 0xd9])))
    rw [hT0] at key
    rw [hbuf, hL]
    exact key
  · have hL : well_formed_jpeg h0 l0 h1 l1 T0 T1 skips hi lo hdr S
        = ([0xff, 0xd8, 0xff, 0xdb, h0, l0, 0] ++ T0 ++ [0xff, 0xdb, h1, l1, 1]) ++ T1
          ++ (segments_bytes skips
            ++ (0xff :: 0xda :: hi :: lo :: (hdr ++ S ++ [0xff, 0xd9]))) := by
      unfold well_formed_jpeg
      rw [segments_bytes_append]
      simp [segments_bytes, segment.bytes]
    have key := memcpy_src_bytes_at
      ([0xff, 0xd8, 0xff, 0xdb, h0, l0, 0] ++ T0 ++ [0xff, 0xdb, h1, l1, 1]) T1
      (segments_bytes skips ++ (0xff :: 0xda :: hi :: lo :: (hdr ++ S ++ [0xff, 0xd9])))
    have hl : ([0xff, 0xd8, 0xff, 0xdb, h0, l0, 0] ++ T0 ++ [0xff, 0xdb, h1, l1, 1]).length
        = 76 := by simp [hT0]
    rw [hT1, hl] at key
    rw [hbuf, hL]
    exact key
  · have hL : well_formed_jpeg h0 l0 h1 l1 T0 T1 skips hi lo hdr S
        = (segments_bytes ([segment.soi, segment.dqt (h0 :: l0 :: 0 :: T0),
            segment.dqt (h1 :: l1 :: 1 :: T1)] ++ skips) ++ (0xff :: 0xda :: hi :: lo :: hdr))
          ++ S ++ [0xff, 0xd9] := by
      unfold well_formed_jpeg
      simp
    have key := memcpy_src_bytes_at
      (segments_bytes ([segment.soi, segment.dqt (h0 :: l0 :: 0 :: T0),
            segment.dqt (h1 :: l1 :: 1 :: T1)] ++ skips) ++ (0xff :: 0xda :: hi :: lo :: hdr))
      S [0xff, 0xd9]
    have hl : (segments_bytes ([segment.soi, segment.dqt (h0 :: l0 :: 0 :: T0),
            segment.dqt (h1 :: l1 :: 1 :: T1)] ++ skips)
            ++ (0xff :: 0xda :: hi :: lo :: hdr)).length
        = 144 + (segments_bytes skips).length + hdr.length := by
      rw [List.length_append, hsegs]
      simp
      omega
    rw [hl] at key
    rw [hbuf, hL]
    exact key

end Rtp
namespace Rtp

set_option maxRecDepth 100000 in
/-- The theorem `parse_jpeg_well_formed` at a 158-byte frame with one APP0
segment, a one-byte SOS header and the scan bytes 7, 8, 9. -/
theorem parse_jpeg_well_formed_witness :
    parse_jpeg (jpeg_frame_of (well_formed_jpeg 0 67 0 67 (List.replicate 64 1)
        (List.replicate 64 2) [segment.skip 0xe0 0 4 [1, 2]] 0 3 [5] [7, 8, 9]) 0 0)
        none none none 0
      = parse_result.ok (some 7) (some 76) (some 151) 3 ∧
    memcpy_src (deref (jpeg_frame_of (well_formed_jpeg 0 67 0 67 (List.replicate 64 1)
        (List.replicate 64 2) [segment.skip 0xe0 0 4 [1, 2]] 0 3 [5] [7, 8, 9]) 0 0).buffer
        (some 7)) 64 = List.replicate 64 1 ∧
    memcpy_src (deref (jpeg_frame_of (well_formed_jpeg 0 67 0 67 (List.replicate 64 1)
        (List.replicate 64 2) [segment.skip 0xe0 0 4 [1, 2]] 0 3 [5] [7, 8, 9]) 0 0).buffer
        (some 76)) 64 = List.replicate 64 2 ∧
    memcpy_src (deref (jpeg_frame_of (well_formed_jpeg 0 67 0 67 (List.replicate 64 1)
        (List.replicate 64 2) [segment.skip 0xe0 0 4 [1, 2]] 0 3 [5] [7, 8, 9]) 0 0).buffer
        (some 151)) 3 = [7, 8, 9] ∧
    151 + 3 + 2 = (jpeg_frame_of (well_formed_jpeg 0 67 0 67 (List.replicate 64 1)
        (List.replicate 64 2) [segment.skip 0xe0 0 4 [1, 2]] 0 3 [5] [7, 8, 9]) 0 0).length :=
  parse_jpeg_well_formed
    (jpeg_frame_of (well_formed_jpeg 0 67 0 67 (List.replicate 64 1)
        (List.replicate 64 2) [segment.skip 0xe0 0 4 [1, 2]] 0 3 [5] [7, 8, 9]) 0 0)
    0 67 0 67 (List.replicate 64 1) (List.replicate 64 2) [segment.skip 0xe0 0 4 [1, 2]]
    0 3 [5] [7, 8, 9] (by decide) (by decide)
    (by
      intro g hg
      rw [List.mem_singleton] at hg
      subst hg
      exact ⟨⟨Or.inr (Or.inr rfl), by decide⟩, _, _, _, _, rfl⟩)
    (by decide) rfl rfl (by decide)

end Rtp

namespace AudioEncoder

/-! ## Intake queue of the audio encoder -/

/-- Calls of `audio_encoder_encode` from a queue that holds `queue.length ≤ 5`
frames: a call succeeds while fewer than 5 frames are queued. -/
theorem audio_encoder_encode_all_spec : ∀ (frames queue : List frame_t),
    queue.length ≤ frames_queue_size →
    (audio_encoder_encode_all queue frames).1
        = queue ++ frames.take (frames_queue_size - queue.length) ∧
    (audio_encoder_encode_all queue frames).2
        = (List.range frames.length).map
            (fun i => if queue.length + i < frames_queue_size then (0 : Int) else 1) := by
  intro frames
  induction frames with
  | nil => intro queue _; simp [audio_encoder_encode_all]
  | cons f rest ih =>
    intro queue hq
    by_cases h : queue.length < frames_queue_size
    · have h1 := ih (queue ++ [f]) (by rw [List.length_append]; simpa using h)
      have e : frames_queue_size - queue.length = (frames_queue_size - (queue.length + 1)) + 1 := by
        omega
      simp only [audio_encoder_encode_all, audio_encoder_encode, Rtp.xQueueSend, h, if_true]
      rw [h1.1, h1.2, e, List.take_succ_cons]
      refine ⟨by simp, ?_⟩
      rw [List.length_cons, List.range_succ_eq_map, List.map_cons, List.map_map]
      simp only [Nat.add_zero, h, if_true, List.length_append, List.length_singleton]
      congr 1
      apply List.map_congr_left
      intro i _
      simp only [Function.comp, Nat.succ_eq_add_one]
      rw [Nat.add_assoc, Nat.add_comm 1 i]
    · have hq2 : queue.length = frames_queue_size := by omega
      have h1 := ih queue hq
      simp only [audio_encoder_encode_all, audio_encoder_encode, Rtp.xQueueSend, h, if_false]
      rw [h1.1, h1.2, hq2]
      refine ⟨by simp, ?_⟩
      rw [List.length_cons, List.range_succ_eq_map, List.map_cons, List.map_map]
      simp only [Nat.add_zero, Nat.lt_irrefl, if_false]
      congr 1
      apply List.map_congr_left
      intro i _
      simp only [Function.comp, Nat.succ_eq_add_one]
      have a1 : ¬ (frames_queue_size + i < frames_queue_size) := by omega
      have a2 : ¬ (frames_queue_size + (i + 1) < frames_queue_size) := by omega
      simp only [a1, a2, if_false]

/-- Counterexample to C17 as stated: with the processing task making no
progress, the sixth of eleven calls of `audio_encoder_encode` already fails,
and only five frames are queued. -/
theorem intake_queue_ten_slots_counterexample :
    (audio_encoder_encode_all [] ((List.range 11).map (fun i => sample_frame i))).2
      = [0, 0, 0, 0, 0, 1, 1, 1, 1, 1, 1] ∧
    (audio_encoder_encode_all [] ((List.range 11).map (fun i => sample_frame i))).1.length
      = 5 := by
  decide

/-- C17 (amended): the intake queue of the audio encoder has 5 frame slots.
With the processing task making no progress, from the empty queue the first 5
calls of `audio_encoder_encode` return 0 and queue their frame, and every later
call returns 1 at once and leaves the queue as it is. -/
theorem intake_queue_five_slots (frames : List frame_t) :
    (audio_encoder_encode_all [] frames).2
      = (List.range frames.length).map (fun i => if i < 5 then (0 : Int) else 1) ∧
    (audio_encoder_encode_all [] frames).1 = frames.take 5 ∧
    ∀ (queue : List frame_t) (samples : List Int) (number_of_samples : Nat) (timestamp : Int)
      (free_func ctx : Nat), queue.length = 5 →
      audio_encoder_encode queue samples number_of_samples timestamp free_func ctx
        = (queue, 1) := by
  have h := audio_encoder_encode_all_spec frames [] (by decide)
  refine ⟨?_, ?_, ?_⟩
  · rw [h.2]
    simp [frames_queue_size]
  · rw [h.1]
    simp [frames_queue_size]
  · intro queue samples number_of_samples timestamp free_func ctx hq
    simp [audio_encoder_encode, Rtp.xQueueSend, hq, frames_queue_size]

/-- The theorem `intake_queue_five_slots` at a full queue. -/
theorem intake_queue_five_slots_witness :
    audio_encoder_encode ((List.range 5).map (fun i => sample_frame i))
        (List.replicate 320 0) 320 5 libc_free 0
      = ((List.range 5).map (fun i => sample_frame i), 1) :=
  (intake_queue_five_slots []).2.2 ((List.range 5).map (fun i => sample_frame i))
    (List.replicate 320 0) 320 5 libc_free 0 (by decide)

end AudioEncoder
namespace Rtp

/-! ## Sockets -/

theorem and_mask (x k w : Nat) :
    x &&& (2 ^ k * (2 ^ w - 1)) = 2 ^ k * (x / 2 ^ k % 2 ^ w) := by
  apply Nat.eq_of_testBit_eq
  intro i
  rw [Nat.testBit_and, Nat.testBit_mul_pow_two, Nat.testBit_mul_pow_two,
    Nat.testBit_mod_two_pow, Nat.testBit_two_pow_sub_one, ← Nat.shiftRight_eq_div_pow,
    Nat.testBit_shiftRight]
  by_cases h : i ≥ k
  · have hk : k + (i - k) = i := by omega
    simp [h, hk, Bool.and_comm]
  · simp [h]

/-- The macro `IN_MULTICAST` holds exactly for the addresses 224.0.0.0 to
239.255.255.255. -/
theorem IN_MULTICAST_iff (a : Nat) (h32 : a < 2 ^ 32) :
    IN_MULTICAST a = true ↔ 0xe0000000 ≤ a ∧ a ≤ 0xefffffff := by
  unfold IN_MULTICAST
  rw [decide_eq_true_iff]
  have h := and_mask a 28 4
  have e : (2 : Nat) ^ 28 * (2 ^ 4 - 1) = 0xf0000000 := by norm_num
  rw [e] at h
  rw [h]
  omega

/-- Calls of `setsockopt(IP_MULTICAST_TTL)` made by `create_socket`. -/
theorem create_socket_applied_ttls (env : net_env) (ttl : Nat) (socket_ret : Int)
    (destination : String) (port : Nat) :
    applied_ttls (create_socket env ttl socket_ret destination port).2
      = match env.inet_pton destination with
        | none => []
        | some addr =>
          if port ≠ 0 ∧ 0 ≤ socket_ret ∧ IN_MULTICAST addr = true then [(socket_ret, ttl)]
          else [] := by
  unfold create_socket
  by_cases hp : port = 0
  · simp only [hp, if_true, applied_ttls]
    cases env.inet_pton destination <;> simp
  · simp only [hp, if_false]
    cases env.inet_pton destination with
    | none => simp [applied_ttls]
    | some addr =>
      by_cases hs : socket_ret < 0
      · have hs2 : ¬ (0 ≤ socket_ret) := by omega
        simp [hs, hs2, applied_ttls]
      · have hs2 : 0 ≤ socket_ret := by omega
        by_cases hm : IN_MULTICAST addr = true
        · by_cases h1 : env.setsockopt socket_ret = 0
          · by_cases h2 : env.connect socket_ret < 0
            · simp [hs, hs2, hm, h1, h2, hp, applied_ttls]
            · simp [hs, hs2, hm, h1, h2, hp, applied_ttls]
          · simp [hs, hs2, hm, h1, hp, applied_ttls]
        · by_cases h2 : env.connect socket_ret < 0
          · simp [hs, hs2, hm, h2, hp, applied_ttls]
          · simp [hs, hs2, hm, h2, hp, applied_ttls]

/-- C18: when `create_socket` creates a socket for a stream (the port is
configured, the destination is an IPv4 address and `socket` succeeds), it
applies `IP_MULTICAST_TTL` to it, with the current value of `ttl`, if and only
if the destination lies in 224.0.0.0-239.255.255.255; for a destination
outside this range the option is never set, whatever the other inputs. -/
theorem create_socket_multicast_ttl (env : net_env) (ttl : Nat) (socket_ret : Int)
    (destination : String) (port addr : Nat)
    (haddr : env.inet_pton destination = some addr) (h32 : addr < 2 ^ 32) :
    (port ≠ 0 → 0 ≤ socket_ret →
      applied_ttls (create_socket env ttl socket_ret destination port).2
        = if 0xe0000000 ≤ addr ∧ addr ≤ 0xefffffff then [(socket_ret, ttl)] else []) ∧
    (¬ (0xe0000000 ≤ addr ∧ addr ≤ 0xefffffff) →
      applied_ttls (create_socket env ttl socket_ret destination port).2 = []) := by
  have h := create_socket_applied_ttls env ttl socket_ret destination port
  rw [haddr] at h
  simp only at h
  have hm := IN_MULTICAST_iff addr h32
  constructor
  · intro hp hs
    rw [h]
    by_cases hr : 0xe0000000 ≤ addr ∧ addr ≤ 0xefffffff
    · simp only [hp, hs, hm.2 hr, hr, ne_eq, not_false_eq_true, and_self, if_true]
    · have : ¬ (IN_MULTICAST addr = true) := fun x => hr (hm.1 x)
      simp [this, hr]
  · intro hr
    rw [h]
    have : ¬ (IN_MULTICAST addr = true) := fun x => hr (hm.1 x)
    simp [this]

/-- The theorem `create_socket_multicast_ttl` at the multicast destination
239.0.0.1 and at the unicast destination 192.168.1.10. -/
theorem create_socket_multicast_ttl_witness :
    applied_ttls (create_socket sample_net_env 7 3 "239.0.0.1" 5000).2 = [(3, 7)] ∧
    applied_ttls (create_socket sample_net_env 7 3 "192.168.1.10" 5000).2 = [] :=
  ⟨(create_socket_multicast_ttl sample_net_env 7 3 "239.0.0.1" 5000 4009754625 rfl
      (by decide)).1 (by decide) (by decide),
   (create_socket_multicast_ttl sample_net_env 7 3 "192.168.1.10" 5000 3232235786 rfl
      (by decide)).2 (by decide)⟩

end Rtp
namespace Rtp

theorem applied_ttls_append (a b : List syscall) :
    applied_ttls (a ++ b) = applied_ttls a ++ applied_ttls b := by
  induction a with
  | nil => rfl
  | cons x rest ih =>
    cases x <;> simp [applied_ttls, ih]

/-- The calls of `rtp_initialize` are those of the two calls of `create_socket`
with the value `ttl` holds on entry. -/
theorem rtp_initialize_calls (env : net_env) (rtos : rtos_env) (g : rtp_sockets)
    (destination : String) (video_port audio_port : Nat) :
    ( rtp_initialize env rtos g destination video_port audio_port).2.1
      = (create_socket env g.ttl env.socket_video destination video_port).2
        ++ (create_socket env g.ttl env.socket_audio destination audio_port).2 := by
  unfold rtp_initialize
  simp only
  split_ifs <;> rfl

/-- C19 (code defect): the start-up sequence of `app_main` calls `rtp_initialize`,
which creates both sockets and applies `IP_MULTICAST_TTL` with the statically
initialised `ttl = 1`, before `rtp_ttl_set(config_rtp_ttl_get())` stores the
configured value, which no later statement applies to a socket.  Whatever the
configuration, every hop limit applied is 1; with the multicast host 239.0.0.1
and the configured value 5, both sockets get the hop limit 1 while the
variable ends as 5. -/
theorem app_main_ttl_not_applied :
    (∀ (env : net_env) (rtos : rtos_env) (config_rtp_host : String)
        (config_rtp_video_port config_rtp_audio_port config_rtp_ttl : Nat),
      ∀ x ∈ applied_ttls (app_main_rtp env rtos config_rtp_host config_rtp_video_port
          config_rtp_audio_port config_rtp_ttl).2.1, x.2 = 1) ∧
    applied_ttls (app_main_rtp sample_net_env sample_rtos_env "239.0.0.1" 5000 5002 5).2.1
      = [(3, 1), (4, 1)] ∧
    (app_main_rtp sample_net_env sample_rtos_env "239.0.0.1" 5000 5002 5).1.ttl = 5 ∧
    (app_main_rtp sample_net_env sample_rtos_env "239.0.0.1" 5000 5002 5).2.2 = 0 := by
  refine ⟨?_, by decide, by decide, by decide⟩
  intro env rtos host vp ap t x hx
  have hc : (app_main_rtp env rtos host vp ap t).2.1
      = ( rtp_initialize env rtos rtp_sockets.init host vp ap).2.1 := by
    unfold app_main_rtp
    simp only
    split_ifs <;> rfl
  rw [hc, rtp_initialize_calls, applied_ttls_append, create_socket_applied_ttls,
    create_socket_applied_ttls] at hx
  rcases List.mem_append.1 hx with h | h
  · cases hi : env.inet_pton host with
    | none => rw [hi] at h; simp at h
    | some addr =>
      rw [hi] at h
      simp only at h
      split_ifs at h
      · rw [List.mem_singleton] at h
        rw [h]
        rfl
      · simp at h
  · cases hi : env.inet_pton host with
    | none => rw [hi] at h; simp at h
    | some addr =>
      rw [hi] at h
      simp only at h
      split_ifs at h
      · rw [List.mem_singleton] at h
        rw [h]
        rfl
      · simp at h

end Rtp
namespace Rtp

/-- Counterexample to C20 as stated: after `rtp_initialize` with the audio port
0 (which returns 0 and leaves `audio_socket = -1`), the sender handling an Opus
unit of three bytes calls `send` on the descriptor -1 with the 15-byte
datagram. -/
theorem audio_port_unconfigured_counterexample :
    ( rtp_initialize sample_net_env sample_rtos_env rtp_sockets.init "192.168.1.10" 5000 0).2.2
      = 0 ∧
    ( rtp_initialize sample_net_env sample_rtos_env rtp_sockets.init "192.168.1.10" 5000
      0).1.audio_socket = -1 ∧
    ((stream_task_send (fun _ => false) rtp_state.init (opus_frame_of [1, 2, 3] 0 7)).2.map
      (event.syscalls ( rtp_initialize sample_net_env sample_rtos_env rtp_sockets.init
        "192.168.1.10" 5000 0).1)).flatten
      = [syscall.send (-1) [128, 225, 0, 0, 0, 0, 0, 0, 222, 173, 186, 190, 1, 2, 3] false] := by
  decide

/-- C20 (amended): when the audio port is 0 and the video socket and the
FreeRTOS objects are created, `rtp_initialize` returns 0, makes no call into
the socket layer for audio and leaves `audio_socket = -1`; the sender does not
skip Opus units: for every Opus unit of at most 1000 bytes it calls `send` once,
on the descriptor -1, with the complete datagram, and `rtp_send_opus_frame`
returns 0 whatever `send` answers. -/
theorem audio_port_unconfigured (env : net_env) (rtos : rtos_env) (g : rtp_sockets)
    (destination : String) (video_port : Nat)
    (hv : 0 ≤ (create_socket env g.ttl env.socket_video destination video_port).1)
    (hq : rtos.video_queue_created = true ∧ rtos.audio_queue_created = true)
    (hs : rtos.semaphore_created = true) (ht : rtos.task_created = true) :
    ( rtp_initialize env rtos g destination video_port 0).2.2 = 0 ∧
    ( rtp_initialize env rtos g destination video_port 0).1.audio_socket = -1 ∧
    (create_socket env g.ttl env.socket_audio destination 0).2 = [] ∧
    ∀ (sendOk : Nat → Bool) (s : rtp_state) (frame : frame_t),
      frame.type = frame_type_t.FRAME_TYPE_OPUS → frame.length ≤ 1000 →
      (((stream_task_send sendOk s frame).2.map
        (event.syscalls ( rtp_initialize env rtos g destination video_port 0).1)).flatten
        = [syscall.send (-1)
            ((rtp_hdr_t.bytes
              { version := 2, p := 0, x := 0, cc := 0, m := 1, pt := 97,
                seq := htobe16 s.opus_sequence_number,
                ts := htobe32 (uint32 (Int.tdiv (int64 (frame.timestamp * 48000)) 1000000)),
                ssrc := htobe32 0xdeadbabe })
              ++ memcpy_src frame.buffer frame.length)
            (sendOk 0)] ∧
       (rtp_send_opus_frame sendOk s.opus_sequence_number frame).ret = 0) := by
  have hv2 : ¬ ((create_socket env g.ttl env.socket_video destination video_port).1 < 0) := by
    omega
  have ha : create_socket env g.ttl env.socket_audio destination 0 = (-1, []) := by
    simp [create_socket]
  have hr : rtp_initialize env rtos g destination video_port 0
      = ({ g with
            video_socket := (create_socket env g.ttl env.socket_video destination video_port).1,
            audio_socket := -1 },
          (create_socket env g.ttl env.socket_video destination video_port).2 ++ [], 0) := by
    simp [ rtp_initialize, ha, hv2, hq.1, hq.2, hs, ht]
  refine ⟨by rw [hr], by rw [hr], by rw [ha], ?_⟩
  intro sendOk s frame hty hlen
  have hl : ¬ (frame.length > 1000) := by omega
  rw [hr]
  constructor
  · simp only [stream_task_send, hty, rtp_send_opus_frame, hl, if_false, List.map_cons,
      List.map_nil, List.map_append, List.flatten_append, free_frame]
    cases frame.free_func <;>
      simp [event.syscalls, opus_packet.bytes]
  · simp [rtp_send_opus_frame, hl]

/-- The theorem `audio_port_unconfigured` at the unicast host 192.168.1.10 with
the video port 5000, and a three-byte Opus unit whose `send` fails. -/
theorem audio_port_unconfigured_witness :
    ( rtp_initialize sample_net_env sample_rtos_env rtp_sockets.init "192.168.1.10" 5000 0).2.2
      = 0 ∧
    (rtp_send_opus_frame (fun _ => false) rtp_state.init.opus_sequence_number
      (opus_frame_of [1, 2, 3] 0 7)).ret = 0 :=
  ⟨(audio_port_unconfigured sample_net_env sample_rtos_env rtp_sockets.init "192.168.1.10" 5000
      (by decide) (by decide) (by decide) (by decide)).1,
   ((audio_port_unconfigured sample_net_env sample_rtos_env rtp_sockets.init "192.168.1.10" 5000
      (by decide) (by decide) (by decide) (by decide)).2.2.2 (fun _ => false) rtp_state.init
      (opus_frame_of [1, 2, 3] 0 7) rfl (by decide)).2⟩

end Rtp

namespace AudioEncoder

/-! ## Failures in the aggregation -/

/-- Counterexample to C21 as stated: after two sub-frames were buffered, a
failure of `opus_encode` on the third makes `opus_encode_frame` return -1 with
the index still 2 and the two sub-frames still in the repacketizer. -/
theorem encode_failure_no_reset_counterexample :
    (opus_encode_frame encode_failing_libopus
      (opus_encode_frames encode_failing_libopus sample_world
        [sample_frame 0, sample_frame 20000]).1 (sample_frame 40000)).2.2 = -1 ∧
    (opus_encode_frame encode_failing_libopus
      (opus_encode_frames encode_failing_libopus sample_world
        [sample_frame 0, sample_frame 20000]).1
        (sample_frame 40000)).1.audio_encoder.current_frame = 2 ∧
    (opus_encode_frame encode_failing_libopus
      (opus_encode_frames encode_failing_libopus sample_world
        [sample_frame 0, sample_frame 20000]).1
        (sample_frame 40000)).1.audio_encoder.repacketizer = [[0], [1]] := by
  decide

/-- C21 (amended): a failure of `opus_encode` or of `opus_repacketizer_cat`
makes `opus_encode_frame` return -1 without resetting anything: the index keeps
its value and the repacketizer keeps the sub-frames it holds.  The aggregation
state is reset (index 0, `opus_repacketizer_init` applied) only at the end of a
window, when `opus_combine_packets` runs: also when `opus_repacketizer_out`
fails (the buffer is freed, -1 is returned) and when `push_audio_packet`
fails (its result is returned). -/
theorem opus_encode_frame_failures {E R : Type} (lib : libopus E R) (w : world E R)
    (frame : frame_t) (e1 : E) (ret : Int) (bytes : List Nat) (r1 : R) (cret : Int)
    (henc : lib.opus_encode w.audio_encoder.encoder frame.samples frame.number_of_samples
      opus_max_packet_size = (e1, ret, bytes))
    (hcat : lib.opus_repacketizer_cat w.audio_encoder.repacketizer bytes ret = (r1, cret)) :
    (ret < 0 →
      (opus_encode_frame lib w frame).2.2 = -1 ∧
      (opus_encode_frame lib w frame).2.1 = [] ∧
      (opus_encode_frame lib w frame).1.audio_encoder.current_frame
        = w.audio_encoder.current_frame ∧
      (opus_encode_frame lib w frame).1.audio_encoder.repacketizer
        = w.audio_encoder.repacketizer) ∧
    (0 ≤ ret → cret ≠ 0 →
      (opus_encode_frame lib w frame).2.2 = -1 ∧
      (opus_encode_frame lib w frame).2.1 = [] ∧
      (opus_encode_frame lib w frame).1.audio_encoder.current_frame
        = w.audio_encoder.current_frame ∧
      (opus_encode_frame lib w frame).1.audio_encoder.repacketizer = r1) ∧
    (0 ≤ ret → cret = 0 → w.audio_encoder.current_frame + 1 = opus_max_combined_frames →
      (lib.opus_repacketizer_out r1 (1277 * lib.opus_repacketizer_get_nb_frames r1)).1 < 0 →
      (opus_encode_frame lib w frame).2.2 = -1 ∧
      (opus_encode_frame lib w frame).2.1 = [call.free w.heap] ∧
      (opus_encode_frame lib w frame).1.audio_encoder.current_frame = 0 ∧
      (opus_encode_frame lib w frame).1.audio_encoder.repacketizer
        = lib.opus_repacketizer_init r1) ∧
    (0 ≤ ret → cret = 0 → w.audio_encoder.current_frame + 1 = opus_max_combined_frames →
      0 ≤ (lib.opus_repacketizer_out r1 (1277 * lib.opus_repacketizer_get_nb_frames r1)).1 →
      (opus_encode_frame lib w frame).2.2
        = (push_audio_packet w.rtp w.heap
            (lib.opus_repacketizer_out r1 (1277 * lib.opus_repacketizer_get_nb_frames r1)).2
            (Rtp.uint32
              (lib.opus_repacketizer_out r1 (1277 * lib.opus_repacketizer_get_nb_frames r1)).1)
            (if w.audio_encoder.current_frame = 0 then frame.timestamp
             else w.audio_encoder.first_frame_timestamp)).2 ∧
      (opus_encode_frame lib w frame).1.audio_encoder.current_frame = 0 ∧
      (opus_encode_frame lib w frame).1.audio_encoder.repacketizer
        = lib.opus_repacketizer_init r1) := by
  have henc0 : lib.opus_encode (if w.audio_encoder.current_frame = 0 then
        { w.audio_encoder with first_frame_timestamp := frame.timestamp }
      else w.audio_encoder).encoder frame.samples frame.number_of_samples opus_max_packet_size
      = (e1, ret, bytes) := by
    split_ifs <;> exact henc
  have hrp : (if w.audio_encoder.current_frame = 0 then
        { w.audio_encoder with first_frame_timestamp := frame.timestamp }
      else w.audio_encoder).repacketizer = w.audio_encoder.repacketizer := by
    split_ifs <;> rfl
  have hcf : (if w.audio_encoder.current_frame = 0 then
        { w.audio_encoder with first_frame_timestamp := frame.timestamp }
      else w.audio_encoder).current_frame = w.audio_encoder.current_frame := by
    split_ifs <;> rfl
  have hts : (if w.audio_encoder.current_frame = 0 then
        { w.audio_encoder with first_frame_timestamp := frame.timestamp }
      else w.audio_encoder).first_frame_timestamp
      = (if w.audio_encoder.current_frame = 0 then frame.timestamp
         else w.audio_encoder.first_frame_timestamp) := by
    split_ifs <;> rfl
  refine ⟨?_, ?_, ?_, ?_⟩
  · intro h
    simp only [opus_encode_frame, henc0, h, if_true, hrp, hcf]
    repeat' constructor
  · intro h hc
    have h1 : ¬ (ret < 0) := by omega
    simp only [opus_encode_frame, henc0, h1, if_false, hrp, hcat, hc, ne_eq, not_false_eq_true,
      if_true, hcf]
    repeat' constructor
  · intro h hc hw ho
    have h1 : ¬ (ret < 0) := by omega
    simp only [opus_encode_frame, henc0, h1, if_false, hrp, hcat, hc, ne_eq, not_true_eq_false,
      hcf, hw, opus_combine_packets, ho, if_true]
    repeat' constructor
  · intro h hc hw ho
    have h1 : ¬ (ret < 0) := by omega
    have h2 : ¬ ((lib.opus_repacketizer_out r1
        (1277 * lib.opus_repacketizer_get_nb_frames r1)).1 < 0) := by omega
    simp only [opus_encode_frame, henc0, h1, if_false, hrp, hcat, hc, ne_eq, not_true_eq_false,
      hcf, hw, opus_combine_packets, h2, hts]
    repeat' constructor

/-- The theorem `opus_encode_frame_failures` at a failure of `opus_encode`
on the third sub-frame and at a failure of `opus_repacketizer_out` on the
sixth. -/
theorem opus_encode_frame_failures_witness :
    ((opus_encode_frame encode_failing_libopus
      (opus_encode_frames encode_failing_libopus sample_world
        [sample_frame 0, sample_frame 20000]).1 (sample_frame 40000)).2.2 = -1 ∧
     (opus_encode_frame encode_failing_libopus
      (opus_encode_frames encode_failing_libopus sample_world
        [sample_frame 0, sample_frame 20000]).1 (sample_frame 40000)).2.1 = [] ∧
     (opus_encode_frame encode_failing_libopus
      (opus_encode_frames encode_failing_libopus sample_world
        [sample_frame 0, sample_frame 20000]).1
        (sample_frame 40000)).1.audio_encoder.current_frame = 2 ∧
     (opus_encode_frame encode_failing_libopus
      (opus_encode_frames encode_failing_libopus sample_world
        [sample_frame 0, sample_frame 20000]).1
        (sample_frame 40000)).1.audio_encoder.repacketizer = [[0], [1]]) ∧
    ((opus_encode_frame out_failing_libopus
      (opus_encode_frames out_failing_libopus sample_world
        ((List.range 5).map (fun i => sample_frame (20000 * i)))).1
        (sample_frame 100000)).2.2 = -1 ∧
     (opus_encode_frame out_failing_libopus
      (opus_encode_frames out_failing_libopus sample_world
        ((List.range 5).map (fun i => sample_frame (20000 * i)))).1
        (sample_frame 100000)).2.1 = [call.free 0] ∧
     (opus_encode_frame out_failing_libopus
      (opus_encode_frames out_failing_libopus sample_world
        ((List.range 5).map (fun i => sample_frame (20000 * i)))).1
        (sample_frame 100000)).1.audio_encoder.current_frame = 0 ∧
     (opus_encode_frame out_failing_libopus
      (opus_encode_frames out_failing_libopus sample_world
        ((List.range 5).map (fun i => sample_frame (20000 * i)))).1
        (sample_frame 100000)).1.audio_encoder.repacketizer = []) :=
  ⟨(opus_encode_frame_failures encode_failing_libopus
      (opus_encode_frames encode_failing_libopus sample_world
        [sample_frame 0, sample_frame 20000]).1 (sample_frame 40000)
      3 (-1) [] [[0], [1], []] 0 (by decide) (by decide)).1 (by decide),
   (opus_encode_frame_failures out_failing_libopus
      (opus_encode_frames out_failing_libopus sample_world
        ((List.range 5).map (fun i => sample_frame (20000 * i)))).1 (sample_frame 100000)
      6 1 [5] [[0], [1], [2], [3], [4], [5]] 0 (by decide) (by decide)).2.2.1
      (by decide) (by decide) (by decide) (by decide)⟩

end AudioEncoder
namespace AudioEncoder

/-! ## Range of the aggregation index -/

/-- One call of `opus_encode_frame` from an index below 6, whatever libopus
answers: the index stays below 6, the scratch buffers stay allocated, and
`opus_combine_packets` runs (one call of `free` or of `push_audio_packet` is
observed) exactly when both libopus calls succeed and the incremented index is
6. -/
theorem opus_encode_frame_index {E R : Type} (lib : libopus E R) (w : world E R)
    (frame : frame_t) (hcf : w.audio_encoder.current_frame < opus_max_combined_frames) :
    (opus_encode_frame lib w frame).1.audio_encoder.current_frame < opus_max_combined_frames ∧
    (opus_encode_frame lib w frame).1.audio_encoder.pending_frames.length
      = w.audio_encoder.pending_frames.length ∧
    ((opus_encode_frame lib w frame).2.1 ≠ [] ↔
      (0 ≤ (lib.opus_encode w.audio_encoder.encoder frame.samples frame.number_of_samples
          opus_max_packet_size).2.1 ∧
       (lib.opus_repacketizer_cat w.audio_encoder.repacketizer
          (lib.opus_encode w.audio_encoder.encoder frame.samples frame.number_of_samples
            opus_max_packet_size).2.2
          (lib.opus_encode w.audio_encoder.encoder frame.samples frame.number_of_samples
            opus_max_packet_size).2.1).2 = 0 ∧
       w.audio_encoder.current_frame + 1 = opus_max_combined_frames)) ∧
    ((opus_encode_frame lib w frame).1.audio_encoder.current_frame
      = if (opus_encode_frame lib w frame).2.1 ≠ [] then 0
        else if (opus_encode_frame lib w frame).2.2 = 0 then w.audio_encoder.current_frame + 1
        else w.audio_encoder.current_frame) := by
  rcases henc : lib.opus_encode w.audio_encoder.encoder frame.samples frame.number_of_samples
      opus_max_packet_size with ⟨e1, ret, bytes⟩
  rcases hcat : lib.opus_repacketizer_cat w.audio_encoder.repacketizer bytes ret with ⟨r1, cret⟩
  have henc0 : lib.opus_encode (if w.audio_encoder.current_frame = 0 then
        { w.audio_encoder with first_frame_timestamp := frame.timestamp }
      else w.audio_encoder).encoder frame.samples frame.number_of_samples opus_max_packet_size
      = (e1, ret, bytes) := by
    split_ifs <;> exact henc
  have hrp : (if w.audio_encoder.current_frame = 0 then
        { w.audio_encoder with first_frame_timestamp := frame.timestamp }
      else w.audio_encoder).repacketizer = w.audio_encoder.repacketizer := by
    split_ifs <;> rfl
  have hcf0 : (if w.audio_encoder.current_frame = 0 then
        { w.audio_encoder with first_frame_timestamp := frame.timestamp }
      else w.audio_encoder).current_frame = w.audio_encoder.current_frame := by
    split_ifs <;> rfl
  have hpf0 : (if w.audio_encoder.current_frame = 0 then
        { w.audio_encoder with first_frame_timestamp := frame.timestamp }
      else w.audio_encoder).pending_frames = w.audio_encoder.pending_frames := by
    split_ifs <;> rfl
  by_cases h1 : ret < 0
  · have h1b : ¬ (0 ≤ ret) := by omega
    simp [opus_encode_frame, henc0, h1, h1b, hrp, hcf0, hpf0, hcf]
  · have h1b : 0 ≤ ret := by omega
    by_cases h2 : cret = 0
    · by_cases h3 : w.audio_encoder.current_frame + 1 = opus_max_combined_frames
      · have hpos : 0 < opus_max_combined_frames := by decide
        by_cases h4 : (lib.opus_repacketizer_out r1
            (1277 * lib.opus_repacketizer_get_nb_frames r1)).1 < 0
        · simp [opus_encode_frame, henc0, h1, h1b, hrp, hcf0, hpf0, hcat, h2, h3,
            opus_combine_packets, h4, hpos]
        · simp [opus_encode_frame, henc0, h1, h1b, hrp, hcf0, hpf0, hcat, h2, h3,
            opus_combine_packets, h4, hpos]
      · have h5 : w.audio_encoder.current_frame + 1 < opus_max_combined_frames := by omega
        simp [opus_encode_frame, henc0, h1, h1b, hrp, hcf0, hpf0, hcat, h2, h3, h5]
    · simp [opus_encode_frame, henc0, h1, h1b, hrp, hcf0, hpf0, hcat, h2, hcf]

/-- The index and the scratch buffers after any sequence of calls. -/
theorem opus_encode_frames_index {E R : Type} (lib : libopus E R) :
    ∀ (frames : List frame_t) (w : world E R),
      w.audio_encoder.current_frame < opus_max_combined_frames →
      (opus_encode_frames lib w frames).1.audio_encoder.current_frame
          < opus_max_combined_frames ∧
      (opus_encode_frames lib w frames).1.audio_encoder.pending_frames.length
          = w.audio_encoder.pending_frames.length := by
  intro frames
  induction frames with
  | nil => intro w h; exact ⟨h, rfl⟩
  | cons f rest ih =>
    intro w h
    have h1 := opus_encode_frame_index lib w f h
    have h2 := ih (opus_encode_frame lib w f).1 h1.1
    simp only [opus_encode_frames]
    exact ⟨h2.1, h2.2.trans h1.2.1⟩

/-- C25: from the state `opus_init` establishes (index 0, 6 scratch buffers),
after any number of calls of `opus_encode_frame` and whatever libopus and the
scheduler answer, the index is below 6 and 6 scratch buffers are allocated, so
`pending_frames[current_frame]` is always one of them; and in every call from
such a state `opus_combine_packets` runs exactly when the sub-frame was
encoded and concatenated and the incremented index is 6, the index being 0
afterwards. -/
theorem aggregation_index_in_range {E R : Type} (lib : libopus E R) (w : world E R)
    (h0 : w.audio_encoder.current_frame = 0)
    (hpf : w.audio_encoder.pending_frames.length = opus_max_combined_frames)
    (frames : List frame_t) (frame : frame_t) :
    (opus_encode_frames lib w frames).1.audio_encoder.current_frame < 6 ∧
    (opus_encode_frames lib w frames).1.audio_encoder.pending_frames.length = 6 ∧
    ((opus_encode_frame lib (opus_encode_frames lib w frames).1 frame).2.1 ≠ [] ↔
      (0 ≤ (lib.opus_encode (opus_encode_frames lib w frames).1.audio_encoder.encoder
          frame.samples frame.number_of_samples opus_max_packet_size).2.1 ∧
       (lib.opus_repacketizer_cat (opus_encode_frames lib w frames).1.audio_encoder.repacketizer
          (lib.opus_encode (opus_encode_frames lib w frames).1.audio_encoder.encoder
            frame.samples frame.number_of_samples opus_max_packet_size).2.2
          (lib.opus_encode (opus_encode_frames lib w frames).1.audio_encoder.encoder
            frame.samples frame.number_of_samples opus_max_packet_size).2.1).2 = 0 ∧
       (opus_encode_frames lib w frames).1.audio_encoder.current_frame + 1 = 6)) ∧
    ((opus_encode_frame lib (opus_encode_frames lib w frames).1 frame).2.1 ≠ [] →
      (opus_encode_frame lib (opus_encode_frames lib w frames).1
        frame).1.audio_encoder.current_frame = 0) := by
  have hw : w.audio_encoder.current_frame < opus_max_combined_frames := by
    rw [h0]; decide
  have h1 := opus_encode_frames_index lib frames w hw
  have h2 := opus_encode_frame_index lib (opus_encode_frames lib w frames).1 frame h1.1
  refine ⟨h1.1, ?_, h2.2.2.1, ?_⟩
  · rw [h1.2, hpf]; rfl
  · intro hne
    rw [h2.2.2.2, if_pos hne]

/-- The theorem `aggregation_index_in_range` after five sub-frames: the index
is 5, the sixth call flushes and leaves the index 0. -/
theorem aggregation_index_in_range_witness :
    (opus_encode_frames sample_libopus sample_world
      ((List.range 5).map (fun i => sample_frame (20000 * i)))).1.audio_encoder.current_frame
        < 6 ∧
    (opus_encode_frame sample_libopus (opus_encode_frames sample_libopus sample_world
      ((List.range 5).map (fun i => sample_frame (20000 * i)))).1
      (sample_frame 100000)).1.audio_encoder.current_frame = 0 :=
  ⟨(aggregation_index_in_range sample_libopus sample_world rfl rfl
      ((List.range 5).map (fun i => sample_frame (20000 * i))) (sample_frame 100000)).1,
   (aggregation_index_in_range sample_libopus sample_world rfl rfl
      ((List.range 5).map (fun i => sample_frame (20000 * i))) (sample_frame 100000)).2.2.2
      (by decide)⟩

end AudioEncoder

namespace Rtp

/-! ## Failures of send -/

/-- The loop of `rtp_send_jpeg_data` leaves at the first failed `send`: a
failed call is the last one made. -/
theorem jpeg_loop_stops (sendOk : Nat → Bool) (jpeg_data : Nat → Nat) (q : Nat)
    (qtbl_hdr : jpeg_hdr_qtable_t) (lqt cqt : Nat → Nat) :
    ∀ (fuel n : Nat) (rtp_hdr : rtp_hdr_t) (jpg_hdr : jpeg_hdr_t) (b i : Nat)
      (k : jpeg_packet × Bool),
      (jpeg_loop sendOk jpeg_data q qtbl_hdr lqt cqt fuel n rtp_hdr jpg_hdr b).1[i]? = some k →
      k.2 = false →
      (jpeg_loop sendOk jpeg_data q qtbl_hdr lqt cqt fuel n rtp_hdr jpg_hdr b).1.length
        = i + 1 := by
  intro fuel
  induction fuel with
  | zero =>
    intro n rtp_hdr jpg_hdr b i k hk _
    simp [jpeg_loop] at hk
  | succ fuel ih =>
    intro n rtp_hdr jpg_hdr b i k hk hf
    by_cases hb : b > 0
    · by_cases hs : sendOk n = true
      · simp only [jpeg_loop, hb, if_true, hs] at hk ⊢
        cases i with
        | zero =>
          simp only [List.getElem?_cons_zero, Option.some.injEq] at hk
          rw [← hk] at hf
          simp at hf
        | succ i =>
          simp only [List.getElem?_cons_succ] at hk
          simp only [List.length_cons]
          rw [ih _ _ _ _ i k hk hf]
      · simp only [jpeg_loop, hb, if_true, hs] at hk ⊢
        cases i with
        | zero => rfl
        | succ i => simp at hk
    · simp [jpeg_loop, hb] at hk

/-- Counterexample to C22 as stated: for the same JPEG unit and the same
counter value 0, the counter after the unit is 1 when its `send` succeeds and
0 when it fails. -/
theorem send_failure_counter_counterexample :
    (rtp_send_jpeg_frame (fun _ => true) 0 (jpeg_frame_of sample_jpeg 0 0)).sequence_number
      = 1 ∧
    (rtp_send_jpeg_frame (fun _ => false) 0 (jpeg_frame_of sample_jpeg 0 0)).sequence_number
      = 0 ∧
    (rtp_send_jpeg_frame (fun _ => false) 0 (jpeg_frame_of sample_jpeg 0 0)).sent.length
      = 1 := by
  decide

/-- C22 (amended): a failed `send` is never retried and does not touch the
queues or the semaphore, and the Opus counter advances by one whatever `send`
answers; but the JPEG counter counts only the successful calls: it ends at the
old value plus their number, and the first failed call ends the frame (no later
fragment of it is sent). -/
theorem send_failure_effects (sendOk : Nat → Bool) (sequence_number : Nat) (frame : frame_t)
    (hseq : sequence_number < 65536) :
    (rtp_send_jpeg_frame sendOk sequence_number frame).sequence_number
      = (sequence_number + (rtp_send_jpeg_frame sendOk sequence_number frame).sent.countP
          (fun k => k.2)) % 65536 ∧
    (∀ (i : Nat) (k : jpeg_packet × Bool),
      (rtp_send_jpeg_frame sendOk sequence_number frame).sent[i]? = some k →
      be16toh k.1.rtp_hdr.seq = (sequence_number + i) % 65536 ∧
      (k.2 = false →
        (rtp_send_jpeg_frame sendOk sequence_number frame).sent.length = i + 1)) ∧
    (rtp_send_opus_frame sendOk sequence_number frame).sequence_number
      = (sequence_number + 1) % 65536 ∧
    (rtp_send_opus_frame sendOk sequence_number frame).sent.length ≤ 1 ∧
    (∀ s : rtp_state,
      (stream_task_send sendOk s frame).1.video_queue = s.video_queue ∧
      (stream_task_send sendOk s frame).1.audio_queue = s.audio_queue ∧
      (stream_task_send sendOk s frame).1.queue_semaphore = s.queue_semaphore) := by
  obtain ⟨h1, h2⟩ := rtp_send_jpeg_frame_seq sendOk sequence_number frame hseq
  refine ⟨h1, ?_, ?_, ?_, fun s => stream_task_send_state sendOk s frame⟩
  · intro i k hk
    refine ⟨(h2 i k hk).2, ?_⟩
    intro hf
    unfold rtp_send_jpeg_frame at hk ⊢
    cases hp : parse_jpeg frame none none none 0 with
    | fail => rw [hp] at hk; simp at hk
    | ok lqt cqt scan len =>
      rw [hp] at hk
      simp only at hk ⊢
      exact jpeg_loop_stops sendOk _ _ _ _ _ _ _ _ _ _ i k hk hf
  · unfold rtp_send_opus_frame
    split_ifs <;> rfl
  · unfold rtp_send_opus_frame
    split_ifs <;> simp

/-- The theorem `send_failure_effects` at a JPEG unit and at an Opus unit whose
only `send` fails. -/
theorem send_failure_effects_witness :
    (rtp_send_jpeg_frame (fun _ => false) 7 (jpeg_frame_of sample_jpeg 0 0)).sequence_number
      = (7 + (rtp_send_jpeg_frame (fun _ => false) 7
          (jpeg_frame_of sample_jpeg 0 0)).sent.countP (fun k => k.2)) % 65536 ∧
    (rtp_send_opus_frame (fun _ => false) 7 (opus_frame_of [1, 2, 3] 0 0)).sequence_number
      = (7 + 1) % 65536 :=
  ⟨(send_failure_effects (fun _ => false) 7 (jpeg_frame_of sample_jpeg 0 0) (by decide)).1,
   (send_failure_effects (fun _ => false) 7 (opus_frame_of [1, 2, 3] 0 0)
      (by decide)).2.2.1⟩

end Rtp
namespace Rtp

/-! ## Dimensions in the JPEG header -/

/-- C23 (code defect): `rtp_send_jpeg_data` stores `width / 8` and `height / 8`
in 8-bit fields, so every datagram carries them modulo 256.  For the
resolutions of `resolution_to_frame_size` with a width below 2048 the fields
are `width / 8` and `height / 8`; for 2048x1536, 2560x1440, 2560x1600 and
2560x1920 the width field is not `width / 8`: a 2560x1920 frame is announced
with the width field 64 (512 pixels) instead of 320. -/
theorem jpeg_header_dimensions_truncated :
    (∀ (sendOk : Nat → Bool) (start_seq ts ssrc : Nat) (jpeg_data : Nat → Nat)
        (len type typespec : Nat) (width height : Int) (q : Nat) (lqt cqt : Nat → Nat)
        (i : Nat) (k : jpeg_packet × Bool),
      (rtp_send_jpeg_data sendOk start_seq ts ssrc jpeg_data len type typespec width height q
        lqt cqt).1[i]? = some k →
      (k.1.jpg_hdr.width : Int) = (Int.tdiv width 8) % 256 ∧
      (k.1.jpg_hdr.height : Int) = (Int.tdiv height 8) % 256) ∧
    (∀ r ∈ resolutions, r.2.1 < 2048 →
      (Int.tdiv r.2.1 8) % 256 = r.2.1 / 8 ∧ (Int.tdiv r.2.2 8) % 256 = r.2.2 / 8) ∧
    (resolutions.filter (fun r => decide ((Int.tdiv r.2.1 8) % 256 ≠ r.2.1 / 8))).map (fun r => r.1)
      = ["2048x1536", "2560x1440", "2560x1600", "2560x1920"] ∧
    (rtp_send_jpeg_frame (fun _ => true) 0 (jpeg_frame_sized 2560 1920 sample_jpeg)).sent.map
        (fun k => (k.1.jpg_hdr.width, k.1.jpg_hdr.height))
      = [(64, 240)] ∧
    ((2560 : Int) / 8 = 320 ∧ (1920 : Int) / 8 = 240) := by
  refine ⟨?_, by decide, by decide, by decide, by decide⟩
  intro sendOk start_seq ts ssrc jpeg_data len type typespec width height q lqt cqt i k hk
  obtain ⟨_, _, h3⟩ := (rtp_send_jpeg_data_packets sendOk start_seq ts ssrc jpeg_data len type
    typespec width height q lqt cqt).2 i k hk
  rw [h3]
  simp only [uint8]
  constructor
  · exact Int.toNat_of_nonneg (Int.emod_nonneg _ (by decide))
  · exact Int.toNat_of_nonneg (Int.emod_nonneg _ (by decide))

end Rtp
namespace Rtp

/-! ## The counting semaphore -/

/-- C24: in every state reached from the initial state by enqueues and
iterations of the sender loop, the count of the semaphore is the number of
units in the video queue plus the number in the audio queue and is at most 20;
hence `xSemaphoreGive` succeeds whenever a queue has accepted a unit (an enqueue
is either refused with the state unchanged or returns 0), and once the sender
has taken the semaphore at least one queue is non-empty, so an iteration that
gets past the semaphore always dequeues a unit. -/
theorem semaphore_counts_queued_units (s : rtp_state) (h : reachable s) :
    s.queue_semaphore = s.video_queue.length + s.audio_queue.length ∧
    s.queue_semaphore ≤ 20 ∧
    ((s.video_queue.length < video_queue_size ∨ s.audio_queue.length < audio_queue_size) →
      xSemaphoreGive (video_queue_size + audio_queue_size) s.queue_semaphore
        = some (s.queue_semaphore + 1)) ∧
    (∀ frame : frame_t,
      ((add_frame_to_queue s frame).2 = -1 ∧ (add_frame_to_queue s frame).1 = s) ∨
      ((add_frame_to_queue s frame).2 = 0 ∧
        (add_frame_to_queue s frame).1.queue_semaphore = s.queue_semaphore + 1)) ∧
    (∀ count : Nat, xSemaphoreTake s.queue_semaphore = some count →
      (xQueueReceive s.audio_queue ≠ none ∨ xQueueReceive s.video_queue ≠ none) ∧
      stream_task_dequeued s ≠ none) := by
  have hinv := reachable_inv s h
  obtain ⟨h1, h2, h3⟩ := hinv
  unfold video_queue_size at h2
  unfold audio_queue_size at h3
  refine ⟨h1, by omega, ?_, ?_, ?_⟩
  · intro hlt
    unfold video_queue_size audio_queue_size at hlt
    have : s.queue_semaphore < 10 + 10 := by omega
    simp [xSemaphoreGive, video_queue_size, audio_queue_size, this]
  · intro frame
    rcases (add_frame_to_queue_inv s frame (reachable_inv s h)).2 with ⟨a, b⟩ | ⟨a, b, _⟩
    · exact Or.inl ⟨a, b⟩
    · exact Or.inr ⟨a, b⟩
  · intro count hc
    have hpos : 0 < s.queue_semaphore := by
      unfold xSemaphoreTake at hc
      by_contra hn
      simp [hn] at hc
    cases ha : s.audio_queue with
    | cons f rest =>
      simp [xQueueReceive, stream_task_dequeued, xSemaphoreTake, hpos, ha]
    | nil =>
      cases hv : s.video_queue with
      | cons f rest =>
        simp [xQueueReceive, stream_task_dequeued, xSemaphoreTake, hpos, ha, hv]
      | nil =>
        rw [ha, hv] at h1
        simp at h1
        omega

/-- The theorem `semaphore_counts_queued_units` at the state reached by ten
enqueues of JPEG units. -/
theorem semaphore_counts_queued_units_witness :
    (run rtp_state.init ten_jpeg).1.queue_semaphore
      = (run rtp_state.init ten_jpeg).1.video_queue.length
        + (run rtp_state.init ten_jpeg).1.audio_queue.length ∧
    (run rtp_state.init ten_jpeg).1.queue_semaphore ≤ 20 ∧
    stream_task_dequeued (run rtp_state.init ten_jpeg).1 ≠ none :=
  ⟨(semaphore_counts_queued_units (run rtp_state.init ten_jpeg).1 ⟨ten_jpeg, rfl⟩).1,
   (semaphore_counts_queued_units (run rtp_state.init ten_jpeg).1 ⟨ten_jpeg, rfl⟩).2.1,
   ((semaphore_counts_queued_units (run rtp_state.init ten_jpeg).1 ⟨ten_jpeg, rfl⟩).2.2.2.2
      9 (by decide)).2⟩

end Rtp

namespace AudioEncoder

/-! ## Raw frames refused by the intake queue -/

/-- A raw frame that is neither queued nor captured later is never released:
the releases of a run are those of frames that were queued at its start or
captured during it. -/
theorem task_run_releases {E R : Type} (lib : libopus E R) (c : Nat) :
    ∀ (acts : List task_action) (st : world E R × List frame_t),
      (∀ f ∈ st.2, f.ctx ≠ c) →
      (∀ a ∈ acts, a.pcm_buffer ≠ some c) →
      ∀ func, task_event.release func c ∉ (task_run lib st acts).2 := by
  intro acts
  induction acts with
  | nil =>
    intro st _ _ func
    simp [task_run]
  | cons a rest ih =>
    intro st hq ha func
    have hrest : ∀ x ∈ rest, x.pcm_buffer ≠ some c :=
      fun x hx => ha x (List.mem_cons_of_mem _ hx)
    have ha0 := ha a (List.mem_cons_self _ _)
    simp only [task_run, List.mem_append, not_or]
    cases a with
    | capture pcm_buffer read_ok samples pcm_length timestamp =>
      have hp : pcm_buffer ≠ c := by
        intro hpc
        apply ha0
        simp [task_action.pcm_buffer, hpc]
      have hq1 : ∀ f ∈ (task_step lib st (task_action.capture pcm_buffer read_ok samples
          pcm_length timestamp)).1.2, f.ctx ≠ c := by
        intro f hf
        simp only [task_step, microphone_capture_task_step, audio_encoder_encode,
          Rtp.xQueueSend] at hf
        split_ifs at hf
        · exact hq f hf
        · simp only [List.mem_append, List.mem_singleton] at hf
          rcases hf with hf | hf
          · exact hq f hf
          · rw [hf]; exact hp
        · exact hq f hf
      refine ⟨?_, ih _ hq1 hrest func⟩
      simp only [task_step, microphone_capture_task_step]
      split_ifs <;> simp
    | encode =>
      cases hqueue : st.2 with
      | nil =>
        have hs : task_step lib st task_action.encode = (st, []) := by
          simp [task_step, audio_encoder_task_step, Rtp.xQueueReceive, hqueue]
        rw [hs]
        exact ⟨by simp, ih st hq hrest func⟩
      | cons f tail =>
        have hs : task_step lib st task_action.encode
            = (((opus_encode_frame lib st.1 f).1, tail),
                (opus_encode_frame lib st.1 f).2.1.map task_event.aggregation
                  ++ [task_event.release f.free_func f.ctx]) := by
          simp [task_step, audio_encoder_task_step, Rtp.xQueueReceive, hqueue]
        rw [hs]
        have hf : f.ctx ≠ c := hq f (by rw [hqueue]; exact List.mem_cons_self _ _)
        have hq1 : ∀ g ∈ tail, g.ctx ≠ c :=
          fun g hg => hq g (by rw [hqueue]; exact List.mem_cons_of_mem _ hg)
        refine ⟨?_, ih _ hq1 hrest func⟩
        simp only [List.mem_append, List.mem_map, List.mem_singleton, not_or, not_exists,
          not_and]
        refine ⟨fun x _ hx => (by cases hx), ?_⟩
        intro he
        injection he with _ h2
        exact hf h2.symm

/-- C26: when the intake queue is full, `audio_encoder_encode` returns 1 and
leaves the queue as it is; the iteration of `microphone_capture_task` that made
the call leaves the queue as it is and calls no release; and in every later run
of the two tasks (in which `malloc` does not hand out the buffer again, as it
was never freed) the release callback is never called for the buffer: the frame
is released zero times. -/
theorem intake_full_frame_never_released {E R : Type} (lib : libopus E R) (w : world E R)
    (frames_queue : List frame_t) (pcm_buffer : Nat) (samples : List Int) (pcm_length : Nat)
    (timestamp : Int) (acts : List task_action)
    (hfull : frames_queue.length = frames_queue_size)
    (hfresh : ∀ f ∈ frames_queue, f.ctx ≠ pcm_buffer)
    (hacts : ∀ a ∈ acts, a.pcm_buffer ≠ some pcm_buffer) :
    audio_encoder_encode frames_queue samples (pcm_length / 2) timestamp libc_free pcm_buffer
      = (frames_queue, 1) ∧
    microphone_capture_task_step frames_queue pcm_buffer true samples pcm_length timestamp
      = (frames_queue, []) ∧
    ∀ func, task_event.release func pcm_buffer ∉
      (task_run lib (w, frames_queue)
        (task_action.capture pcm_buffer true samples pcm_length timestamp :: acts)).2 := by
  have h1 : audio_encoder_encode frames_queue samples (pcm_length / 2) timestamp libc_free
      pcm_buffer = (frames_queue, 1) := by
    simp [audio_encoder_encode, Rtp.xQueueSend, hfull]
  have h2 : microphone_capture_task_step frames_queue pcm_buffer true samples pcm_length
      timestamp = (frames_queue, []) := by
    simp [microphone_capture_task_step, h1]
  refine ⟨h1, h2, ?_⟩
  intro func
  have h3 := task_run_releases lib pcm_buffer acts (w, frames_queue) hfresh hacts func
  simp only [task_run, task_step, h2, List.nil_append]
  exact h3

/-- The theorem `intake_full_frame_never_released` at a queue holding the
buffers 0 to 4, the refused buffer 5, and a run that encodes the five queued
frames and captures into the buffer 6. -/
theorem intake_full_frame_never_released_witness :
    audio_encoder_encode sample_full_queue
        (List.replicate 320 0) (640 / 2) 5 libc_free 5
      = (sample_full_queue, 1) ∧
    task_event.release libc_free 5 ∉
      (task_run sample_libopus
        (sample_world, sample_full_queue)
        (task_action.capture 5 true (List.replicate 320 0) 640 5 ::
          [task_action.encode, task_action.encode, task_action.encode, task_action.encode,
           task_action.encode, task_action.capture 6 true (List.replicate 320 0) 640 6,
           task_action.encode])).2 :=
  ⟨(intake_full_frame_never_released sample_libopus sample_world
      sample_full_queue 5
      (List.replicate 320 0) 640 5
      [task_action.encode, task_action.encode, task_action.encode, task_action.encode,
        task_action.encode, task_action.capture 6 true (List.replicate 320 0) 640 6,
        task_action.encode]
      (by decide) (by decide) (by decide)).1,
   (intake_full_frame_never_released sample_libopus sample_world
      sample_full_queue 5
      (List.replicate 320 0) 640 5
      [task_action.encode, task_action.encode, task_action.encode, task_action.encode,
        task_action.encode, task_action.capture 6 true (List.replicate 320 0) 640 6,
        task_action.encode]
      (by decide) (by decide) (by decide)).2.2 libc_free⟩

end AudioEncoder

namespace Rtp

/-! ## Reassembly of the scan data -/

theorem memcpy_src_add (f : Nat → Nat) (a c : Nat) :
    memcpy_src f (a + c) = memcpy_src f a ++ memcpy_src (fun j => f (a + j)) c := by
  unfold memcpy_src
  rw [List.range_add, List.map_append, List.map_map]
  rfl

/-- With every `send` succeeding and the scan ending below 2^24, the payloads
of the datagrams the loop of `rtp_send_jpeg_data` emits for the `b` bytes from
offset `o`, concatenated in the order of emission, are these `b` bytes, and the
offset field of each datagram is `o` plus the number of payload bytes emitted
before it. -/
theorem jpeg_loop_reassembly (sendOk : Nat → Bool) (hok : ∀ j, sendOk j = true)
    (jpeg_data : Nat → Nat) (q : Nat) (qtbl_hdr : jpeg_hdr_qtable_t) (lqt cqt : Nat → Nat) :
    ∀ (fuel n : Nat) (rtp_hdr : rtp_hdr_t) (jpg_hdr : jpeg_hdr_t) (b o : Nat),
      b ≤ fuel → jpg_hdr.off = htobe24 o → o + b < 2 ^ 24 →
      ((jpeg_loop sendOk jpeg_data q qtbl_hdr lqt cqt fuel n rtp_hdr jpg_hdr b).1.map
          (fun k => k.1.data)).flatten
        = memcpy_src (fun j => jpeg_data (o + j)) b ∧
      ∀ (i : Nat) (k : jpeg_packet × Bool),
        (jpeg_loop sendOk jpeg_data q qtbl_hdr lqt cqt fuel n rtp_hdr jpg_hdr b).1[i]? = some k →
        be24toh k.1.jpg_hdr.off
          = o + (((jpeg_loop sendOk jpeg_data q qtbl_hdr lqt cqt fuel n rtp_hdr jpg_hdr b).1.take
              i).map (fun k => k.1.data.length)).sum := by
  intro fuel
  induction fuel with
  | zero =>
    intro n rtp_hdr jpg_hdr b o hb _ _
    have hb0 : b = 0 := by omega
    subst hb0
    simp [jpeg_loop, memcpy_src]
  | succ fuel ih =>
    intro n rtp_hdr jpg_hdr b o hb hoff h24
    by_cases hb0 : b = 0
    · subst hb0
      simp [jpeg_loop, memcpy_src]
    · have hpos : b > 0 := Nat.pos_of_ne_zero hb0
      have hoff2 : be24toh jpg_hdr.off = o := by
        rw [hoff, be24toh_htobe24_mod]
        exact Nat.mod_eq_of_lt (by omega)
      -- the number of scan bytes of the first datagram
      obtain ⟨d, hd, hdpos, hdle⟩ : ∃ d : Nat,
          (if decide (PACKET_SIZE - (if decide (q ≥ 128 ∧ jpg_hdr.off = 0) = true then
                sizeof_rtp_hdr_t + sizeof_jpeg_hdr_t + sizeof_jpeg_hdr_qtable_t + 64 + 64
              else sizeof_rtp_hdr_t + sizeof_jpeg_hdr_t) ≥ b) = true then b
            else PACKET_SIZE - (if decide (q ≥ 128 ∧ jpg_hdr.off = 0) = true then
                sizeof_rtp_hdr_t + sizeof_jpeg_hdr_t + sizeof_jpeg_hdr_qtable_t + 64 + 64
              else sizeof_rtp_hdr_t + sizeof_jpeg_hdr_t)) = d ∧ 0 < d ∧ d ≤ b := by
        refine ⟨_, rfl, ?_, ?_⟩
        · simp only [PACKET_SIZE, sizeof_rtp_hdr_t, sizeof_jpeg_hdr_t, sizeof_jpeg_hdr_qtable_t]
          split_ifs <;> omega
        · simp only [PACKET_SIZE, sizeof_rtp_hdr_t, sizeof_jpeg_hdr_t, sizeof_jpeg_hdr_qtable_t]
          split_ifs <;> simp_all <;> omega
      have hrec := ih (n + 1)
        { (if decide (PACKET_SIZE - (if decide (q ≥ 128 ∧ jpg_hdr.off = 0) = true then
                sizeof_rtp_hdr_t + sizeof_jpeg_hdr_t + sizeof_jpeg_hdr_qtable_t + 64 + 64
              else sizeof_rtp_hdr_t + sizeof_jpeg_hdr_t) ≥ b) = true then
            { rtp_hdr with m := 1 } else rtp_hdr) with
          seq := htobe16 (be16toh (if decide (PACKET_SIZE - (if decide (q ≥ 128 ∧
                jpg_hdr.off = 0) = true then
                sizeof_rtp_hdr_t + sizeof_jpeg_hdr_t + sizeof_jpeg_hdr_qtable_t + 64 + 64
              else sizeof_rtp_hdr_t + sizeof_jpeg_hdr_t) ≥ b) = true then
            { rtp_hdr with m := 1 } else rtp_hdr).seq + 1) }
        { jpg_hdr with off := htobe24 (o + d) } (b - d) (o + d) (by omega) rfl (by omega)
      simp only [jpeg_loop, hpos, if_true, hok, hd, hoff2]
      obtain ⟨r1, r2⟩ := hrec
      constructor
      · simp only [List.map_cons, List.flatten_cons]
        rw [r1]
        have hbd : b = d + (b - d) := by omega
        conv_rhs => rw [hbd, memcpy_src_add]
        simp only [Nat.add_assoc]
      · intro i k hk
        cases i with
        | zero =>
          simp only [List.getElem?_cons_zero, Option.some.injEq] at hk
          rw [← hk]
          simp [hoff2]
        | succ i =>
          simp only [List.getElem?_cons_succ] at hk
          rw [r2 i k hk]
          simp only [List.take_succ_cons, List.map_cons, List.sum_cons, memcpy_src_length]
          omega

end Rtp
namespace Rtp

/-- C27: for scan data of less than 2^24 bytes, with or without embedded
tables (any `q`) and every `send` succeeding, the payloads of the datagrams
emitted by `rtp_send_jpeg_data`, concatenated in the order of emission, are
exactly the scan data; the offset field of each datagram is the number of
payload bytes emitted before it, and its payload is the scan data from that
position on. -/
theorem fragmentation_reassembly (sendOk : Nat → Bool) (hok : ∀ j, sendOk j = true)
    (start_seq ts ssrc : Nat) (jpeg_data : Nat → Nat) (len type typespec : Nat)
    (width height : Int) (q : Nat) (lqt cqt : Nat → Nat) (hlen : len < 2 ^ 24) :
    ((rtp_send_jpeg_data sendOk start_seq ts ssrc jpeg_data len type typespec width height q
        lqt cqt).1.map (fun k => k.1.data)).flatten
      = memcpy_src jpeg_data len ∧
    ∀ (i : Nat) (k : jpeg_packet × Bool),
      (rtp_send_jpeg_data sendOk start_seq ts ssrc jpeg_data len type typespec width height q
        lqt cqt).1[i]? = some k →
      be24toh k.1.jpg_hdr.off
        = (((rtp_send_jpeg_data sendOk start_seq ts ssrc jpeg_data len type typespec width
            height q lqt cqt).1.take i).map (fun k => k.1.data.length)).sum ∧
      k.1.data = memcpy_src (fun j => jpeg_data (be24toh k.1.jpg_hdr.off + j))
        k.1.data.length := by
  obtain ⟨h1, h2⟩ := jpeg_loop_reassembly sendOk hok jpeg_data q
    { mbz := 0, precision := 0, length := htobe16 128 } lqt cqt len 0
    { version := 2, p := 0, x := 0, cc := 0, m := 0, pt := RTP_PT_JPEG,
      seq := htobe16 start_seq, ts := htobe32 ts, ssrc := htobe32 ssrc }
    { tspec := typespec, off := 0, type := type, q := q,
      width := uint8 (Int.tdiv width 8), height := uint8 (Int.tdiv height 8) }
    len 0 (Nat.le_refl _) htobe24_zero.symm (by omega)
  constructor
  · unfold rtp_send_jpeg_data
    rw [h1]
    simp only [Nat.zero_add]
  · intro i k hk
    constructor
    · have := h2 i k hk
      rw [Nat.zero_add] at this
      exact this
    · obtain ⟨_, _, g3⟩ := (rtp_send_jpeg_data_packets sendOk start_seq ts ssrc jpeg_data len
        type typespec width height q lqt cqt).2 i k hk
      rw [g3]
      simp only [be24toh_htobe24_mod, memcpy_src_length]

/-- The theorem `fragmentation_reassembly` at 3000 bytes of scan data sent
with embedded tables. -/
theorem fragmentation_reassembly_witness :
    ((rtp_send_jpeg_data (fun _ => true) 0 0 0 (fun i => i % 251) 3000 0 0 640 480 128
        (fun _ => 1) (fun _ => 2)).1.map (fun k => k.1.data)).flatten
      = memcpy_src (fun i => i % 251) 3000 :=
  (fragmentation_reassembly (fun _ => true) (fun _ => rfl) 0 0 0 (fun i => i % 251) 3000 0 0
    640 480 128 (fun _ => 1) (fun _ => 2) (by decide)).1

end Rtp

namespace Rtp

/-! ## Reads of parse_jpeg behind the frame -/

/-- C28 (code defect): `parse_jpeg` reads behind the end of the frame.  Its
loop only checks `ptr < length` before reading `ptr[1]`, `ptr[2]`, `ptr[3]` and
`ptr[4]`, so its result depends on bytes that are not part of the frame: two
frames that hold the same single byte 0xff give different results according to
the byte at index 1; two frames that hold the same two bytes 0xff 0xdb,
according to the byte at index 4; two frames that hold the same two bytes
0xff 0xda, according to the bytes at indices 2 and 3; two frames that hold the
same three bytes 0xff 0xe0 0x00, according to the byte at index 3. -/
theorem parse_jpeg_reads_behind_frame :
    ((∀ i, i < 1 →
        (jpeg_frame_in [0xff, 0xd8] 1).buffer i = (jpeg_frame_in [0xff, 0x00] 1).buffer i) ∧
     parse_jpeg (jpeg_frame_in [0xff, 0xd8] 1) none none none 0
        = parse_result.ok none none none 0 ∧
     parse_jpeg (jpeg_frame_in [0xff, 0x00] 1) none none none 0 = parse_result.fail) ∧
    ((∀ i, i < 2 →
        (jpeg_frame_in [0xff, 0xdb, 9, 9, 0] 2).buffer i
          = (jpeg_frame_in [0xff, 0xdb, 9, 9, 1] 2).buffer i) ∧
     parse_jpeg (jpeg_frame_in [0xff, 0xdb, 9, 9, 0] 2) none none none 0
        = parse_result.ok (some 5) none none 0 ∧
     parse_jpeg (jpeg_frame_in [0xff, 0xdb, 9, 9, 1] 2) none none none 0
        = parse_result.ok none (some 5) none 0) ∧
    ((∀ i, i < 2 →
        (jpeg_frame_in [0xff, 0xda, 0, 2] 2).buffer i
          = (jpeg_frame_in [0xff, 0xda, 1, 0] 2).buffer i) ∧
     parse_jpeg (jpeg_frame_in [0xff, 0xda, 0, 2] 2) none none none 0
        = parse_result.ok none none (some 4) 4294967292 ∧
     parse_jpeg (jpeg_frame_in [0xff, 0xda, 1, 0] 2) none none none 0
        = parse_result.ok none none (some 258) 4294967038) ∧
    ((∀ i, i < 3 →
        (jpeg_frame_in [0xff, 0xe0, 0, 0] 3).buffer i
          = (jpeg_frame_in [0xff, 0xe0, 0, 3] 3).buffer i) ∧
     parse_jpeg (jpeg_frame_in [0xff, 0xe0, 0, 0] 3) none none none 0 = parse_result.fail ∧
     parse_jpeg (jpeg_frame_in [0xff, 0xe0, 0, 3] 3) none none none 0
        = parse_result.ok none none none 0) := by
  decide

end Rtp
namespace Rtp

/-! ## The scan region of a truncated frame -/

/-- The first call of `send` of the loop of `rtp_send_jpeg_data` when there are
bytes left and no table is embedded: it carries the bytes from the current
offset, as many as fit. -/
theorem jpeg_loop_head (sendOk : Nat → Bool) (jpeg_data : Nat → Nat) (q : Nat) (hq : q < 128)
    (qtbl_hdr : jpeg_hdr_qtable_t) (lqt cqt : Nat → Nat) (fuel n : Nat) (rtp_hdr : rtp_hdr_t)
    (jpg_hdr : jpeg_hdr_t) (b : Nat) (hb : 0 < b) (hf : 0 < fuel) :
    (jpeg_loop sendOk jpeg_data q qtbl_hdr lqt cqt fuel n rtp_hdr jpg_hdr b).1.head?.map
        (fun k => k.1.data)
      = some (memcpy_src (fun i => jpeg_data (be24toh jpg_hdr.off + i)) (min 1280 b)) := by
  obtain ⟨f, rfl⟩ : ∃ f, fuel = f + 1 := ⟨fuel - 1, by omega⟩
  have hb2 : b > 0 := hb
  have hnq : ¬ (q ≥ 128 ∧ jpg_hdr.off = 0) := by omega
  have hmin : (if decide (1300 - (12 + 8) ≥ b) = true then b else 1300 - (12 + 8))
      = min 1280 b := by
    split_ifs <;> simp_all
    all_goals omega
  simp only [jpeg_loop, hb2, if_true, hnq, decide_False, Bool.false_eq_true, if_false,
    PACKET_SIZE, sizeof_rtp_hdr_t, sizeof_jpeg_hdr_t, hmin]
  cases sendOk n <;> simp

/-- C29 (code defect): on the six bytes FF D8 FF DA 00 02 (a frame cut right
after the SOS header) `parse_jpeg` succeeds with the scan at offset 6 and
`len = 4294967294`: the subtraction `length - (scan - buffer) - 2` wraps around,
`scan + len + 2` is not the frame length, and `rtp_send_jpeg_frame` goes on to
send a first datagram of 1280 bytes read from the indices 6 to 1285, all behind
the frame. -/
theorem parse_jpeg_scan_length_wraps :
    parse_jpeg (jpeg_frame_of [0xff, 0xd8, 0xff, 0xda, 0x00, 0x02] 0 0) none none none 0
      = parse_result.ok none none (some 6) 4294967294 ∧
    6 + 4294967294 + 2 ≠ (jpeg_frame_of [0xff, 0xd8, 0xff, 0xda, 0x00, 0x02] 0 0).length ∧
    ∀ sendOk : Nat → Bool,
      (rtp_send_jpeg_frame sendOk 0
          (jpeg_frame_of [0xff, 0xd8, 0xff, 0xda, 0x00, 0x02] 0 0)).sent.head?.map
          (fun k => k.1.data)
        = some (memcpy_src (fun i =>
            (jpeg_frame_of [0xff, 0xd8, 0xff, 0xda, 0x00, 0x02] 0 0).buffer (6 + i)) 1280) := by
  have hp : parse_jpeg (jpeg_frame_of [0xff, 0xd8, 0xff, 0xda, 0x00, 0x02] 0 0) none none none 0
      = parse_result.ok none none (some 6) 4294967294 := by decide
  refine ⟨hp, by decide, ?_⟩
  intro sendOk
  simp only [rtp_send_jpeg_frame, hp, rtp_send_jpeg_data]
  rw [jpeg_loop_head sendOk _ _ (by simp) _ _ _ _ _ _ _ _ (by decide) (by decide)]
  have hz : be24toh 0 = 0 := by
    have h := be24toh_htobe24_mod 0
    rw [htobe24_zero] at h
    exact h
  rw [hz]
  have hm : min 1280 4294967294 = 1280 := by decide
  rw [hm]
  simp only [deref, Nat.zero_add]

end Rtp
namespace Rtp

/-! ## Frames without a scan -/

/-- C30: on a frame made only of well-formed SOI, DQT, SOF0, DHT and APP0
segments (the empty frame included) `parse_jpeg` succeeds and leaves the scan
pointer and the length as they were on entry, `NULL` and 0; then
`rtp_send_jpeg_frame` calls `send` for no datagram, returns 0 and leaves the
sequence counter unchanged. -/
theorem frame_without_scan (frame : frame_t) (segs : List segment) (hwf : ∀ g ∈ segs, g.wf)
    (hbuf : frame.buffer = bytes_at (segments_bytes segs))
    (hlen : frame.length = (segments_bytes segs).length)
    (sendOk : Nat → Bool) (sequence_number : Nat) (hseq : sequence_number < 65536) :
    parse_jpeg frame none none none 0
      = parse_result.ok (segments_tables 0 segs (none, none)).1
          (segments_tables 0 segs (none, none)).2 none 0 ∧
    (rtp_send_jpeg_frame sendOk sequence_number frame).sent = [] ∧
    (rtp_send_jpeg_frame sendOk sequence_number frame).ret = 0 ∧
    (rtp_send_jpeg_frame sendOk sequence_number frame).sequence_number = sequence_number := by
  have hp : parse_jpeg frame none none none 0
      = parse_result.ok (segments_tables 0 segs (none, none)).1
          (segments_tables 0 segs (none, none)).2 none 0 := by
    obtain ⟨fuel, h1, _, _⟩ := parse_jpeg_after_segments_tables frame segs []
      hwf (by rw [List.append_nil]; exact hbuf) (by rw [List.append_nil]; exact hlen)
      none none none 0
    rw [h1, ← hlen]
    cases fuel with
    | zero => rfl
    | succ f => simp [parse_jpeg_loop]
  refine ⟨hp, ?_, ?_, ?_⟩
  · simp [rtp_send_jpeg_frame, hp, rtp_send_jpeg_data, jpeg_loop]
  · simp [rtp_send_jpeg_frame, hp]
  · simp only [rtp_send_jpeg_frame, hp, rtp_send_jpeg_data, jpeg_loop, be16toh_htobe16,
      Nat.mod_mod]
    exact Nat.mod_eq_of_lt hseq

/-- The theorem `frame_without_scan` at the empty frame and at the two bytes
FF D8. -/
theorem frame_without_scan_witness :
    (parse_jpeg (jpeg_frame_of [] 0 0) none none none 0 = parse_result.ok none none none 0 ∧
     (rtp_send_jpeg_frame (fun _ => true) 7 (jpeg_frame_of [] 0 0)).sent = [] ∧
     (rtp_send_jpeg_frame (fun _ => true) 7 (jpeg_frame_of [] 0 0)).ret = 0 ∧
     (rtp_send_jpeg_frame (fun _ => true) 7 (jpeg_frame_of [] 0 0)).sequence_number = 7) ∧
    (parse_jpeg (jpeg_frame_of [0xff, 0xd8] 0 0) none none none 0
        = parse_result.ok none none none 0 ∧
     (rtp_send_jpeg_frame (fun _ => true) 7 (jpeg_frame_of [0xff, 0xd8] 0 0)).sent = [] ∧
     (rtp_send_jpeg_frame (fun _ => true) 7 (jpeg_frame_of [0xff, 0xd8] 0 0)).ret = 0 ∧
     (rtp_send_jpeg_frame (fun _ => true) 7 (jpeg_frame_of [0xff, 0xd8] 0 0)).sequence_number
        = 7) :=
  ⟨frame_without_scan (jpeg_frame_of [] 0 0) [] (fun _ h => by cases h) rfl rfl
      (fun _ => true) 7 (by decide),
   frame_without_scan (jpeg_frame_of [0xff, 0xd8] 0 0) [segment.soi]
      (fun g h => by rw [List.mem_singleton] at h; subst h; trivial) rfl rfl
      (fun _ => true) 7 (by decide)⟩

end Rtp
